import Mathlib

/-!
# Speech scoring pipeline: a shallow embedding

The embedded program is the scoring core of the `talk` repository:
`SpeechAnalyzer.js` (lexical features of a transcript),
`TOEFLAnalyzer.js` (five sub-scores, their weighted aggregate, the level)
and `ImprovementPlanner.js` (priority areas and the plan built from them).

Modelling conventions.

* A JavaScript string is the list of its UTF-16 code units (`JsString`).
* A JavaScript number that can be `NaN` or infinite is a `JsNum`; finite
  numbers are exact rationals.  Scores are built from the literals `5`, `1`
  and `0.5` only, so they are finite and are carried as `ℚ`.  Rounding error
  of binary floating point is outside the embedding, and so is the sign of
  zero; the one exception is the weighted score of `assess`, which is also
  given in binary64 arithmetic (`Binary64.assess`), because the level read
  from it depends on the rounding.
* Regular expressions are values of the small type `Regex`, run by a
  backtracking matcher that follows the order of the ECMAScript matcher
  (alternatives left to right, `+` greedy).  All expressions of the source
  carry the flags `g` and `i` and none carries `u`.
-/

namespace Talk

/-! ## Strings -/

/-- A JavaScript string: its UTF-16 code units. -/
abbrev JsString := List Nat

/-- UTF-16 encoding of one Unicode scalar value. -/
def utf16 (c : Char) : List Nat :=
  if c.toNat < 65536 then [c.toNat]
  else [55296 + (c.toNat - 65536) / 1024, 56320 + (c.toNat - 65536) % 1024]

/-- The JavaScript string written by a string literal. -/
def js (s : String) : JsString := (s.toList.map utf16).flatten

/-- The class `\s`, which is also the set `trim` strips: WhiteSpace and
LineTerminator of ECMAScript. -/
def isWhiteSpace (u : Nat) : Bool :=
  u == 9 || u == 10 || u == 11 || u == 12 || u == 13 || u == 32 || u == 160 ||
  u == 5760 || (8192 ≤ u && u ≤ 8202) || u == 8232 || u == 8233 || u == 8239 ||
  u == 8287 || u == 12288 || u == 65279

/-- The class `\w` without the `u` flag: ASCII letters, digits and `_`. -/
def isWordChar (u : Nat) : Bool :=
  (48 ≤ u && u ≤ 57) || (65 ≤ u && u ≤ 90) || u == 95 || (97 ≤ u && u ≤ 122)

/-- Canonicalize of the `i` flag without `u`: a code unit is compared through
its upper-case form, and a code unit above 127 is never identified with an
ASCII one, so only `a`..`z` move. -/
def canonicalize (u : Nat) : Nat :=
  if 97 ≤ u && u ≤ 122 then u - 32 else u

/-- A pattern character under the `i` flag. -/
def ciChar (c : Char) (u : Nat) : Bool :=
  canonicalize c.toNat == canonicalize u

/-- A class `[...]` of listed characters under the `i` flag. -/
def ciClass (cs : List Char) (u : Nat) : Bool :=
  cs.any (fun c => ciChar c u)

/-- The method `String.prototype.trim`. -/
def trim (s : JsString) : JsString :=
  ((s.dropWhile isWhiteSpace).reverse.dropWhile isWhiteSpace).reverse

/-- The method `String.prototype.endsWith` with a literal argument
(case-sensitive). -/
def endsWith (s : JsString) (lit : String) : Bool :=
  (js lit).isSuffixOf s

/-- The call `s.split(/C+/)` for a character class `C`: the pieces between the
maximal runs of class characters, an empty piece included when the string
starts or ends in a run.  The flag says that the preceding code unit was a
separator. -/
def splitRuns (p : Nat → Bool) : Bool → JsString → List JsString
  | _, [] => [[]]
  | inSep, c :: cs =>
    if p c then
      (if inSep then splitRuns p true cs else [] :: splitRuns p true cs)
    else
      match splitRuns p false cs with
      | piece :: rest => (c :: piece) :: rest
      | [] => [[c]]

/-- The call `s.split(/C+/)`. -/
def splitOn (p : Nat → Bool) (s : JsString) : List JsString :=
  splitRuns p false s

/-! ## Regular expressions -/

/-- The regular expressions the source uses. -/
inductive Regex where
  | eps : Regex
  | cls (p : Nat → Bool) : Regex
  | plus (p : Nat → Bool) : Regex
  | wordB : Regex
  | seq (a b : Regex) : Regex
  | alt (a b : Regex) : Regex

/-- The assertion `\b` between the previous code unit and the rest. -/
def isWordBoundary (prev : Option Nat) (rest : JsString) : Bool :=
  (match prev with
    | some c => isWordChar c
    | none => false) !=
  (match rest with
    | c :: _ => isWordChar c
    | [] => false)

/-- Greedy `C+`: take as many class characters as possible, give one back at
a time while the continuation fails. -/
def plusRun (p : Nat → Bool) (k : Option Nat → JsString → Option JsString) :
    JsString → Option JsString
  | [] => none
  | c :: cs =>
    if p c then
      match plusRun p k cs with
      | some r => some r
      | none => k (some c) cs
    else none

/-- The backtracking matcher, in continuation-passing style: `prev` is the
code unit before the current position, the result is the input left after
the whole match. -/
def Regex.run : Regex → (Option Nat → JsString → Option JsString) →
    Option Nat → JsString → Option JsString
  | .eps, k, prev, s => k prev s
  | .cls p, k, _, s =>
    match s with
    | c :: cs => if p c then k (some c) cs else none
    | [] => none
  | .plus p, k, _, s => plusRun p k s
  | .wordB, k, prev, s => if isWordBoundary prev s then k prev s else none
  | .seq a b, k, prev, s => a.run (b.run k) prev s
  | .alt a b, k, prev, s =>
    match a.run k prev s with
    | some r => some r
    | none => b.run k prev s

/-- One match attempt at the current position. -/
def matchAt (re : Regex) (prev : Option Nat) (s : JsString) : Option JsString :=
  re.run (fun _ r => some r) prev s

/-- The number of matches a `g` expression finds from the current position.
The scan visits every position once; `skip` counts the positions still
covered by the last match (a match of length `n` at `i` moves `lastIndex`
to `i + n`, an empty match moves it to `i + 1`). -/
def countFrom (re : Regex) : Nat → Option Nat → JsString → Nat
  | 0, prev, [] => if (matchAt re prev []).isSome then 1 else 0
  | _ + 1, _, [] => 0
  | 0, prev, c :: cs =>
    match matchAt re prev (c :: cs) with
    | some r => 1 + countFrom re ((c :: cs).length - r.length - 1) (some c) cs
    | none => countFrom re 0 (some c) cs
  | n + 1, _, c :: cs => countFrom re n (some c) cs

/-- The expression `(s.match(re) || []).length` for a `g` expression. -/
def matchCount (re : Regex) (s : JsString) : Nat :=
  countFrom re 0 none s

/-- The characters of a literal pattern word, in sequence, under `i`. -/
def Regex.lit (w : String) : Regex :=
  w.toList.foldr (fun c r => Regex.seq (Regex.cls (ciChar c)) r) Regex.eps

/-- An alternation `(w1|w2|...)` of literal words. -/
def Regex.oneOf : List String → Regex
  | [] => Regex.cls (fun _ => false)
  | [w] => Regex.lit w
  | w :: ws => Regex.alt (Regex.lit w) (Regex.oneOf ws)

/-- The pattern `\b(w1|w2|...)\b`. -/
def Regex.words (ws : List String) : Regex :=
  Regex.seq Regex.wordB (Regex.seq (Regex.oneOf ws) Regex.wordB)

/-! ## Numbers -/

/-- A JavaScript number: `NaN`, an infinity, or a finite value. -/
inductive JsNum where
  | nan : JsNum
  | negInf : JsNum
  | fin (q : ℚ) : JsNum
  | posInf : JsNum

/-- The comparison `a < b`; it is false when either side is `NaN`. -/
def JsNum.lt : JsNum → JsNum → Bool
  | .nan, _ => false
  | _, .nan => false
  | .negInf, .negInf => false
  | .negInf, _ => true
  | .fin _, .negInf => false
  | .fin a, .fin b => decide (a < b)
  | .fin _, .posInf => true
  | .posInf, _ => false

/-- The comparison `a > b`. -/
def JsNum.gt (a b : JsNum) : Bool := JsNum.lt b a

/-- The function `Math.round` on a finite number: halves go up. -/
def jsRound (x : ℚ) : ℤ := ⌊x + 1 / 2⌋

/-- The function `Math.round`. -/
def JsNum.round : JsNum → JsNum
  | .fin q => .fin (jsRound q)
  | x => x

/-- The product `a * b`. -/
def JsNum.mul : JsNum → JsNum → JsNum
  | .nan, _ => .nan
  | _, .nan => .nan
  | .fin a, .fin b => .fin (a * b)
  | .fin a, .posInf => if a = 0 then .nan else if 0 < a then .posInf else .negInf
  | .fin a, .negInf => if a = 0 then .nan else if 0 < a then .negInf else .posInf
  | .posInf, .fin b => if b = 0 then .nan else if 0 < b then .posInf else .negInf
  | .negInf, .fin b => if b = 0 then .nan else if 0 < b then .negInf else .posInf
  | .posInf, .posInf => .posInf
  | .posInf, .negInf => .negInf
  | .negInf, .posInf => .negInf
  | .negInf, .negInf => .posInf

/-- The quotient `a / b` (a zero divisor is `+0`). -/
def JsNum.div : JsNum → JsNum → JsNum
  | .nan, _ => .nan
  | _, .nan => .nan
  | .fin a, .fin b =>
    if b = 0 then (if a = 0 then .nan else if 0 < a then .posInf else .negInf)
    else .fin (a / b)
  | .fin _, .posInf => .fin 0
  | .fin _, .negInf => .fin 0
  | .posInf, .fin b => if 0 ≤ b then .posInf else .negInf
  | .negInf, .fin b => if 0 ≤ b then .negInf else .posInf
  | .posInf, .posInf => .nan
  | .posInf, .negInf => .nan
  | .negInf, .posInf => .nan
  | .negInf, .negInf => .nan

/-! ## The speech-analysis record (output of `SpeechAnalyzer.analyze`) -/

/-- The object `fillerAnalysis`. -/
structure FillerAnalysis where
  totalFillers : Nat
  fillerPercentage : JsNum
  fillerBreakdown : List (String × Nat)
  score : ℚ

/-- The object `dictionAnalysis`. -/
structure DictionAnalysis where
  vocabularyDiversity : JsNum
  vagueWords : JsNum
  weakWords : JsNum
  score : ℚ

/-- The object `sentenceVariety`. -/
structure SentenceVariety where
  short : Nat
  medium : Nat
  long : Nat

/-- The object `structureAnalysis`. -/
structure StructureAnalysis where
  avgSentenceLength : JsNum
  sentenceVariety : SentenceVariety
  score : ℚ

/-- An entry of `repetitiveWords`. -/
structure WordCount where
  word : JsString
  count : Nat
  deriving DecidableEq

/-- The object `clarityAnalysis`. -/
structure ClarityAnalysis where
  repetitiveWords : List WordCount
  incompleteThoughts : JsNum
  score : ℚ

/-- The result of `SpeechAnalyzer.analyze`. -/
structure SpeechAnalysis where
  wordsPerMinute : JsNum
  duration : JsNum
  totalWords : Nat
  fillerAnalysis : FillerAnalysis
  dictionAnalysis : DictionAnalysis
  structureAnalysis : StructureAnalysis
  clarityAnalysis : ClarityAnalysis
  overallScore : ℚ
  recommendations : List String

/-! ## SpeechAnalyzer.js

`String.prototype.toLowerCase` applies the Unicode case mapping, whose tables
are not part of the embedding: the analyzer takes it as the parameter
`toLowerCase`.  On a string of ASCII code units it is `asciiLowerCase`. -/

/-- Lower-casing of the ASCII letters, other code units unchanged. -/
def asciiLowerCase (s : JsString) : JsString :=
  s.map (fun u => if 65 ≤ u && u ≤ 90 then u + 32 else u)

/-- The list `this.fillerWords`. -/
def fillerWords : List String :=
  ["um", "uh", "er", "ah", "like", "you know", "i mean", "basically",
    "actually", "literally", "sort of", "kind of", "right", "okay",
    "well", "so", "then", "now", "just", "really", "very", "quite"]

/-- The list `this.vagueWords`. -/
def vagueWords : List String :=
  ["thing", "stuff", "something", "anything", "everything", "nothing",
    "somewhere", "anywhere", "everywhere", "nowhere", "somehow", "anyhow",
    "whatever", "whenever", "wherever", "whoever", "whichever"]

/-- The list `this.weakWords`. -/
def weakWords : List String :=
  ["maybe", "perhaps", "possibly", "probably", "might", "could", "would",
    "should", "seems", "appears", "looks like", "sort of", "kind of"]

/-- The expression `transcript.toLowerCase().split(/\s+/)`. -/
def wordsOf (toLowerCase : JsString → JsString) (transcript : JsString) : List JsString :=
  splitOn isWhiteSpace (toLowerCase transcript)

/-- The number of matches of the pattern `\bw\b` with flags `gi`, built by
`new RegExp` from a listed word (the listed words hold letters and blanks
only, so each character stands for itself). -/
def countWord (w : String) (transcript : JsString) : Nat :=
  matchCount (Regex.words [w]) transcript

/-- The sum over a word list of the match counts, as the `forEach` loops of
`analyzeDiction` accumulate it (a word without a match adds nothing). -/
def countListed (ws : List String) (transcript : JsString) : Nat :=
  ws.foldl (fun total w => total + countWord w transcript) 0

/-- The method `scoreFillerWords`. -/
def scoreFillerWords (percentage : JsNum) : ℚ :=
  if percentage.lt (.fin 2) then 5
  else if percentage.lt (.fin 5) then 4
  else if percentage.lt (.fin 10) then 3
  else if percentage.lt (.fin 15) then 2
  else 1

/-- The method `scoreDiction`. -/
def scoreDiction (diversity : JsNum) (vagueCount weakCount : Nat) : ℚ :=
  let score : ℚ := 5
  let score :=
    if diversity.lt (.fin 0.3) then score - 2
    else if diversity.lt (.fin 0.5) then score - 1
    else score
  let score := if vagueCount > 5 then score - 1 else score
  let score := if weakCount > 3 then score - 1 else score
  max 1 score

/-- The method `scoreSentenceStructure`. -/
def scoreSentenceStructure (avgLength : JsNum) (sentenceCount : Nat) : ℚ :=
  let score : ℚ := 5
  let score :=
    if avgLength.lt (.fin 8) || avgLength.gt (.fin 25) then score - 1 else score
  let score := if sentenceCount < 3 then score - 1 else score
  max 1 score

/-- The method `scoreClarity`. -/
def scoreClarity (repetitiveCount : Nat) (incompleteCount : Nat) : ℚ :=
  let score : ℚ := 5
  let score := if repetitiveCount > 2 then score - 1 else score
  let score := if incompleteCount > 1 then score - 1 else score
  max 1 score

/-- The loop of `analyzeFillerWords` over `this.fillerWords`: it keeps the
breakdown object (a key is added for each filler with a match, in list
order) and the running total. -/
def fillerLoop (transcript : JsString) : List (String × Nat) × Nat :=
  fillerWords.foldl
    (fun (acc : List (String × Nat) × Nat) filler =>
      let found := countWord filler transcript
      if found > 0 then (acc.1 ++ [(filler, found)], acc.2 + found) else acc)
    ([], 0)

/-- The method `analyzeFillerWords`. -/
def analyzeFillerWords (toLowerCase : JsString → JsString) (transcript : JsString) :
    FillerAnalysis :=
  let words := wordsOf toLowerCase transcript
  let fillerCounts := (fillerLoop transcript).1
  let totalFillers := (fillerLoop transcript).2
  let fillerPercentage :=
    JsNum.mul (JsNum.div (.fin totalFillers) (.fin words.length)) (.fin 100)
  { totalFillers := totalFillers
    fillerPercentage := JsNum.div (JsNum.round (JsNum.mul fillerPercentage (.fin 100))) (.fin 100)
    fillerBreakdown := fillerCounts
    score := scoreFillerWords fillerPercentage }

/-- The method `analyzeDiction`.  The size of `new Set(words)` is the number
of distinct words. -/
def analyzeDiction (toLowerCase : JsString → JsString) (transcript : JsString) :
    DictionAnalysis :=
  let words := wordsOf toLowerCase transcript
  let uniqueWords := words.eraseDups
  let vocabularyDiversity := JsNum.div (.fin uniqueWords.length) (.fin words.length)
  let vagueCount := countListed vagueWords transcript
  let weakCount := countListed weakWords transcript
  { vocabularyDiversity :=
      JsNum.div (JsNum.round (JsNum.mul vocabularyDiversity (.fin 1000))) (.fin 1000)
    vagueWords := .fin vagueCount
    weakWords := .fin weakCount
    score := scoreDiction vocabularyDiversity vagueCount weakCount }

/-- The sentence list that `analyzeSentenceStructure`, `assessGrammar` and
`assessCoherence` build:
`transcript.split(/[.!?]+/).filter(s => s.trim().length > 0)`. -/
def sentencesOf (transcript : JsString) : List JsString :=
  (splitOn (ciClass ['.', '!', '?']) transcript).filter (fun s => (trim s).length > 0)

/-- The expression `s.trim().split(/\s+/).length` of a sentence. -/
def sentenceWordCount (s : JsString) : Nat :=
  (splitOn isWhiteSpace (trim s)).length

/-- The sum `sentences.reduce((sum, sentence) => sum + ..., 0)`. -/
def sentenceWordTotal (sentences : List JsString) : Nat :=
  sentences.foldl (fun sum sentence => sum + sentenceWordCount sentence) 0

/-- The method `analyzeSentenceStructure`. -/
def analyzeSentenceStructure (transcript : JsString) : StructureAnalysis :=
  let sentences := sentencesOf transcript
  let avgSentenceLength :=
    JsNum.div (.fin (sentenceWordTotal sentences)) (.fin sentences.length)
  let shortSentences := (sentences.filter (fun s => sentenceWordCount s ≤ 10)).length
  let mediumSentences :=
    (sentences.filter (fun s => sentenceWordCount s > 10 && sentenceWordCount s ≤ 20)).length
  let longSentences := (sentences.filter (fun s => sentenceWordCount s > 20)).length
  { avgSentenceLength := JsNum.div (JsNum.round (JsNum.mul avgSentenceLength (.fin 10))) (.fin 10)
    sentenceVariety := ⟨shortSentences, mediumSentences, longSentences⟩
    score := scoreSentenceStructure avgSentenceLength sentences.length }

/-- The property names every plain object inherits from `Object.prototype`
other than `__proto__`: reading one of them from the fresh `wordFrequency`
object yields a function, so `(wordFrequency[word] || 0) + 1` is a string. -/
def inheritedKeys : List String :=
  ["constructor", "__defineGetter__", "__defineSetter__", "hasOwnProperty",
    "__lookupGetter__", "__lookupSetter__", "isPrototypeOf", "propertyIsEnumerable",
    "toString", "valueOf", "toLocaleString"]

/-- The value of a key that is an array index (a canonical decimal numeral
below `2^32 - 1`); `Object.entries` lists such keys first, in ascending
order. -/
def arrayIndex (w : JsString) : Option Nat :=
  match w with
  | [] => none
  | d :: ds =>
    if (d :: ds).all (fun u => 48 ≤ u && u ≤ 57) && (d != 48 || ds.isEmpty) then
      let n := (d :: ds).foldl (fun acc u => 10 * acc + (u - 48)) 0
      if n < 4294967295 then some n else none
    else none

/-- One pass of the loop `wordFrequency[word] = (wordFrequency[word] || 0) + 1`
over a table of own properties in insertion order.  A value is `some n` for
a number and `none` for the string an inherited name produces; the
assignment to `__proto__` reaches the inherited setter, which ignores a
string, and creates no property. -/
def bumpFrequency (table : List (JsString × Option Nat)) (word : JsString) :
    List (JsString × Option Nat) :=
  if word = js "__proto__" then table
  else if table.any (fun entry => entry.1 == word) then
    table.map (fun entry =>
      if entry.1 == word then (entry.1, entry.2.map (fun n => n + 1)) else entry)
  else if inheritedKeys.any (fun key => js key == word) then table ++ [(word, none)]
  else table ++ [(word, some 1)]

/-- Insertion of an entry into a list sorted by array index. -/
def insertIndexed (e : Nat × JsString × Option Nat) :
    List (Nat × JsString × Option Nat) → List (Nat × JsString × Option Nat)
  | [] => [e]
  | x :: xs => if e.1 ≤ x.1 then e :: x :: xs else x :: insertIndexed e xs

/-- The call `Object.entries` on a table of own properties: array-index keys
in ascending order, then the other keys in insertion order. -/
def objectEntries (table : List (JsString × Option Nat)) : List (JsString × Option Nat) :=
  let indexed :=
    table.foldl
      (fun acc entry =>
        match arrayIndex entry.1 with
        | some n => insertIndexed (n, entry) acc
        | none => acc)
      []
  indexed.map (fun e => e.2) ++ table.filter (fun entry => (arrayIndex entry.1).isNone)

/-- The count `incompleteThoughts` of `analyzeClarity`:
`/but\s|however\s|although\s|though\s/gi`. -/
def incompleteThoughtCount (transcript : JsString) : Nat :=
  matchCount
    (Regex.alt (Regex.seq (Regex.lit "but") (Regex.cls isWhiteSpace))
      (Regex.alt (Regex.seq (Regex.lit "however") (Regex.cls isWhiteSpace))
        (Regex.alt (Regex.seq (Regex.lit "although") (Regex.cls isWhiteSpace))
          (Regex.seq (Regex.lit "though") (Regex.cls isWhiteSpace)))))
    transcript

/-- The method `analyzeClarity`. -/
def analyzeClarity (toLowerCase : JsString → JsString) (transcript : JsString) :
    ClarityAnalysis :=
  let words := wordsOf toLowerCase transcript
  let wordFrequency := words.foldl bumpFrequency []
  let repetitiveWords :=
    (objectEntries wordFrequency).filterMap (fun entry =>
      match entry.2 with
      | some count => if count > 3 && entry.1.length > 3 then some ⟨entry.1, count⟩ else none
      | none => none)
  let incompleteThoughts := incompleteThoughtCount transcript
  { repetitiveWords := repetitiveWords
    incompleteThoughts := .fin incompleteThoughts
    score := scoreClarity repetitiveWords.length incompleteThoughts }

/-- The method `calculateOverallScore`, on the four scores and the rate. -/
def calculateOverallScore (fillerAnalysis : FillerAnalysis) (dictionAnalysis : DictionAnalysis)
    (structureAnalysis : StructureAnalysis) (clarityAnalysis : ClarityAnalysis)
    (wordsPerMinute : JsNum) : ℚ :=
  let scores := [fillerAnalysis.score, dictionAnalysis.score, structureAnalysis.score,
    clarityAnalysis.score]
  let avgScore : ℚ := scores.foldl (fun (sum score : ℚ) => sum + score) 0 / (scores.length : ℚ)
  let rateAdjustment : ℚ :=
    if wordsPerMinute.lt (.fin 120) then -0.5
    else if wordsPerMinute.gt (.fin 200) then -0.5
    else 0
  max 1 (min 5 ((jsRound ((avgScore + rateAdjustment) * 10) : ℚ) / 10))

/-- The method `generateRecommendations`. -/
def generateRecommendations (fillerAnalysis : FillerAnalysis)
    (dictionAnalysis : DictionAnalysis) (structureAnalysis : StructureAnalysis)
    (wordsPerMinute : JsNum) : List String :=
  (if fillerAnalysis.fillerPercentage.gt (.fin 5) then
    ["Reduce filler words like \x27um\x27, \x27uh\x27, \x27like\x27, and \x27you know\x27"]
   else []) ++
  (if dictionAnalysis.vagueWords.gt (.fin 3) then
    ["Use more specific words instead of vague terms like \x27thing\x27 or \x27stuff\x27"]
   else []) ++
  (if dictionAnalysis.weakWords.gt (.fin 2) then
    ["Replace weak words like \x27maybe\x27 and \x27sort of\x27 with more confident language"]
   else []) ++
  (if structureAnalysis.avgSentenceLength.lt (.fin 10) then
    ["Vary sentence length to create more engaging speech patterns"]
   else []) ++
  (if wordsPerMinute.lt (.fin 120) then
    ["Try speaking at a slightly faster pace to maintain listener engagement"]
   else if wordsPerMinute.gt (.fin 200) then
    ["Slow down your speech rate to improve clarity and comprehension"]
   else [])

/-- The method `analyze`.  The awaited `getAudioDuration` draws a random
whole number of seconds; its outcome is the argument `duration`. -/
def analyze (toLowerCase : JsString → JsString) (duration : ℚ) (transcript : JsString) :
    SpeechAnalysis :=
  let words := wordsOf toLowerCase transcript
  let totalWords := words.length
  let wordsPerMinute :=
    JsNum.round (JsNum.mul (JsNum.div (.fin totalWords) (.fin duration)) (.fin 60))
  let fillerAnalysis := analyzeFillerWords toLowerCase transcript
  let dictionAnalysis := analyzeDiction toLowerCase transcript
  let structureAnalysis := analyzeSentenceStructure transcript
  let clarityAnalysis := analyzeClarity toLowerCase transcript
  let overallScore :=
    calculateOverallScore fillerAnalysis dictionAnalysis structureAnalysis clarityAnalysis
      wordsPerMinute
  { wordsPerMinute := wordsPerMinute
    duration := .fin duration
    totalWords := totalWords
    fillerAnalysis := fillerAnalysis
    dictionAnalysis := dictionAnalysis
    structureAnalysis := structureAnalysis
    clarityAnalysis := clarityAnalysis
    overallScore := overallScore
    recommendations :=
      generateRecommendations fillerAnalysis dictionAnalysis structureAnalysis wordsPerMinute }

/-! ## TOEFLAnalyzer.js -/

/-- The five criteria, in the key order of `toeflCriteria`. -/
inductive Criterion where
  | fluency
  | pronunciation
  | vocabulary
  | grammar
  | coherence
  deriving DecidableEq, Repr

/-- The field `weight` of each entry of `this.toeflCriteria`. -/
def Criterion.weight : Criterion → ℚ
  | .fluency => 0.25
  | .pronunciation => 0.20
  | .vocabulary => 0.20
  | .grammar => 0.20
  | .coherence => 0.15

/-- The entries of `this.toeflCriteria`, as `Object.entries` lists them. -/
def toeflCriteria : List (Criterion × ℚ) :=
  [Criterion.fluency, Criterion.pronunciation, Criterion.vocabulary,
    Criterion.grammar, Criterion.coherence].map (fun c => (c, c.weight))

/-- The object of five sub-scores (`scores`, `breakdown`). -/
structure Breakdown where
  fluency : ℚ
  pronunciation : ℚ
  vocabulary : ℚ
  grammar : ℚ
  coherence : ℚ

/-- The property access `scores[criterion]`. -/
def Breakdown.get (b : Breakdown) : Criterion → ℚ
  | .fluency => b.fluency
  | .pronunciation => b.pronunciation
  | .vocabulary => b.vocabulary
  | .grammar => b.grammar
  | .coherence => b.coherence

/-- The method `assessFluency`. -/
def assessFluency (speechAnalysis : SpeechAnalysis) : ℚ :=
  let score : ℚ := 5
  let score :=
    if speechAnalysis.wordsPerMinute.lt (.fin 100) then score - 1
    else if speechAnalysis.wordsPerMinute.gt (.fin 180) then score - 0.5
    else score
  let score :=
    if speechAnalysis.fillerAnalysis.fillerPercentage.gt (.fin 8) then score - 1
    else if speechAnalysis.fillerAnalysis.fillerPercentage.gt (.fin 5) then score - 0.5
    else score
  let score :=
    if speechAnalysis.structureAnalysis.avgSentenceLength.lt (.fin 8) then score - 0.5
    else score
  max 1 (min 5 score)

/-- The method `assessPronunciation`. -/
def assessPronunciation (speechAnalysis : SpeechAnalysis) : ℚ :=
  let score : ℚ := 5
  let score :=
    if speechAnalysis.clarityAnalysis.repetitiveWords.length > 3 then score - 1 else score
  let score :=
    if speechAnalysis.clarityAnalysis.incompleteThoughts.gt (.fin 2) then score - 1 else score
  let score :=
    if speechAnalysis.wordsPerMinute.gt (.fin 200) then score - 0.5 else score
  max 1 (min 5 score)

/-- The method `assessVocabulary`. -/
def assessVocabulary (speechAnalysis : SpeechAnalysis) : ℚ :=
  let score : ℚ := 5
  let score :=
    if speechAnalysis.dictionAnalysis.vocabularyDiversity.lt (.fin 0.4) then score - 1
    else if speechAnalysis.dictionAnalysis.vocabularyDiversity.lt (.fin 0.6) then score - 0.5
    else score
  let score :=
    if speechAnalysis.dictionAnalysis.vagueWords.gt (.fin 4) then score - 1
    else if speechAnalysis.dictionAnalysis.vagueWords.gt (.fin 2) then score - 0.5
    else score
  let score :=
    if speechAnalysis.dictionAnalysis.weakWords.gt (.fin 3) then score - 0.5 else score
  max 1 (min 5 score)

/-- The method `countSubjectVerbErrors`:
`/\b(he|she|it)\s+(are|were|have)\b/gi`. -/
def countSubjectVerbErrors (transcript : JsString) : Nat :=
  matchCount
    (Regex.seq Regex.wordB
      (Regex.seq (Regex.oneOf ["he", "she", "it"])
        (Regex.seq (Regex.plus isWhiteSpace)
          (Regex.seq (Regex.oneOf ["are", "were", "have"]) Regex.wordB))))
    transcript

/-- The method `countArticleErrors`:
`/\b(a\s+[aeiou]|an\s+[^aeiou])\b/gi`. -/
def countArticleErrors (transcript : JsString) : Nat :=
  matchCount
    (Regex.seq Regex.wordB
      (Regex.seq
        (Regex.alt
          (Regex.seq (Regex.lit "a")
            (Regex.seq (Regex.plus isWhiteSpace)
              (Regex.cls (ciClass ['a', 'e', 'i', 'o', 'u']))))
          (Regex.seq (Regex.lit "an")
            (Regex.seq (Regex.plus isWhiteSpace)
              (Regex.cls (fun u => !ciClass ['a', 'e', 'i', 'o', 'u'] u)))))
        Regex.wordB))
    transcript

/-- The count `presentTense` of `countTenseErrors`:
`/\b(am|is|are|do|does)\b/gi`. -/
def presentTenseCount (transcript : JsString) : Nat :=
  matchCount (Regex.words ["am", "is", "are", "do", "does"]) transcript

/-- The count `pastTense` of `countTenseErrors`:
`/\b(was|were|did|had)\b/gi`. -/
def pastTenseCount (transcript : JsString) : Nat :=
  matchCount (Regex.words ["was", "were", "did", "had"]) transcript

/-- The method `countTenseErrors`. -/
def countTenseErrors (transcript : JsString) : Nat :=
  let presentTense := presentTenseCount transcript
  let pastTense := pastTenseCount transcript
  if presentTense > 3 && pastTense > 3 then 1 else 0

/-- The method `countTopicShifts`:
`/\b(anyway|by the way|speaking of|on another note)\b/gi`. -/
def countTopicShifts (transcript : JsString) : Nat :=
  matchCount (Regex.words ["anyway", "by the way", "speaking of", "on another note"]) transcript

/-- The method `assessGrammar`. -/
def assessGrammar (transcript : JsString) : ℚ :=
  let score : ℚ := 5
  let subjectVerbErrors := countSubjectVerbErrors transcript
  let score :=
    if subjectVerbErrors > 2 then score - 1
    else if subjectVerbErrors > 1 then score - 0.5
    else score
  let articleErrors := countArticleErrors transcript
  let score := if articleErrors > 3 then score - 0.5 else score
  let tenseErrors := countTenseErrors transcript
  let score := if tenseErrors > 2 then score - 0.5 else score
  max 1 (min 5 score)

/-- The count `connectors` of `assessCoherence`:
`/\b(and|but|or|however|therefore|because|although|while|since|as)\b/gi`. -/
def connectorCount (transcript : JsString) : Nat :=
  matchCount
    (Regex.words ["and", "but", "or", "however", "therefore", "because", "although",
      "while", "since", "as"])
    transcript

/-- The count `incompleteSentences` of `assessCoherence`. -/
def incompleteSentenceCount (sentences : List JsString) : Nat :=
  (sentences.filter (fun s =>
    endsWith (trim s) "but" || endsWith (trim s) "however" ||
      endsWith (trim s) "although")).length

/-- The method `assessCoherence`. -/
def assessCoherence (transcript : JsString) : ℚ :=
  let score : ℚ := 5
  let sentences := sentencesOf transcript
  let connectors := connectorCount transcript
  let score :=
    if (connectors : ℚ) < (sentences.length : ℚ) * 0.3 then score - 0.5 else score
  let topicShifts := countTopicShifts transcript
  let score := if topicShifts > 2 then score - 1 else score
  let incompleteSentences := incompleteSentenceCount sentences
  let score := if incompleteSentences > 1 then score - 0.5 else score
  max 1 (min 5 score)

/-- The method `calculateTOEFLScore`: the loop over `toeflCriteria` keeps the
pair `(totalScore, totalWeight)`. -/
def calculateTOEFLScore (scores : Breakdown) : ℚ :=
  let totals :=
    toeflCriteria.foldl
      (fun (acc : ℚ × ℚ) (entry : Criterion × ℚ) =>
        (acc.1 + scores.get entry.1 * entry.2, acc.2 + entry.2))
      (0, 0)
  totals.1 / totals.2

/-- The method `determineLevel`. -/
def determineLevel (score : ℚ) : String :=
  if score ≥ 4.5 then "Advanced"
  else if score ≥ 3.5 then "Upper Intermediate"
  else if score ≥ 2.5 then "Intermediate"
  else if score ≥ 1.5 then "Lower Intermediate"
  else "Beginner"

/-- The object `toeflEquivalent`. -/
structure ToeflEquivalent where
  score : ℤ
  level : String

/-- The method `getTOEFLEquivalent`. -/
def getTOEFLEquivalent (score : ℚ) : ToeflEquivalent :=
  let toeflScore := jsRound ((score / 5) * 30)
  if toeflScore ≥ 27 then ⟨toeflScore, "Excellent"⟩
  else if toeflScore ≥ 23 then ⟨toeflScore, "Good"⟩
  else if toeflScore ≥ 18 then ⟨toeflScore, "Fair"⟩
  else if toeflScore ≥ 13 then ⟨toeflScore, "Limited"⟩
  else ⟨toeflScore, "Weak"⟩

/-- The table `feedbacks[criterion]`, keys `5` down to `1`. -/
def feedbacks : Criterion → ℤ → Option String
  | .fluency, 5 => some "Excellent fluency with natural speech flow and appropriate pacing."
  | .fluency, 4 => some "Good fluency with minor interruptions and generally smooth delivery."
  | .fluency, 3 => some "Fair fluency with some hesitations and uneven pacing."
  | .fluency, 2 => some "Limited fluency with frequent pauses and choppy delivery."
  | .fluency, 1 => some "Poor fluency with excessive hesitations and very slow speech."
  | .pronunciation, 5 => some "Clear pronunciation with excellent intonation and stress patterns."
  | .pronunciation, 4 => some "Good pronunciation with minor clarity issues."
  | .pronunciation, 3 => some "Fair pronunciation with some unclear words and basic intonation."
  | .pronunciation, 2 => some "Limited pronunciation with many unclear words."
  | .pronunciation, 1 => some "Poor pronunciation with significant clarity problems."
  | .vocabulary, 5 => some "Rich vocabulary with precise word choice and appropriate usage."
  | .vocabulary, 4 => some "Good vocabulary with some variety and generally appropriate usage."
  | .vocabulary, 3 => some "Fair vocabulary with basic word choice and some inappropriate usage."
  | .vocabulary, 2 => some "Limited vocabulary with repetitive word choice."
  | .vocabulary, 1 => some "Poor vocabulary with very basic and often inappropriate word choice."
  | .grammar, 5 => some "Excellent grammar with complex structures and high accuracy."
  | .grammar, 4 => some "Good grammar with minor errors and some complex structures."
  | .grammar, 3 => some "Fair grammar with noticeable errors but generally understandable."
  | .grammar, 2 => some "Limited grammar with frequent errors affecting comprehension."
  | .grammar, 1 => some "Poor grammar with many errors making speech difficult to understand."
  | .coherence, 5 => some "Excellent organization with logical flow and complete thoughts."
  | .coherence, 4 => some "Good organization with clear structure and mostly complete thoughts."
  | .coherence, 3 =>
    some "Fair organization with some logical connections and some incomplete thoughts."
  | .coherence, 2 =>
    some "Limited organization with unclear structure and many incomplete thoughts."
  | .coherence, 1 =>
    some "Poor organization with no clear structure and mostly incomplete thoughts."
  | _, _ => none

/-- The method `getCriterionFeedback`:
`feedbacks[criterion][Math.round(score)] || feedbacks[criterion][3]`. -/
def getCriterionFeedback (criterion : Criterion) (score : ℚ) : Option String :=
  match feedbacks criterion (jsRound score) with
  | some text => some text
  | none => feedbacks criterion 3

/-- The method `generateDetailedFeedback`, in the key order of `scores`. -/
def generateDetailedFeedback (scores : Breakdown) : List (Criterion × Option String) :=
  [Criterion.fluency, Criterion.pronunciation, Criterion.vocabulary,
    Criterion.grammar, Criterion.coherence].map
    (fun criterion => (criterion, getCriterionFeedback criterion (scores.get criterion)))

/-- The result of `assess`. -/
structure ToeflScore where
  overallScore : ℚ
  level : String
  breakdown : Breakdown
  detailedFeedback : List (Criterion × Option String)
  toeflEquivalent : ToeflEquivalent

/-- The method `assess` (its `console.log` lines only read fields). -/
def assess (transcript : JsString) (speechAnalysis : SpeechAnalysis) : ToeflScore :=
  let fluencyScore := assessFluency speechAnalysis
  let pronunciationScore := assessPronunciation speechAnalysis
  let vocabularyScore := assessVocabulary speechAnalysis
  let grammarScore := assessGrammar transcript
  let coherenceScore := assessCoherence transcript
  let overallScore :=
    calculateTOEFLScore
      ⟨fluencyScore, pronunciationScore, vocabularyScore, grammarScore, coherenceScore⟩
  let level := determineLevel overallScore
  let detailedFeedback :=
    generateDetailedFeedback
      ⟨fluencyScore, pronunciationScore, vocabularyScore, grammarScore, coherenceScore⟩
  { overallScore := (jsRound (overallScore * 10) : ℚ) / 10
    level := level
    breakdown :=
      ⟨fluencyScore, pronunciationScore, vocabularyScore, grammarScore, coherenceScore⟩
    detailedFeedback := detailedFeedback
    toeflEquivalent := getTOEFLEquivalent overallScore }


/-! ## TOEFLAnalyzer.js in binary64 arithmetic

JavaScript numbers are IEEE 754 binary64 values.  The sub-scores are
multiples of 0.5 between 1 and 5 and every subtraction that computes them is
exact; the one product in a scorer, `sentences.length * 0.3`, is compared
with a whole number and falls on the same side of it as the exact product.
So the scorers above are faithful as they stand.  The weighted score is not:
`0.2` and `0.15` are not binary64 values, and each product, sum and quotient
is rounded.  The definitions below repeat `calculateTOEFLScore`,
`getTOEFLEquivalent` and `assess` with every operation rounded to the
nearest binary64 value, ties to even.  All values rounded here lie between
`2^-3` and `2^6`; overflow to `Infinity` is not modelled. -/

/-- Rounding to the nearest integer, a tie going to the even neighbour. -/
def roundTiesToEven (q : ℚ) : ℤ :=
  if q - ⌊q⌋ < 1 / 2 then ⌊q⌋
  else if 1 / 2 < q - ⌊q⌋ then ⌊q⌋ + 1
  else if ⌊q⌋ % 2 = 0 then ⌊q⌋ else ⌊q⌋ + 1

/-- The exponent `e` of the binade of `x`: `2^e ≤ |x| < 2^(e+1)`, and `-1022`
for the subnormal numbers and zero. -/
def binade (x : ℚ) : ℤ := max (Int.log 2 |x|) (-1022)

/-- The binary64 value nearest to `x` (53 significant bits), ties to even. -/
def binary64 (x : ℚ) : ℚ :=
  (roundTiesToEven (x / 2 ^ (binade x - 52)) : ℚ) * 2 ^ (binade x - 52)

/-- The method `calculateTOEFLScore` in binary64 arithmetic: the weights are
the binary64 values of the literals `0.25`, `0.20`, `0.15`, and each
product, sum and quotient is rounded. -/
def Binary64.calculateTOEFLScore (scores : Breakdown) : ℚ :=
  let totals :=
    toeflCriteria.foldl
      (fun (acc : ℚ × ℚ) (entry : Criterion × ℚ) =>
        (binary64 (acc.1 + binary64 (scores.get entry.1 * binary64 entry.2)),
          binary64 (acc.2 + binary64 entry.2)))
      (0, 0)
  binary64 (totals.1 / totals.2)

/-- The method `getTOEFLEquivalent` in binary64 arithmetic; `Math.round` is
exact on a binary64 value. -/
def Binary64.getTOEFLEquivalent (score : ℚ) : ToeflEquivalent :=
  let toeflScore := jsRound (binary64 (binary64 (score / 5) * 30))
  if toeflScore ≥ 27 then ⟨toeflScore, "Excellent"⟩
  else if toeflScore ≥ 23 then ⟨toeflScore, "Good"⟩
  else if toeflScore ≥ 18 then ⟨toeflScore, "Fair"⟩
  else if toeflScore ≥ 13 then ⟨toeflScore, "Limited"⟩
  else ⟨toeflScore, "Weak"⟩

/-- The method `assess` in binary64 arithmetic: the level is taken from the
unrounded weighted score, `overallScore` is
`Math.round(overallScore * 10) / 10`. -/
def Binary64.assess (transcript : JsString) (speechAnalysis : SpeechAnalysis) : ToeflScore :=
  let fluencyScore := assessFluency speechAnalysis
  let pronunciationScore := assessPronunciation speechAnalysis
  let vocabularyScore := assessVocabulary speechAnalysis
  let grammarScore := assessGrammar transcript
  let coherenceScore := assessCoherence transcript
  let overallScore :=
    Binary64.calculateTOEFLScore
      ⟨fluencyScore, pronunciationScore, vocabularyScore, grammarScore, coherenceScore⟩
  let level := determineLevel overallScore
  let detailedFeedback :=
    generateDetailedFeedback
      ⟨fluencyScore, pronunciationScore, vocabularyScore, grammarScore, coherenceScore⟩
  { overallScore := binary64 ((jsRound (binary64 (overallScore * 10)) : ℚ) / 10)
    level := level
    breakdown :=
      ⟨fluencyScore, pronunciationScore, vocabularyScore, grammarScore, coherenceScore⟩
    detailedFeedback := detailedFeedback
    toeflEquivalent := Binary64.getTOEFLEquivalent overallScore }

/-- A binary64 value: a whole multiple of the unit of its binade. -/
def IsBinary64 (d : ℚ) : Prop := ∃ m : ℤ, d = m * 2 ^ (binade d - 52)

/-! ## ImprovementPlanner.js

A property read `table[key]` on an object literal finds an own property, or
a member inherited from `Object.prototype` (a function, or the prototype
itself for `__proto__`), or nothing.  A template literal is kept as its
template with its arguments; the printing of numbers is outside the
embedding. -/

/-- The difference `a - b`. -/
def JsNum.sub : JsNum → JsNum → JsNum
  | .nan, _ => .nan
  | _, .nan => .nan
  | .fin a, .fin b => .fin (a - b)
  | .fin _, .posInf => .negInf
  | .fin _, .negInf => .posInf
  | .posInf, .fin _ => .posInf
  | .negInf, .fin _ => .negInf
  | .posInf, .posInf => .nan
  | .posInf, .negInf => .posInf
  | .negInf, .posInf => .negInf
  | .negInf, .negInf => .nan

/-- The outcome of a property read `table[key]`. -/
inductive Member (α : Type) where
  | own (value : α) : Member α
  | inherited : Member α
  | undefined : Member α

/-- The property names found on `Object.prototype`. -/
def prototypeKeys : List String := "__proto__" :: inheritedKeys

/-- The property read `table[key]` on an object literal with the listed own
properties. -/
def readMember {α : Type} (table : List (String × α)) (key : String) : Member α :=
  match table.lookup key with
  | some value => .own value
  | none => if prototypeKeys.contains key then .inherited else .undefined

/-- An entry of `this.improvementAreas`. -/
structure ImprovementArea where
  exercises : List String
  resources : List String

/-- The table `this.improvementAreas`; its keys are the five criteria. -/
def improvementAreas : Criterion → ImprovementArea
  | .fluency =>
    { exercises :=
        ["Practice speaking at a consistent pace using a metronome",
          "Record yourself and identify filler word patterns",
          "Practice tongue twisters to improve articulation",
          "Read aloud for 10 minutes daily to build speaking stamina",
          "Use breathing exercises to control speech rhythm"]
      resources :=
        ["TED Talks for listening to natural speech patterns",
          "Podcasts with clear speakers",
          "Speech rate control apps",
          "Breathing and relaxation techniques"] }
  | .pronunciation =>
    { exercises :=
        ["Practice minimal pairs (ship/sheep, bit/beat)",
          "Record and compare your pronunciation with native speakers",
          "Use pronunciation apps like ELSA or Speechling",
          "Practice stress patterns in multi-syllable words",
          "Work on intonation patterns for questions and statements"]
      resources :=
        ["YouTube pronunciation channels",
          "IPA (International Phonetic Alphabet) guides",
          "Pronunciation dictionaries",
          "Speech therapy apps"] }
  | .vocabulary =>
    { exercises :=
        ["Learn 5-10 new words daily and use them in sentences",
          "Practice synonyms and antonyms",
          "Read diverse materials to encounter new vocabulary",
          "Keep a vocabulary journal with context and usage",
          "Practice describing objects without using common words"]
      resources :=
        ["Vocabulary building apps (Quizlet, Memrise)",
          "Academic word lists",
          "Contextual reading materials",
          "Word of the day subscriptions"] }
  | .grammar =>
    { exercises :=
        ["Practice specific grammar points with exercises",
          "Write sentences using different tenses",
          "Study sentence structure patterns",
          "Practice subject-verb agreement",
          "Work on article usage (a/an/the)"]
      resources :=
        ["Grammar practice websites (Grammarly, Purdue OWL)",
          "Grammar workbooks",
          "Online grammar courses",
          "Language exchange partners"] }
  | .coherence =>
    { exercises :=
        ["Practice organizing thoughts before speaking",
          "Use transition words and phrases",
          "Practice telling stories with clear structure",
          "Work on topic sentences and supporting details",
          "Practice summarizing information clearly"]
      resources :=
        ["Public speaking courses",
          "Storytelling workshops",
          "Logic and reasoning exercises",
          "Debate clubs or discussion groups"] }

/-- An entry of `this.levels`. -/
structure LevelInfo where
  focus : List String
  timeline : String
  goals : List String

/-- The table `this.levels`, in key order. -/
def levels : List (String × LevelInfo) :=
  [("Beginner",
      { focus := ["basic_pronunciation", "simple_vocabulary", "basic_grammar"]
        timeline := "3-6 months"
        goals :=
          ["Speak clearly with basic pronunciation",
            "Use simple but correct grammar",
            "Build basic vocabulary (500-1000 words)",
            "Speak in complete sentences"] }),
    ("Lower Intermediate",
      { focus := ["fluency", "vocabulary_expansion", "grammar_accuracy"]
        timeline := "6-12 months"
        goals :=
          ["Reduce filler words significantly",
            "Expand vocabulary to 2000-3000 words",
            "Improve grammar accuracy",
            "Speak with more confidence"] }),
    ("Intermediate",
      { focus := ["advanced_vocabulary", "complex_grammar", "coherence"]
        timeline := "12-18 months"
        goals :=
          ["Use advanced vocabulary appropriately",
            "Master complex grammar structures",
            "Organize thoughts logically",
            "Speak naturally and fluently"] }),
    ("Upper Intermediate",
      { focus := ["native_like_fluency", "academic_vocabulary", "precise_expression"]
        timeline := "18-24 months"
        goals :=
          ["Achieve near-native fluency",
            "Master academic vocabulary",
            "Express ideas precisely and eloquently",
            "Handle complex topics confidently"] }),
    ("Advanced",
      { focus := ["refinement", "specialized_vocabulary", "public_speaking"]
        timeline := "Ongoing"
        goals :=
          ["Refine pronunciation to near-native level",
            "Master specialized vocabulary for your field",
            "Excel in public speaking and presentations",
            "Serve as a language model for others"] })]

/-- The array `Object.keys(this.levels)`. -/
def levelNames : List String := levels.map (fun entry => entry.1)

/-- The call `Object.keys(this.levels).indexOf(level)`: `-1` when absent. -/
def indexOfLevel (level : String) : Int :=
  if levelNames.indexOf level < levelNames.length then (levelNames.indexOf level : Int) else -1

/-- The method `getNextLevel`.  The index `Math.min(currentIndex + 1,
levels.length - 1)` lies in the array, so the default is never returned. -/
def getNextLevel (currentLevel : String) : String :=
  let currentIndex := indexOfLevel currentLevel
  levelNames.getD (min (currentIndex + 1) ((levelNames.length : Int) - 1)).toNat ""

/-- The priority tags. -/
inductive Priority where
  | high
  | medium
  | low
  deriving DecidableEq, Repr

/-- The table `priorityOrder` of the sort comparator. -/
def priorityOrder : Priority → Int
  | .high => 3
  | .medium => 2
  | .low => 1

/-- The field `reason` of a priority area: a fixed text, or one of the two
template literals with its arguments. -/
inductive Reason where
  | text (s : String) : Reason
  | lowScore (criterion : Criterion) (score : ℚ) : Reason
  | moderateScore (criterion : Criterion) (score : ℚ) : Reason
  deriving DecidableEq

/-- An element of `priorityAreas`. -/
structure PriorityArea where
  area : Criterion
  priority : Priority
  reason : Reason
  deriving DecidableEq

/-- The array `Object.entries(breakdown)`, in the key order `assess` gives
the object. -/
def Breakdown.entries (b : Breakdown) : List (Criterion × ℚ) :=
  [(.fluency, b.fluency), (.pronunciation, b.pronunciation), (.vocabulary, b.vocabulary),
    (.grammar, b.grammar), (.coherence, b.coherence)]

/-- The array `areas` of `identifyPriorityAreas`, before the duplicates are
removed. -/
def priorityHits (speechAnalysis : SpeechAnalysis) (toeflScore : ToeflScore) :
    List PriorityArea :=
  let areas : List PriorityArea := []
  let areas :=
    if speechAnalysis.fillerAnalysis.fillerPercentage.gt (.fin 5) then
      areas ++ [⟨.fluency, .high, .text "High filler word usage"⟩]
    else areas
  let areas :=
    if speechAnalysis.dictionAnalysis.vocabularyDiversity.lt (.fin 0.5) then
      areas ++ [⟨.vocabulary, .high, .text "Limited vocabulary diversity"⟩]
    else areas
  let areas :=
    if speechAnalysis.dictionAnalysis.vagueWords.gt (.fin 3) then
      areas ++ [⟨.vocabulary, .medium, .text "Overuse of vague words"⟩]
    else areas
  let areas :=
    if speechAnalysis.clarityAnalysis.repetitiveWords.length > 2 then
      areas ++ [⟨.vocabulary, .medium, .text "Word repetition"⟩]
    else areas
  toeflScore.breakdown.entries.foldl
    (fun areas entry =>
      if entry.2 < 3 then areas ++ [⟨entry.1, .high, .lowScore entry.1 entry.2⟩]
      else if entry.2 < 4 then areas ++ [⟨entry.1, .medium, .moderateScore entry.1 entry.2⟩]
      else areas)
    areas

/-- The loop of `identifyPriorityAreas` that removes duplicates: the state is
the pair of `uniqueAreas` and the set `seen`. -/
def removeDuplicates (areas : List PriorityArea) : List PriorityArea × List Criterion :=
  areas.foldl
    (fun (state : List PriorityArea × List Criterion) area =>
      if !state.2.contains area.area then (state.1 ++ [area], state.2 ++ [area.area])
      else state)
    ([], [])

/-- The call `uniqueAreas.sort(compare)`: the sort is stable, and `a` stays
before `b` unless `priorityOrder[b.priority] - priorityOrder[a.priority]` is
positive. -/
def sortByPriority (uniqueAreas : List PriorityArea) : List PriorityArea :=
  uniqueAreas.insertionSort
    (fun a b => priorityOrder b.priority - priorityOrder a.priority ≤ 0)

/-- The method `identifyPriorityAreas`. -/
def identifyPriorityAreas (speechAnalysis : SpeechAnalysis) (toeflScore : ToeflScore) :
    List PriorityArea :=
  sortByPriority (removeDuplicates (priorityHits speechAnalysis toeflScore)).1

/-- A value of the object `exercises` built by `generateExercises`. -/
structure ExerciseSet where
  priority : Priority
  daily : List String
  weekly : List String
  monthly : List String
  deriving DecidableEq

/-- The assignment `object[key] = value` on an object whose keys are area
names: a present key keeps its place and takes the new value, a new key goes
last. -/
def assign {β : Type} (object : List (Criterion × β)) (key : Criterion) (value : β) :
    List (Criterion × β) :=
  if object.any (fun entry => entry.1 == key) then
    object.map (fun entry => if entry.1 == key then (key, value) else entry)
  else object ++ [(key, value)]

/-- The method `generateExercises`: `slice(0, 2)`, `slice(2, 4)`, `slice(4)`. -/
def generateExercises (priorityAreas : List PriorityArea) : List (Criterion × ExerciseSet) :=
  priorityAreas.foldl
    (fun exercises entry =>
      assign exercises entry.area
        { priority := entry.priority
          daily := (improvementAreas entry.area).exercises.take 2
          weekly := ((improvementAreas entry.area).exercises.drop 2).take 2
          monthly := (improvementAreas entry.area).exercises.drop 4 })
    []

/-- The table `timeEstimates` of `calculateTransitionTime`. -/
def timeEstimates : List (String × ℚ) :=
  [("Beginner", 6), ("Lower Intermediate", 12), ("Intermediate", 18),
    ("Upper Intermediate", 24), ("Advanced", 36)]

/-- The expression `table[key] || fallback` on a table of non-zero numbers, as
a number.  A name found only on `Object.prototype` yields a function, whose
numeric value is `NaN`. -/
def numberOr (table : List (String × ℚ)) (key : String) (fallback : ℚ) : JsNum :=
  match readMember table key with
  | .own value => .fin value
  | .inherited => .nan
  | .undefined => .fin fallback

/-- The method `calculateTransitionTime`. -/
def calculateTransitionTime (currentLevel nextLevel : String) : JsNum :=
  let currentTime := numberOr timeEstimates currentLevel 12
  let nextTime := numberOr timeEstimates nextLevel 18
  JsNum.round (JsNum.div (JsNum.sub nextTime currentTime) (.fin 2))

/-- One of the two level entries of a timeline; a field read from an
inherited member is `undefined`. -/
structure TimelineLevel where
  name : String
  timeline : Option String
  goals : Option (List String)

/-- The result of `createTimeline`. -/
structure Timeline where
  currentLevel : TimelineLevel
  nextLevel : TimelineLevel
  transitionTime : JsNum

/-- The reads `info.timeline` and `info.goals` on `info = this.levels[level]`:
they raise a `TypeError` (`none`) when `info` is `undefined`. -/
def timelineLevel (level : String) : Option TimelineLevel :=
  match readMember levels level with
  | .own info => some ⟨level, some info.timeline, some info.goals⟩
  | .inherited => some ⟨level, none, none⟩
  | .undefined => none

/-- The method `createTimeline`; `none` stands for a raised `TypeError`. -/
def createTimeline (currentLevel nextLevel : String) : Option Timeline :=
  match timelineLevel currentLevel with
  | none => none
  | some current =>
    match timelineLevel nextLevel with
    | none => none
    | some next =>
      some ⟨current, next, calculateTransitionTime currentLevel nextLevel⟩

/-- The method `createCheckpoints`. -/
def createCheckpoints (level : String) : List String :=
  if level = "Beginner" then
    ["Can pronounce basic sounds clearly", "Uses simple present tense correctly",
      "Has basic vocabulary of 500+ words", "Speaks in complete sentences"]
  else if level = "Lower Intermediate" then
    ["Reduced filler words by 50%", "Vocabulary expanded to 2000+ words",
      "Uses past and future tenses", "Speaks with more confidence"]
  else if level = "Intermediate" then
    ["Uses complex sentences naturally", "Vocabulary of 3000+ words",
      "Good grammar accuracy", "Organizes thoughts logically"]
  else if level = "Upper Intermediate" then
    ["Near-native fluency", "Academic vocabulary mastery", "Precise expression",
      "Handles complex topics"]
  else if level = "Advanced" then
    ["Native-like pronunciation", "Specialized vocabulary", "Excellent public speaking",
      "Can teach others"]
  else []

/-- An element of `milestones`. -/
structure Milestone where
  level : String
  goals : List String
  estimatedTime : String
  checkpoints : List String
  deriving DecidableEq

/-- One turn of the loop of `createMilestones` at index `i`: outside the key
array `level` is `undefined`, `this.levels[level]` is `undefined`, and the
read of `goals` raises (`none`). -/
def milestoneAt (i : Int) : Option Milestone :=
  if i < 0 then none
  else
    match levels[i.toNat]? with
    | some entry => some ⟨entry.1, entry.2.goals, entry.2.timeline, createCheckpoints entry.1⟩
    | none => none

/-- The results of a sequence of steps, or `none` when a step raises. -/
def allSome {α : Type} : List (Option α) → Option (List α)
  | [] => some []
  | none :: _ => none
  | some a :: rest =>
    match allSome rest with
    | some values => some (a :: values)
    | none => none

/-- The method `createMilestones`: the loop runs for `i` from
`currentLevelIndex` to `nextLevelIndex`. -/
def createMilestones (currentLevel nextLevel : String) : Option (List Milestone) :=
  let currentLevelIndex := indexOfLevel currentLevel
  let nextLevelIndex := indexOfLevel nextLevel
  allSome
    ((List.range (nextLevelIndex - currentLevelIndex + 1).toNat).map
      (fun k => milestoneAt (currentLevelIndex + k)))

/-- The method `recommendResources`. -/
def recommendResources (priorityAreas : List PriorityArea) : List (Criterion × List String) :=
  priorityAreas.foldl
    (fun resources entry => assign resources entry.area (improvementAreas entry.area).resources)
    []

/-- The table `targetScores`. -/
def targetScores : List (String × ℚ) :=
  [("Beginner", 1.5), ("Lower Intermediate", 2.5), ("Intermediate", 3.5),
    ("Upper Intermediate", 4.5), ("Advanced", 5.0)]

/-- The method `getTargetScore`, as a number. -/
def getTargetScore (level : String) : JsNum :=
  numberOr targetScores level 3.5

/-- The method `estimateTimeToTarget`. -/
def estimateTimeToTarget (currentScore : ℚ) (targetScore : JsNum) : JsNum :=
  let scoreDifference := JsNum.sub targetScore (.fin currentScore)
  let monthsPerPoint : ℚ := 3
  JsNum.round (JsNum.mul scoreDifference (.fin monthsPerPoint))

/-- The method `calculateVariance`: on an empty array both quotients are
`0 / 0`. -/
def calculateVariance (scores : List ℚ) : JsNum :=
  if scores.length = 0 then .nan
  else
    let mean : ℚ := scores.foldl (fun sum score => sum + score) 0 / scores.length
    let squaredDifferences := scores.map (fun score => (score - mean) ^ 2)
    .fin (squaredDifferences.foldl (fun sum diff => sum + diff) 0 / scores.length)

/-- The method `calculateConfidence`. -/
def calculateConfidence (_speechAnalysis : SpeechAnalysis) (toeflScore : ToeflScore) : String :=
  let scores := toeflScore.breakdown.entries.map (fun entry => entry.2)
  let variance := calculateVariance scores
  if variance.lt (.fin 0.5) then "high"
  else if variance.lt (.fin 1.0) then "medium"
  else "low"

/-- The result of `estimateProgress`. -/
structure ProgressEstimate where
  currentScore : ℚ
  targetScore : JsNum
  progressPercentage : JsNum
  timeToTarget : JsNum
  confidence : String

/-- The method `estimateProgress`. -/
def estimateProgress (speechAnalysis : SpeechAnalysis) (toeflScore : ToeflScore) :
    ProgressEstimate :=
  let currentScore := toeflScore.overallScore
  let targetScore := getTargetScore toeflScore.level
  let progressPercentage := JsNum.mul (JsNum.div (.fin currentScore) targetScore) (.fin 100)
  { currentScore := currentScore
    targetScore := targetScore
    progressPercentage := JsNum.round progressPercentage
    timeToTarget := estimateTimeToTarget currentScore targetScore
    confidence := calculateConfidence speechAnalysis toeflScore }

/-- The object `weeklyPlan`; an element read past the end of an exercise
array is `undefined` (`none`). -/
structure WeeklyPlan where
  monday : List (Option String)
  tuesday : List (Option String)
  wednesday : List (Option String)
  thursday : List (Option String)
  friday : List (Option String)
  saturday : List (Option String)
  sunday : List (Option String)
  deriving DecidableEq

/-- The method `createWeeklyPlan`. -/
def createWeeklyPlan (priorityAreas : List PriorityArea) : WeeklyPlan :=
  priorityAreas.foldl
    (fun weeklyPlan entry =>
      let exercises := (improvementAreas entry.area).exercises
      if entry.priority = .high then
        { weeklyPlan with
          monday := weeklyPlan.monday ++ [exercises[0]?]
          wednesday := weeklyPlan.wednesday ++ [exercises[1]?]
          friday := weeklyPlan.friday ++ [exercises[2]?] }
      else if entry.priority = .medium then
        { weeklyPlan with
          tuesday := weeklyPlan.tuesday ++ [exercises[0]?]
          thursday := weeklyPlan.thursday ++ [exercises[1]?] }
      else weeklyPlan)
    ⟨[], [], [], [], [], [], []⟩

/-- The table `tips` of `getMotivationTips`. -/
def tips : List (String × List String) :=
  [("Beginner",
      ["Every expert was once a beginner. Focus on progress, not perfection.",
        "Practice for just 10 minutes daily - consistency beats intensity.",
        "Celebrate small wins like pronouncing a new word correctly.",
        "Remember that making mistakes is how we learn and improve."]),
    ("Lower Intermediate",
      ["You\x27re building a strong foundation. Keep pushing through challenges.",
        "Your vocabulary is growing - notice how many more words you know now.",
        "Fluency comes with practice. Trust the process.",
        "Compare yourself to who you were yesterday, not to others."]),
    ("Intermediate",
      ["You\x27re becoming more confident. Let that confidence show in your speech.",
        "Complex grammar is within your reach. Break it down into smaller parts.",
        "Your communication skills are opening new opportunities.",
        "You\x27re developing your unique voice in English."]),
    ("Upper Intermediate",
      ["You\x27re approaching advanced levels. Your hard work is paying off.",
        "Precision in expression sets you apart. Focus on the details.",
        "You can handle complex topics. Trust your abilities.",
        "You\x27re becoming a role model for other learners."]),
    ("Advanced",
      ["You\x27re refining excellence. Every detail matters now.",
        "Your skills can help others. Consider mentoring or teaching.",
        "You\x27re mastering the nuances that make speech truly natural.",
        "You\x27ve achieved what many aspire to. Keep pushing your boundaries."])]

/-- The method `getMotivationTips`: `tips[level] || tips['Intermediate']`.  An
inherited member is truthy and is returned as it is. -/
def getMotivationTips (level : String) : Member (List String) :=
  match readMember tips level with
  | .own list => .own list
  | .inherited => .inherited
  | .undefined => readMember tips "Intermediate"

/-- The result of `createPlan`. -/
structure ImprovementPlan where
  currentLevel : String
  nextLevel : String
  priorityAreas : List PriorityArea
  exercises : List (Criterion × ExerciseSet)
  timeline : Timeline
  milestones : List Milestone
  resources : List (Criterion × List String)
  estimatedProgress : ProgressEstimate
  weeklyPlan : WeeklyPlan
  motivationTips : Member (List String)

/-- The method `createPlan`; `none` stands for a raised `TypeError`. -/
def createPlan (speechAnalysis : SpeechAnalysis) (toeflScore : ToeflScore) :
    Option ImprovementPlan :=
  let currentLevel := toeflScore.level
  let nextLevel := getNextLevel currentLevel
  let priorityAreas := identifyPriorityAreas speechAnalysis toeflScore
  let exercises := generateExercises priorityAreas
  match createTimeline currentLevel nextLevel with
  | none => none
  | some timeline =>
    match createMilestones currentLevel nextLevel with
    | none => none
    | some milestones =>
      let resources := recommendResources priorityAreas
      some
        { currentLevel := currentLevel
          nextLevel := nextLevel
          priorityAreas := priorityAreas
          exercises := exercises
          timeline := timeline
          milestones := milestones
          resources := resources
          estimatedProgress := estimateProgress speechAnalysis toeflScore
          weeklyPlan := createWeeklyPlan priorityAreas
          motivationTips := getMotivationTips currentLevel }

/-- The handler of `/api/analyze` in `server.js`: `analyze`, then `assess`,
then `createPlan`. -/
def pipeline (toLowerCase : JsString → JsString) (duration : ℚ) (transcript : JsString) :
    Option (SpeechAnalysis × ToeflScore × ImprovementPlan) :=
  let speechAnalysis := analyze toLowerCase duration transcript
  let toeflScore := assess transcript speechAnalysis
  match createPlan speechAnalysis toeflScore with
  | some improvementPlan => some (speechAnalysis, toeflScore, improvementPlan)
  | none => none

/-! ## Reference definitions, written from the specification

The ladders below follow the sentences of the specification, not the code:
a penalty is a summand, and the clamp is a case split. -/

/-- Clamping to the interval `[1,5]`, as the specification words it. -/
def Spec.clamp (x : ℚ) : ℚ :=
  if x < 1 then 1 else if 5 < x then 5 else x

/-- The fluency ladder of the specification. -/
def Spec.fluencyLadder (wpm fillerPct avgSentenceLen : JsNum) : ℚ :=
  Spec.clamp
    (5 - (if wpm.lt (.fin 100) then 1 else if wpm.gt (.fin 180) then 1 / 2 else 0)
      - (if fillerPct.gt (.fin 8) then 1 else if fillerPct.gt (.fin 5) then 1 / 2 else 0)
      - (if avgSentenceLen.lt (.fin 8) then 1 / 2 else 0))

/-- The vocabulary ladder of the specification. -/
def Spec.vocabularyLadder (diversity vagueCount weakCount : JsNum) : ℚ :=
  Spec.clamp
    (5 - (if diversity.lt (.fin (2 / 5)) then 1 else if diversity.lt (.fin (3 / 5)) then 1 / 2
          else 0)
      - (if vagueCount.gt (.fin 4) then 1 else if vagueCount.gt (.fin 2) then 1 / 2 else 0)
      - (if weakCount.gt (.fin 3) then 1 / 2 else 0))

/-- The coherence ladder of the specification, on the four counts. -/
def Spec.coherenceLadder (connectors sentences topicShifts dangling : Nat) : ℚ :=
  Spec.clamp
    (5 - (if (connectors : ℚ) < 3 / 10 * (sentences : ℚ) then 1 / 2 else 0)
      - (if 2 < topicShifts then 1 else 0)
      - (if 1 < dangling then 1 / 2 else 0))

/-- The pronunciation ladder of the specification. -/
def Spec.pronunciationLadder (repetitive : Nat) (incompleteThoughts wpm : JsNum) : ℚ :=
  Spec.clamp
    (5 - (if 3 < repetitive then 1 else 0)
      - (if incompleteThoughts.gt (.fin 2) then 1 else 0)
      - (if wpm.gt (.fin 200) then 1 / 2 else 0))

/-- The sample transcript of the specification. -/
def sampleTranscript : JsString :=
  js "I am a student and I study every day in the library"

/-- Whether a code unit, if there is one, is an ASCII letter, a digit or an
underscore. -/
def Spec.isWordUnit : Option Nat → Bool
  | some u => (65 ≤ u && u ≤ 90) || (97 ≤ u && u ≤ 122) || (48 ≤ u && u ≤ 57) || u == 95
  | none => false

/-- A whole-word occurrence of the word `w` at index `i` of the transcript:
the text at `i` is `w` up to the case of letters, the code unit before it (if
any) and the code unit after it (if any) are not an ASCII letter, a digit or
an underscore. -/
def Spec.wholeWordAt (w : String) (transcript : JsString) (i : Nat) : Bool :=
  (((transcript.drop i).take (js w).length).map canonicalize == (js w).map canonicalize) &&
  !Spec.isWordUnit (transcript.take i).getLast? &&
  !Spec.isWordUnit ((transcript.drop i).drop (js w).length).head?

/-- The number of whole-word occurrences of `w` in the transcript. -/
def Spec.wholeWordCount (w : String) (transcript : JsString) : Nat :=
  ((List.range (transcript.length + 1)).filter (Spec.wholeWordAt w transcript)).length

/-- The hit list of the specification, in evaluation order: the four lexical
triggers, then the criteria of the breakdown in order. -/
def Spec.priorityHits (speechAnalysis : SpeechAnalysis) (breakdown : Breakdown) :
    List PriorityArea :=
  (if speechAnalysis.fillerAnalysis.fillerPercentage.gt (.fin 5) then
      [⟨.fluency, .high, .text "High filler word usage"⟩]
    else []) ++
  (if speechAnalysis.dictionAnalysis.vocabularyDiversity.lt (.fin (1 / 2)) then
      [⟨.vocabulary, .high, .text "Limited vocabulary diversity"⟩]
    else []) ++
  (if speechAnalysis.dictionAnalysis.vagueWords.gt (.fin 3) then
      [⟨.vocabulary, .medium, .text "Overuse of vague words"⟩]
    else []) ++
  (if 2 < speechAnalysis.clarityAnalysis.repetitiveWords.length then
      [⟨.vocabulary, .medium, .text "Word repetition"⟩]
    else []) ++
  breakdown.entries.filterMap (fun entry =>
    if entry.2 < 3 then some ⟨entry.1, .high, .lowScore entry.1 entry.2⟩
    else if entry.2 < 4 then some ⟨entry.1, .medium, .moderateScore entry.1 entry.2⟩
    else none)

/-- Only the first hit of each area name is kept. -/
def Spec.firstOfEachArea : List PriorityArea → List PriorityArea
  | [] => []
  | hit :: rest =>
    hit :: (Spec.firstOfEachArea rest).filter (fun other => decide (other.area ≠ hit.area))

/-- The stable order by priority: the high entries, then the medium ones,
then the low ones, each group in its first-seen order. -/
def Spec.stableByPriority (areas : List PriorityArea) : List PriorityArea :=
  areas.filter (fun a => decide (a.priority = .high)) ++
  areas.filter (fun a => decide (a.priority = .medium)) ++
  areas.filter (fun a => decide (a.priority = .low))

/-- The reference definition of `identifyPriorityAreas`. -/
def Spec.identifyPriorityAreas (speechAnalysis : SpeechAnalysis) (breakdown : Breakdown) :
    List PriorityArea :=
  Spec.stableByPriority (Spec.firstOfEachArea (Spec.priorityHits speechAnalysis breakdown))

/-- A letter of the Latin script: an ASCII letter, or an accented letter of
the blocks from U+00C0 to U+024F (the signs `×` and `÷` left out). -/
def Spec.isLatinLetter (u : Nat) : Bool :=
  (65 ≤ u && u ≤ 90) || (97 ≤ u && u ≤ 122) ||
  (192 ≤ u && u ≤ 591 && u != 215 && u != 247)

/-- Whether a code unit, if there is one, is a letter (accented letters
included), a digit or an underscore. -/
def Spec.isLetterDigitUnderscore : Option Nat → Bool
  | some u => Spec.isLatinLetter u || (48 ≤ u && u ≤ 57) || u == 95
  | none => false

/-- An occurrence of `w` at index `i` of the transcript, up to the case of
letters, that is not immediately preceded or followed by a letter, a digit
or an underscore. -/
def Spec.standaloneAt (w : String) (transcript : JsString) (i : Nat) : Bool :=
  (((transcript.drop i).take (js w).length).map canonicalize == (js w).map canonicalize) &&
  !Spec.isLetterDigitUnderscore (transcript.take i).getLast? &&
  !Spec.isLetterDigitUnderscore ((transcript.drop i).drop (js w).length).head?

/-- The number of such occurrences of `w` in the transcript. -/
def Spec.standaloneCount (w : String) (transcript : JsString) : Nat :=
  ((List.range (transcript.length + 1)).filter (Spec.standaloneAt w transcript)).length

/-- The logical connectors. -/
def Spec.connectorWords : List String :=
  ["and", "but", "or", "however", "therefore", "because", "although", "while", "since", "as"]

/-- The topic-shift markers of the specification. -/
def Spec.topicShiftMarkers : List String :=
  ["anyway", "by the way", "speaking of", "on another note"]

/-- The dangling connectors of the specification. -/
def Spec.danglingConnectors : List String := ["but", "however", "although"]

/-- The sentences of a transcript: the pieces between the marks `.`, `!`,
`?` that hold more than whitespace. -/
def Spec.sentences (transcript : JsString) : List JsString :=
  (splitOn (fun u => u == 46 || u == 33 || u == 63) transcript).filter
    (fun s => s.any (fun u => !isWhiteSpace u))

/-- The last word of a sentence: the letters, digits and underscores at the
end of the sentence, whitespace after them set aside. -/
def Spec.lastWord (sentence : JsString) : JsString :=
  ((trim sentence).reverse.takeWhile (fun u => Spec.isLetterDigitUnderscore (some u))).reverse

/-- A sentence that ends in a dangling connector: its last word is `but`,
`however` or `although`, in any case of letters. -/
def Spec.endsInDanglingConnector (sentence : JsString) : Bool :=
  Spec.danglingConnectors.any
    (fun w => (Spec.lastWord sentence).map canonicalize == (js w).map canonicalize)

/-- The coherence score as the specification words it, on the counts it
names. -/
def Spec.coherence (transcript : JsString) : ℚ :=
  Spec.coherenceLadder
    (Spec.connectorWords.map (fun w => Spec.standaloneCount w transcript)).sum
    (Spec.sentences transcript).length
    (Spec.topicShiftMarkers.map (fun w => Spec.standaloneCount w transcript)).sum
    ((Spec.sentences transcript).countP Spec.endsInDanglingConnector)

/-! ## Auxiliary definitions for the matcher

The match of a pattern `\bw\b` at one position, written without the
matcher, and the condition under which two matches cannot overlap. -/

/-- The literal pattern of a word read from its first character: the
matched prefix is stripped, the result is the last code unit read and the
rest. -/
def stripCI : List Char → Option Nat → JsString → Option (Option Nat × JsString)
  | [], prev, s => some (prev, s)
  | _ :: _, _, [] => none
  | c :: cs, _, u :: us => if ciChar c u then stripCI cs (some u) us else none

/-- A match of `\bw\b` at the current position, for a pattern `p` that starts
and ends with a word character. -/
def occAt (p : List Char) (prev : Option Nat) (s : JsString) : Bool :=
  !Spec.isWordUnit prev &&
  (match stripCI p prev s with
    | some (_, rest) => !Spec.isWordUnit rest.head?
    | none => false)

/-- The number of positions of `s` with a match of `\bw\b`. -/
def occFrom (p : List Char) : Option Nat → JsString → Nat
  | prev, [] => if occAt p prev [] then 1 else 0
  | prev, c :: cs => (if occAt p prev (c :: cs) then 1 else 0) + occFrom p (some c) cs

/-- No match of `\bw\b` at the next `n` positions. -/
def NoOcc (p : List Char) : Nat → Option Nat → JsString → Prop
  | 0, _, _ => True
  | _ + 1, _, [] => True
  | n + 1, prev, c :: cs => occAt p prev (c :: cs) = false ∧ NoOcc p n (some c) cs

/-- A pattern tail `q` and the pattern `p` agree, up to case, as far as both
reach. -/
def compat : List Char → List Char → Bool
  | [], _ => true
  | _ :: _, [] => true
  | a :: q, b :: p => canonicalize a.toNat == canonicalize b.toNat && compat q p

/-- No proper tail of the pattern `p`, starting after a non-word character,
agrees with `p`: two matches of `\bw\b` cannot overlap. -/
def safeTail (p : List Char) : Char → List Char → Bool
  | _, [] => true
  | before, d :: q => (isWordChar before.toNat || !compat (d :: q) p) && safeTail p d q

/-- The conditions on a listed word under which the count of `\bw\b` is the
number of whole-word occurrences: BMP characters, a word character first
and last, no self-overlap. -/
def plainWord (w : String) : Bool :=
  js w == w.toList.map Char.toNat &&
  (match w.toList with
    | [] => false
    | c :: q => isWordChar c.toNat && isWordChar ((c :: q).getLast?.getD c).toNat &&
        safeTail (c :: q) c q)

/-! ## Further definitions for the statements -/

/-- The comparison `a <= b`; it is false when either side is `NaN`. -/
def JsNum.le : JsNum → JsNum → Bool
  | .nan, _ => false
  | _, .nan => false
  | .negInf, _ => true
  | _, .posInf => true
  | .fin a, .fin b => decide (a ≤ b)
  | .fin _, .negInf => false
  | .posInf, _ => false

/-- A speech analysis with its `fillerPercentage` replaced, all else equal. -/
def SpeechAnalysis.withFillerPercentage (speechAnalysis : SpeechAnalysis) (p : JsNum) :
    SpeechAnalysis :=
  { speechAnalysis with
    fillerAnalysis := { speechAnalysis.fillerAnalysis with fillerPercentage := p } }

/-- The filler-saturated transcript of the specification. -/
def fillerTranscript : JsString := js "um uh like um uh like"

/-- A word that names a member of `Object.prototype`: it never gets a numeric
entry in the `wordFrequency` object. -/
def isPrototypeName (w : JsString) : Bool :=
  w == js "__proto__" || inheritedKeys.any (fun key => js key == w)

/-- The state of the `wordFrequency` object after the words `ws`: distinct
keys, each a word read so far other than `__proto__`, holding its number of
occurrences unless the name is inherited. -/
def TableInv (ws : List JsString) (table : List (JsString × Option Nat)) : Prop :=
  (table.map Prod.fst).Nodup ∧
  (∀ e ∈ table, e.1 ∈ ws ∧ e.1 ≠ js "__proto__" ∧
    e.2 = if inheritedKeys.any (fun key => js key == e.1) then none else some (ws.count e.1)) ∧
  (∀ w ∈ ws, w ≠ js "__proto__" → w ∈ table.map Prod.fst)

/-- The population variance of the five sub-scores, as the specification
words it: the squared deviations from the mean, summed and divided by 5. -/
def Spec.populationVariance (b : Breakdown) : ℚ :=
  let mean := (b.fluency + b.pronunciation + b.vocabulary + b.grammar + b.coherence) / 5
  ((b.fluency - mean) ^ 2 + (b.pronunciation - mean) ^ 2 + (b.vocabulary - mean) ^ 2 +
    (b.grammar - mean) ^ 2 + (b.coherence - mean) ^ 2) / 5

/-- A speech analysis with four vague words and no other finding. -/
def vagueAnalysis : SpeechAnalysis :=
  { wordsPerMinute := .fin 150
    duration := .fin 60
    totalWords := 150
    fillerAnalysis := ⟨0, .fin 0, [], 5⟩
    dictionAnalysis := ⟨.fin 1, .fin 4, .fin 0, 5⟩
    structureAnalysis := ⟨.fin 12, ⟨0, 12, 0⟩, 5⟩
    clarityAnalysis := ⟨[], .fin 0, 5⟩
    overallScore := 5
    recommendations := ["Use more specific words instead of vague terms like \x27thing\x27 or \x27stuff\x27"] }

/-- An assessment whose vocabulary sub-score is 2, unrelated to
`vagueAnalysis`. -/
def weakVocabularyScore : ToeflScore :=
  { overallScore := 4.4
    level := "Upper Intermediate"
    breakdown := ⟨5, 5, 2, 5, 5⟩
    detailedFeedback := generateDetailedFeedback ⟨5, 5, 2, 5, 5⟩
    toeflEquivalent := getTOEFLEquivalent 4.4 }

/-! ## Auxiliary lemmas -/

theorem clamp_mem (x : ℚ) : 1 ≤ max 1 (min 5 x) ∧ max 1 (min 5 x) ≤ 5 :=
  ⟨le_max_left _ _, max_le (by norm_num) (min_le_left _ _)⟩

theorem clamp_eq_spec (x : ℚ) : max 1 (min 5 x) = Spec.clamp x := by
  unfold Spec.clamp
  split_ifs with h1 h2
  · rw [max_eq_left]
    exact le_trans (min_le_right _ _) h1.le
  · rw [min_eq_left h2.le]
    exact max_eq_right (by norm_num)
  · push_neg at h1 h2
    rw [min_eq_right h2]
    exact max_eq_right h1

theorem calculateTOEFLScore_eq (b : Breakdown) :
    calculateTOEFLScore b =
      0.25 * b.fluency + 0.20 * b.pronunciation + 0.20 * b.vocabulary + 0.20 * b.grammar
        + 0.15 * b.coherence := by
  simp only [calculateTOEFLScore, toeflCriteria, List.map, List.foldl, Criterion.weight,
    Breakdown.get]
  norm_num
  ring

theorem jsRound_eq (x : ℚ) (n : ℤ) (h1 : (n : ℚ) ≤ x + 1 / 2) (h2 : x + 1 / 2 < n + 1) :
    jsRound x = n := by
  unfold jsRound
  exact Int.floor_eq_iff.mpr ⟨h1, h2⟩

theorem le_jsRound_iff (x : ℚ) (n : ℤ) : n ≤ jsRound x ↔ (n : ℚ) - 1 / 2 ≤ x := by
  unfold jsRound
  rw [Int.le_floor]
  constructor <;> intro h <;> linarith

theorem jsRound_le_iff (x : ℚ) (n : ℤ) : jsRound x ≤ n ↔ x < (n : ℚ) + 1 / 2 := by
  unfold jsRound
  rw [← Int.lt_add_one_iff, Int.floor_lt]
  push_cast
  constructor <;> intro h <;> linarith

@[simp] theorem JsNum.lt_fin (a b : ℚ) : (JsNum.fin a).lt (JsNum.fin b) = decide (a < b) := rfl

@[simp] theorem JsNum.gt_fin (a b : ℚ) : (JsNum.fin a).gt (JsNum.fin b) = decide (b < a) := rfl

@[simp] theorem JsNum.round_fin (a : ℚ) : (JsNum.fin a).round = JsNum.fin (jsRound a) := rfl

@[simp] theorem JsNum.mul_fin (a b : ℚ) :
    (JsNum.fin a).mul (JsNum.fin b) = JsNum.fin (a * b) := rfl

theorem JsNum.div_fin (a b : ℚ) (hb : b ≠ 0) :
    (JsNum.fin a).div (JsNum.fin b) = JsNum.fin (a / b) := by
  simp [JsNum.div, hb]

theorem weighted_mem (f p v g c : ℚ) (hf : 1 ≤ f ∧ f ≤ 5) (hp : 1 ≤ p ∧ p ≤ 5)
    (hv : 1 ≤ v ∧ v ≤ 5) (hg : 1 ≤ g ∧ g ≤ 5) (hc : 1 ≤ c ∧ c ≤ 5) :
    1 ≤ calculateTOEFLScore ⟨f, p, v, g, c⟩ ∧ calculateTOEFLScore ⟨f, p, v, g, c⟩ ≤ 5 := by
  rw [calculateTOEFLScore_eq]
  constructor <;> norm_num <;> linarith [hf.1, hf.2, hp.1, hp.2, hv.1, hv.2, hg.1, hg.2, hc.1, hc.2]

theorem round1_mem (x : ℚ) (h : 1 ≤ x ∧ x ≤ 5) :
    1 ≤ (jsRound (x * 10) : ℚ) / 10 ∧ (jsRound (x * 10) : ℚ) / 10 ≤ 5 := by
  have h1 : (10 : ℤ) ≤ jsRound (x * 10) := by
    rw [le_jsRound_iff]; push_cast; linarith [h.1]
  have h2 : jsRound (x * 10) ≤ (50 : ℤ) := by
    rw [jsRound_le_iff]; push_cast; linarith [h.2]
  have h1q : (10 : ℚ) ≤ (jsRound (x * 10) : ℚ) := by exact_mod_cast h1
  have h2q : (jsRound (x * 10) : ℚ) ≤ 50 := by exact_mod_cast h2
  constructor
  · rw [le_div_iff₀ (by norm_num)]; linarith
  · rw [div_le_iff₀ (by norm_num)]; linarith

/-! ## Score ranges -/

/-- C1: for every speech-analysis record, whatever its field values (finite,
infinite or `NaN`), and every transcript, each of the five scorers returns a
value in the closed interval `[1,5]`. -/
theorem scorers_in_range (speechAnalysis : SpeechAnalysis) (transcript : JsString) :
    (1 ≤ assessFluency speechAnalysis ∧ assessFluency speechAnalysis ≤ 5) ∧
    (1 ≤ assessPronunciation speechAnalysis ∧ assessPronunciation speechAnalysis ≤ 5) ∧
    (1 ≤ assessVocabulary speechAnalysis ∧ assessVocabulary speechAnalysis ≤ 5) ∧
    (1 ≤ assessGrammar transcript ∧ assessGrammar transcript ≤ 5) ∧
    (1 ≤ assessCoherence transcript ∧ assessCoherence transcript ≤ 5) :=
  ⟨clamp_mem _, clamp_mem _, clamp_mem _, clamp_mem _, clamp_mem _⟩

/-- C2: for every transcript and every duration (positive or not, and
whatever the lower-casing function), the weighted score computed by
`calculateTOEFLScore` on the breakdown of `assess`, the rounded
`overallScore` that `assess` returns, and the `overallScore` that `analyze`
returns all lie in `[1,5]`. -/
theorem overall_scores_in_range (toLowerCase : JsString → JsString) (duration : ℚ)
    (transcript : JsString) :
    (1 ≤ calculateTOEFLScore (assess transcript (analyze toLowerCase duration transcript)).breakdown ∧
      calculateTOEFLScore (assess transcript (analyze toLowerCase duration transcript)).breakdown
        ≤ 5) ∧
    (1 ≤ (assess transcript (analyze toLowerCase duration transcript)).overallScore ∧
      (assess transcript (analyze toLowerCase duration transcript)).overallScore ≤ 5) ∧
    (1 ≤ (analyze toLowerCase duration transcript).overallScore ∧
      (analyze toLowerCase duration transcript).overallScore ≤ 5) := by
  have hw := weighted_mem _ _ _ _ _
    (clamp_mem _ : 1 ≤ assessFluency (analyze toLowerCase duration transcript) ∧ _)
    (clamp_mem _ : 1 ≤ assessPronunciation (analyze toLowerCase duration transcript) ∧ _)
    (clamp_mem _ : 1 ≤ assessVocabulary (analyze toLowerCase duration transcript) ∧ _)
    (clamp_mem _ : 1 ≤ assessGrammar transcript ∧ _)
    (clamp_mem _ : 1 ≤ assessCoherence transcript ∧ _)
  exact ⟨hw, round1_mem _ hw, clamp_mem _⟩

/-! ## Level and aggregate -/

/-- C3: `determineLevel` is a total partition with closed-below boundaries:
for every score `s` the result is `Advanced` iff `4.5 ≤ s`,
`Upper Intermediate` iff `3.5 ≤ s < 4.5`, `Intermediate` iff `2.5 ≤ s < 3.5`,
`Lower Intermediate` iff `1.5 ≤ s < 2.5` and `Beginner` iff `s < 1.5`; and
`determineLevel 3.5` is `Upper Intermediate`, `determineLevel 3.49` is
`Intermediate`. -/
theorem determineLevel_partition (s : ℚ) :
    (determineLevel s = "Advanced" ↔ 4.5 ≤ s) ∧
    (determineLevel s = "Upper Intermediate" ↔ 3.5 ≤ s ∧ s < 4.5) ∧
    (determineLevel s = "Intermediate" ↔ 2.5 ≤ s ∧ s < 3.5) ∧
    (determineLevel s = "Lower Intermediate" ↔ 1.5 ≤ s ∧ s < 2.5) ∧
    (determineLevel s = "Beginner" ↔ s < 1.5) ∧
    determineLevel 3.5 = "Upper Intermediate" ∧
    determineLevel 3.49 = "Intermediate" := by
  refine ⟨?_, ?_, ?_, ?_, ?_, ?_, ?_⟩
  · unfold determineLevel
    split_ifs <;> simp_all
  · unfold determineLevel
    split_ifs <;> simp_all
  · unfold determineLevel
    split_ifs <;> simp_all
    intro _
    linarith
  · unfold determineLevel
    split_ifs <;> simp_all <;> intro _ <;> linarith
  · unfold determineLevel
    split_ifs <;> simp_all <;> linarith
  · unfold determineLevel
    norm_num
  · unfold determineLevel
    norm_num

/-- C4: for all five sub-scores, `calculateTOEFLScore` returns exactly
`0.25*f + 0.20*p + 0.20*v + 0.20*g + 0.15*c`, and the weights of
`toeflCriteria` sum to 1 (exact rational arithmetic). -/
theorem calculateTOEFLScore_weighted (f p v g c : ℚ) :
    calculateTOEFLScore ⟨f, p, v, g, c⟩ = 0.25 * f + 0.20 * p + 0.20 * v + 0.20 * g + 0.15 * c ∧
    (toeflCriteria.map (fun entry => entry.2)).sum = 1 := by
  refine ⟨calculateTOEFLScore_eq _, ?_⟩
  simp only [toeflCriteria, List.map, List.sum_cons, List.sum_nil, Criterion.weight]
  norm_num

/-! ## The ladders -/

/-- C6: for every speech analysis, `assessFluency` equals the fluency ladder
of the specification: start at 5; minus 1 if `wordsPerMinute < 100`,
otherwise minus 0.5 if `wordsPerMinute > 180`; minus 1 if
`fillerPercentage > 8`, otherwise minus 0.5 if `fillerPercentage > 5`; minus
0.5 if `avgSentenceLength < 8`; clamped to `[1,5]`. -/
theorem assessFluency_eq_ladder (speechAnalysis : SpeechAnalysis) :
    assessFluency speechAnalysis =
      Spec.fluencyLadder speechAnalysis.wordsPerMinute
        speechAnalysis.fillerAnalysis.fillerPercentage
        speechAnalysis.structureAnalysis.avgSentenceLength := by
  unfold assessFluency Spec.fluencyLadder
  rw [← clamp_eq_spec]
  split_ifs <;> norm_num

/-- C7: for every speech analysis, `assessVocabulary` equals the vocabulary
ladder of the specification: start at 5; minus 1 if
`vocabularyDiversity < 0.4`, otherwise minus 0.5 if
`vocabularyDiversity < 0.6`; minus 1 if `vagueWords > 4`, otherwise minus 0.5
if `vagueWords > 2`; minus 0.5 if `weakWords > 3`; clamped to `[1,5]`. -/
theorem assessVocabulary_eq_ladder (speechAnalysis : SpeechAnalysis) :
    assessVocabulary speechAnalysis =
      Spec.vocabularyLadder speechAnalysis.dictionAnalysis.vocabularyDiversity
        speechAnalysis.dictionAnalysis.vagueWords
        speechAnalysis.dictionAnalysis.weakWords := by
  unfold assessVocabulary Spec.vocabularyLadder
  rw [← clamp_eq_spec]
  have h4 : (0.4 : ℚ) = 2 / 5 := by norm_num
  have h6 : (0.6 : ℚ) = 3 / 5 := by norm_num
  rw [h4, h6]
  split_ifs <;> norm_num

/-- C10, the code at two failing inputs.  In `and my debut. and her debut.`
no sentence ends in the word `but`, `however` or `although`, and the ladder
of the specification gives 5 (2 connectors for 2 sentences, no topic-shift
marker); `assessCoherence` tests the last letters of the trimmed sentence,
counts both sentences for their ending `debut`, and returns 4.5.  In
`I tried BUT. You tried BUT.` both sentences end in the connector and the
ladder gives 4.5; the test of `assessCoherence` is case-sensitive, counts
none, and the method returns 5.  On `anyway, anyway. anyway! and` (three
topic-shift markers) both give 4, and on `I came. I saw. I won. I left.` (no
connector for 4 sentences) both give 4.5.  For every transcript
`assessCoherence` is the ladder on the counts the code computes, the last of
which is the number of trimmed sentences with the letters `but`, `however`
or `although` at the end. -/
theorem assessCoherence_letter_suffix :
    (assessCoherence (js "and my debut. and her debut.") = 4.5 ∧
      Spec.coherence (js "and my debut. and her debut.") = 5 ∧
      incompleteSentenceCount (sentencesOf (js "and my debut. and her debut.")) = 2 ∧
      (Spec.sentences (js "and my debut. and her debut.")).countP
        Spec.endsInDanglingConnector = 0) ∧
    (assessCoherence (js "I tried BUT. You tried BUT.") = 5 ∧
      Spec.coherence (js "I tried BUT. You tried BUT.") = 4.5 ∧
      incompleteSentenceCount (sentencesOf (js "I tried BUT. You tried BUT.")) = 0 ∧
      (Spec.sentences (js "I tried BUT. You tried BUT.")).countP
        Spec.endsInDanglingConnector = 2) ∧
    (assessCoherence (js "anyway, anyway. anyway! and") = 4 ∧
      Spec.coherence (js "anyway, anyway. anyway! and") = 4 ∧
      assessCoherence (js "I came. I saw. I won. I left.") = 4.5 ∧
      Spec.coherence (js "I came. I saw. I won. I left.") = 4.5) ∧
    (∀ transcript : JsString,
      assessCoherence transcript =
        Spec.coherenceLadder (connectorCount transcript) (sentencesOf transcript).length
          (countTopicShifts transcript) (incompleteSentenceCount (sentencesOf transcript)) ∧
      incompleteSentenceCount (sentencesOf transcript) =
        (sentencesOf transcript).countP (fun s =>
          decide (js "but" <:+ trim s ∨ js "however" <:+ trim s ∨ js "although" <:+ trim s))) := by
  have general : ∀ transcript : JsString,
      assessCoherence transcript =
        Spec.coherenceLadder (connectorCount transcript) (sentencesOf transcript).length
          (countTopicShifts transcript) (incompleteSentenceCount (sentencesOf transcript)) := by
    intro transcript
    unfold assessCoherence Spec.coherenceLadder
    rw [← clamp_eq_spec]
    have h3 : (sentencesOf transcript).length * (0.3 : ℚ) =
        3 / 10 * ((sentencesOf transcript).length : ℚ) := by ring
    simp only [h3, gt_iff_lt]
    split_ifs <;> norm_num
  have eval : ∀ (transcript : JsString) (c n t d : Nat), connectorCount transcript = c →
      (sentencesOf transcript).length = n → countTopicShifts transcript = t →
      incompleteSentenceCount (sentencesOf transcript) = d →
      assessCoherence transcript = Spec.coherenceLadder c n t d := by
    intro transcript c n t d h1 h2 h3 h4
    rw [general, h1, h2, h3, h4]
  have evalSpec : ∀ (transcript : JsString) (c n t d : Nat),
      (Spec.connectorWords.map (fun w => Spec.standaloneCount w transcript)).sum = c →
      (Spec.sentences transcript).length = n →
      (Spec.topicShiftMarkers.map (fun w => Spec.standaloneCount w transcript)).sum = t →
      (Spec.sentences transcript).countP Spec.endsInDanglingConnector = d →
      Spec.coherence transcript = Spec.coherenceLadder c n t d := by
    intro transcript c n t d h1 h2 h3 h4
    unfold Spec.coherence
    rw [h1, h2, h3, h4]
  have l1 : Spec.coherenceLadder 1 3 3 0 = 4 := by
    simp only [Spec.coherenceLadder, Spec.clamp]
    norm_num
  have l2 : Spec.coherenceLadder 0 4 0 0 = 4.5 := by
    simp only [Spec.coherenceLadder, Spec.clamp]
    norm_num
  have l3 : Spec.coherenceLadder 2 2 0 2 = 4.5 := by
    simp only [Spec.coherenceLadder, Spec.clamp]
    norm_num
  have l4 : Spec.coherenceLadder 2 2 0 0 = 5 := by
    simp only [Spec.coherenceLadder, Spec.clamp]
    norm_num
  refine ⟨⟨?_, ?_, by decide, by decide⟩, ⟨?_, ?_, by decide, by decide⟩, ⟨?_, ?_, ?_, ?_⟩, ?_⟩
  · rw [eval _ 2 2 0 2 (by decide) (by decide) (by decide) (by decide), l3]
  · rw [evalSpec _ 2 2 0 0 (by decide) (by decide) (by decide) (by decide), l4]
  · rw [eval _ 2 2 0 0 (by decide) (by decide) (by decide) (by decide), l4]
  · rw [evalSpec _ 2 2 0 2 (by decide) (by decide) (by decide) (by decide), l3]
  · rw [eval _ 1 3 3 0 (by decide) (by decide) (by decide) (by decide), l1]
  · rw [evalSpec _ 1 3 3 0 (by decide) (by decide) (by decide) (by decide), l1]
  · rw [eval _ 0 4 0 0 (by decide) (by decide) (by decide) (by decide), l2]
  · rw [evalSpec _ 0 4 0 0 (by decide) (by decide) (by decide) (by decide), l2]
  · intro transcript
    refine ⟨general transcript, ?_⟩
    unfold incompleteSentenceCount
    rw [List.countP_eq_length_filter]
    congr 2
    funext s
    have key : ∀ a b : JsString, List.isSuffixOf a b = decide (a <:+ b) := by
      intro a b
      rw [Bool.eq_iff_iff]
      simp
    simp [endsWith, key, Bool.or_assoc]

/-! ## Evaluation lemmas for the analyzer -/

theorem splitRuns_ne_nil (p : Nat → Bool) (inSep : Bool) (s : JsString) :
    splitRuns p inSep s ≠ [] := by
  induction s generalizing inSep with
  | nil => simp [splitRuns]
  | cons c cs ih =>
    unfold splitRuns
    split_ifs
    · exact ih true
    · simp
    · split <;> simp

theorem wordsOf_length_pos (toLowerCase : JsString → JsString) (transcript : JsString) :
    0 < (wordsOf toLowerCase transcript).length :=
  List.length_pos.mpr (splitRuns_ne_nil _ _ _)

theorem wordsPerMinute_eq (toLowerCase : JsString → JsString) (duration : ℚ)
    (transcript : JsString) (hd : duration ≠ 0) :
    (analyze toLowerCase duration transcript).wordsPerMinute =
      .fin (jsRound ((wordsOf toLowerCase transcript).length / duration * 60)) := by
  simp only [analyze]
  rw [JsNum.div_fin _ _ hd]
  rfl

theorem fillerPercentage_eq (toLowerCase : JsString → JsString) (transcript : JsString) :
    (analyzeFillerWords toLowerCase transcript).fillerPercentage =
      .fin ((jsRound (((fillerLoop transcript).2 : ℚ) / (wordsOf toLowerCase transcript).length
        * 100 * 100) : ℚ) / 100) := by
  have h : ((wordsOf toLowerCase transcript).length : ℚ) ≠ 0 :=
    Nat.cast_ne_zero.mpr (wordsOf_length_pos toLowerCase transcript).ne'
  simp only [analyzeFillerWords]
  rw [JsNum.div_fin _ _ h]
  simp only [JsNum.mul_fin, JsNum.round_fin]
  rw [JsNum.div_fin _ _ (by norm_num)]

theorem vocabularyDiversity_eq (toLowerCase : JsString → JsString) (transcript : JsString) :
    (analyzeDiction toLowerCase transcript).vocabularyDiversity =
      .fin ((jsRound (((wordsOf toLowerCase transcript).eraseDups.length : ℚ) /
        (wordsOf toLowerCase transcript).length * 1000) : ℚ) / 1000) := by
  have h : ((wordsOf toLowerCase transcript).length : ℚ) ≠ 0 :=
    Nat.cast_ne_zero.mpr (wordsOf_length_pos toLowerCase transcript).ne'
  simp only [analyzeDiction]
  rw [JsNum.div_fin _ _ h]
  simp only [JsNum.mul_fin, JsNum.round_fin]
  rw [JsNum.div_fin _ _ (by norm_num)]

theorem avgSentenceLength_eq (transcript : JsString) (h : (sentencesOf transcript).length ≠ 0) :
    (analyzeSentenceStructure transcript).avgSentenceLength =
      .fin ((jsRound ((sentenceWordTotal (sentencesOf transcript) : ℚ) /
        (sentencesOf transcript).length * 10) : ℚ) / 10) := by
  have h0 : ((sentencesOf transcript).length : ℚ) ≠ 0 := Nat.cast_ne_zero.mpr h
  simp only [analyzeSentenceStructure]
  rw [JsNum.div_fin _ _ h0]
  simp only [JsNum.mul_fin, JsNum.round_fin]
  rw [JsNum.div_fin _ _ (by norm_num)]

/-! ## A transcript whose score rounds up across a level boundary -/

theorem roundedUp_fluency :
    assessFluency (analyze asciiLowerCase 60 (js "anyway, anyway. anyway! and")) = 3.5 := by
  have hw : (wordsOf asciiLowerCase (js "anyway, anyway. anyway! and")).length = 4 := by decide
  have hf : (fillerLoop (js "anyway, anyway. anyway! and")).2 = 0 := by decide
  have hs : (sentencesOf (js "anyway, anyway. anyway! and")).length = 3 := by decide
  have ht : sentenceWordTotal (sentencesOf (js "anyway, anyway. anyway! and")) = 4 := by decide
  have h1 := wordsPerMinute_eq asciiLowerCase 60 (js "anyway, anyway. anyway! and") (by norm_num)
  have h2 := fillerPercentage_eq asciiLowerCase (js "anyway, anyway. anyway! and")
  have h3 := avgSentenceLength_eq (js "anyway, anyway. anyway! and") (by rw [hs]; decide)
  rw [hw] at h1 h2
  rw [hf] at h2
  rw [hs, ht] at h3
  rw [jsRound_eq _ 4 (by norm_num) (by norm_num)] at h1
  rw [jsRound_eq _ 0 (by norm_num) (by norm_num)] at h2
  rw [jsRound_eq _ 13 (by norm_num) (by norm_num)] at h3
  have h2a : (analyze asciiLowerCase 60 (js "anyway, anyway. anyway! and")).fillerAnalysis =
      analyzeFillerWords asciiLowerCase (js "anyway, anyway. anyway! and") := rfl
  have h3a : (analyze asciiLowerCase 60 (js "anyway, anyway. anyway! and")).structureAnalysis =
      analyzeSentenceStructure (js "anyway, anyway. anyway! and") := rfl
  unfold assessFluency
  rw [h1, h2a, h2, h3a, h3]
  norm_num

theorem roundedUp_pronunciation :
    assessPronunciation (analyze asciiLowerCase 60 (js "anyway, anyway. anyway! and")) = 5 := by
  have hw : (wordsOf asciiLowerCase (js "anyway, anyway. anyway! and")).length = 4 := by decide
  have hr : (analyzeClarity asciiLowerCase (js "anyway, anyway. anyway! and")).repetitiveWords
      = [] := by decide
  have hi : incompleteThoughtCount (js "anyway, anyway. anyway! and") = 0 := by decide
  have h1 := wordsPerMinute_eq asciiLowerCase 60 (js "anyway, anyway. anyway! and") (by norm_num)
  rw [hw, jsRound_eq _ 4 (by norm_num) (by norm_num)] at h1
  have h2 : (analyze asciiLowerCase 60 (js "anyway, anyway. anyway! and")).clarityAnalysis =
      analyzeClarity asciiLowerCase (js "anyway, anyway. anyway! and") := rfl
  have h3 : (analyzeClarity asciiLowerCase (js "anyway, anyway. anyway! and")).incompleteThoughts
      = .fin (incompleteThoughtCount (js "anyway, anyway. anyway! and")) := rfl
  unfold assessPronunciation
  rw [h1, h2, hr, h3, hi]
  norm_num

theorem roundedUp_vocabulary :
    assessVocabulary (analyze asciiLowerCase 60 (js "anyway, anyway. anyway! and")) = 5 := by
  have hw : (wordsOf asciiLowerCase (js "anyway, anyway. anyway! and")).length = 4 := by decide
  have hu : (wordsOf asciiLowerCase (js "anyway, anyway. anyway! and")).eraseDups.length = 4 := by
    decide
  have hv : countListed vagueWords (js "anyway, anyway. anyway! and") = 0 := by decide
  have hk : countListed weakWords (js "anyway, anyway. anyway! and") = 0 := by decide
  have h1 := vocabularyDiversity_eq asciiLowerCase (js "anyway, anyway. anyway! and")
  rw [hu, hw, jsRound_eq _ 1000 (by norm_num) (by norm_num)] at h1
  have h2 : (analyze asciiLowerCase 60 (js "anyway, anyway. anyway! and")).dictionAnalysis =
      analyzeDiction asciiLowerCase (js "anyway, anyway. anyway! and") := rfl
  have h3 : (analyzeDiction asciiLowerCase (js "anyway, anyway. anyway! and")).vagueWords
      = .fin (countListed vagueWords (js "anyway, anyway. anyway! and")) := rfl
  have h4 : (analyzeDiction asciiLowerCase (js "anyway, anyway. anyway! and")).weakWords
      = .fin (countListed weakWords (js "anyway, anyway. anyway! and")) := rfl
  unfold assessVocabulary
  rw [h2, h1, h3, h4, hv, hk]
  norm_num

theorem roundedUp_grammar : assessGrammar (js "anyway, anyway. anyway! and") = 5 := by
  have h1 : countSubjectVerbErrors (js "anyway, anyway. anyway! and") = 0 := by decide
  have h2 : countArticleErrors (js "anyway, anyway. anyway! and") = 0 := by decide
  have h3 : countTenseErrors (js "anyway, anyway. anyway! and") = 0 := by decide
  unfold assessGrammar
  rw [h1, h2, h3]
  norm_num

theorem roundedUp_coherence : assessCoherence (js "anyway, anyway. anyway! and") = 4 := by
  have h1 : countTopicShifts (js "anyway, anyway. anyway! and") = 3 := by decide
  have h2 : connectorCount (js "anyway, anyway. anyway! and") = 1 := by decide
  have h3 : (sentencesOf (js "anyway, anyway. anyway! and")).length = 3 := by decide
  have h4 : incompleteSentenceCount (sentencesOf (js "anyway, anyway. anyway! and")) = 0 := by
    decide
  simp only [assessCoherence, h1, h2, h3, h4]
  norm_num

theorem assess_raw (transcript : JsString) (speechAnalysis : SpeechAnalysis) :
    (assess transcript speechAnalysis).level =
        determineLevel (calculateTOEFLScore (assess transcript speechAnalysis).breakdown) ∧
    (assess transcript speechAnalysis).overallScore =
        (jsRound (calculateTOEFLScore (assess transcript speechAnalysis).breakdown * 10) : ℚ) / 10 ∧
    (assess transcript speechAnalysis).breakdown =
        ⟨assessFluency speechAnalysis, assessPronunciation speechAnalysis,
          assessVocabulary speechAnalysis, assessGrammar transcript,
          assessCoherence transcript⟩ :=
  ⟨rfl, rfl, rfl⟩

theorem ge_round1_iff (x : ℚ) (n : ℤ) :
    (n : ℚ) / 10 ≤ (jsRound (x * 10) : ℚ) / 10 ↔ (n : ℚ) / 10 - 1 / 20 ≤ x := by
  rw [div_le_div_iff_of_pos_right (by norm_num : (0 : ℚ) < 10)]
  have h := le_jsRound_iff (x * 10) n
  constructor
  · intro hn
    have := h.mp (by exact_mod_cast hn)
    linarith
  · intro hx
    have := h.mpr (by linarith)
    exact_mod_cast this

/-! ## The level of `assess` -/

/-! ### Rounding to binary64 -/


theorem roundTiesToEven_le (q : ℚ) (k : ℤ) (h : q ≤ k) : roundTiesToEven q ≤ k := by
  have hf : ⌊q⌋ ≤ k := Int.floor_le_floor h |>.trans (by simp)
  unfold roundTiesToEven
  have hlt : q - ⌊q⌋ ≠ 0 → ⌊q⌋ + 1 ≤ k := by
    intro hne
    have h1 : (⌊q⌋ : ℚ) < q := lt_of_le_of_ne (Int.floor_le q) (fun e => hne (by rw [e]; ring))
    have h2 : (⌊q⌋ : ℚ) < k := lt_of_lt_of_le h1 h
    have h3 : ⌊q⌋ < k := by exact_mod_cast h2
    omega
  split_ifs with h1 h2 h3
  · exact hf
  · exact hlt (by linarith)
  · exact hf
  · exact hlt (by
      have : q - ⌊q⌋ = 1 / 2 := le_antisymm (not_lt.mp h2) (not_lt.mp h1)
      rw [this]; norm_num)

theorem le_roundTiesToEven (q : ℚ) (k : ℤ) (h : (k : ℚ) ≤ q) : k ≤ roundTiesToEven q := by
  have hf : k ≤ ⌊q⌋ := Int.le_floor.mpr h
  unfold roundTiesToEven
  split_ifs <;> omega

theorem binade_eq (x : ℚ) (e : ℤ) (h1 : (2 : ℚ) ^ e ≤ |x|) (h2 : |x| < 2 ^ (e + 1))
    (he : -1022 ≤ e) : binade x = e := by
  have hpos : 0 < |x| := lt_of_lt_of_le (by positivity) h1
  have hle : e ≤ Int.log 2 |x| := by
    rw [← Int.zpow_le_iff_le_log (by norm_num) hpos]
    exact_mod_cast h1
  have hlt : Int.log 2 |x| < e + 1 := by
    rw [← Int.lt_zpow_iff_log_lt (by norm_num) hpos]
    exact_mod_cast h2
  unfold binade
  rw [max_eq_left (by omega)]
  omega

theorem binade_mono (x y : ℚ) (hx : 0 < x) (h : x ≤ y) : binade x ≤ binade y := by
  unfold binade
  apply max_le_max _ le_rfl
  rw [abs_of_pos hx, abs_of_pos (lt_of_lt_of_le hx h)]
  exact Int.log_mono_right hx h

theorem lt_zpow_binade (x : ℚ) (hx : 0 < x) : x < 2 ^ (binade x + 1) := by
  have h1 : x < ((2 : ℕ) : ℚ) ^ (Int.log 2 x + 1) := Int.lt_zpow_succ_log_self (by norm_num) x
  have h2 : Int.log 2 x + 1 ≤ binade x + 1 := by
    unfold binade
    rw [abs_of_pos hx]
    have := le_max_left (Int.log 2 x) (-1022)
    omega
  calc x < (2 : ℚ) ^ (Int.log 2 x + 1) := by exact_mod_cast h1
    _ ≤ 2 ^ (binade x + 1) := zpow_le_zpow_right₀ (by norm_num) h2

theorem zpow_binade_le (x : ℚ) (hx : 0 < x) (h : -1022 < binade x) : 2 ^ binade x ≤ x := by
  have hb : binade x = Int.log 2 x := by
    unfold binade at h ⊢
    rw [abs_of_pos hx] at h ⊢
    rcases max_cases (Int.log 2 x) (-1022) with ⟨e, _⟩ | ⟨e, _⟩
    · exact e
    · rw [e] at h; omega
  rw [hb]
  have h1 : ((2 : ℕ) : ℚ) ^ Int.log 2 x ≤ x := Int.zpow_log_le_self (by norm_num) hx
  exact_mod_cast h1

theorem zpow_split52 (e : ℤ) : (2 : ℚ) ^ e = (((2 : ℤ) ^ 52 : ℤ) : ℚ) * 2 ^ (e - 52) := by
  have h : (2 : ℚ) ^ e = 2 ^ (52 : ℤ) * 2 ^ (e - 52) := by
    rw [← zpow_add₀ (by norm_num)]
    congr 1
    omega
  rw [h]
  norm_num


theorem binary64_le (z d : ℚ) (hd : 0 < d) (hrep : IsBinary64 d) (h : z ≤ d) :
    binary64 z ≤ d := by
  unfold binary64
  have hu : (0 : ℚ) < 2 ^ (binade z - 52) := by positivity
  by_cases hz : 0 < z
  · obtain ⟨m, hm⟩ := hrep
    have he : binade z ≤ binade d := binade_mono z d hz h
    obtain ⟨n, hn⟩ : ∃ n : ℕ, binade d - 52 = binade z - 52 + n :=
      ⟨(binade d - binade z).toNat, by omega⟩
    have hd2 : d = ((m * 2 ^ n : ℤ) : ℚ) * 2 ^ (binade z - 52) := by
      rw [hm, hn, zpow_add₀ (by norm_num), zpow_natCast]
      push_cast
      ring
    have hq : z / 2 ^ (binade z - 52) ≤ ((m * 2 ^ n : ℤ) : ℚ) := by
      rw [div_le_iff₀ hu, ← hd2]
      exact h
    have hr := roundTiesToEven_le _ _ hq
    calc (roundTiesToEven (z / 2 ^ (binade z - 52)) : ℚ) * 2 ^ (binade z - 52)
        ≤ ((m * 2 ^ n : ℤ) : ℚ) * 2 ^ (binade z - 52) :=
          mul_le_mul_of_nonneg_right (by exact_mod_cast hr) hu.le
      _ = d := hd2.symm
  · have hq : z / 2 ^ (binade z - 52) ≤ ((0 : ℤ) : ℚ) := by
      rw [div_le_iff₀ hu]
      push_cast
      linarith
    have hr := roundTiesToEven_le _ _ hq
    have : (roundTiesToEven (z / 2 ^ (binade z - 52)) : ℚ) ≤ 0 := by exact_mod_cast hr
    nlinarith

theorem le_binary64 (z d : ℚ) (hd : 0 < d) (hrep : IsBinary64 d) (h : d ≤ z) :
    d ≤ binary64 z := by
  unfold binary64
  have hz : 0 < z := lt_of_lt_of_le hd h
  have hu : (0 : ℚ) < 2 ^ (binade z - 52) := by positivity
  have he : binade d ≤ binade z := binade_mono d z hd h
  rcases eq_or_lt_of_le he with heq | hlt
  · obtain ⟨m, hm⟩ := hrep
    rw [heq] at hm
    have hq : ((m : ℤ) : ℚ) ≤ z / 2 ^ (binade z - 52) := by
      rw [le_div_iff₀ hu, ← hm]
      exact h
    have hr := le_roundTiesToEven _ _ hq
    calc d = (m : ℚ) * 2 ^ (binade z - 52) := hm
      _ ≤ (roundTiesToEven (z / 2 ^ (binade z - 52)) : ℚ) * 2 ^ (binade z - 52) :=
          mul_le_mul_of_nonneg_right (by exact_mod_cast hr) hu.le
  · have hbz : -1022 < binade z := by
      have : -1022 ≤ binade d := le_max_right _ _
      omega
    have h2 : (2 : ℚ) ^ binade z ≤ z := zpow_binade_le z hz hbz
    have hq : (((2 : ℤ) ^ 52 : ℤ) : ℚ) ≤ z / 2 ^ (binade z - 52) := by
      rw [le_div_iff₀ hu, ← zpow_split52]
      exact h2
    have hr := le_roundTiesToEven _ _ hq
    have h3 : d < 2 ^ (binade d + 1) := lt_zpow_binade d hd
    have h4 : (2 : ℚ) ^ (binade d + 1) ≤ 2 ^ binade z :=
      zpow_le_zpow_right₀ (by norm_num) (by omega)
    have h5 : (2 : ℚ) ^ binade z =
        (((2 : ℤ) ^ 52 : ℤ) : ℚ) * 2 ^ (binade z - 52) := zpow_split52 _
    calc d ≤ 2 ^ binade z := (h3.trans_le h4).le
      _ = (((2 : ℤ) ^ 52 : ℤ) : ℚ) * 2 ^ (binade z - 52) := h5
      _ ≤ (roundTiesToEven (z / 2 ^ (binade z - 52)) : ℚ) * 2 ^ (binade z - 52) :=
          mul_le_mul_of_nonneg_right (by exact_mod_cast hr) hu.le

theorem roundTiesToEven_eq (q : ℚ) (m : ℤ) (h1 : (m : ℚ) - 1 / 2 < q) (h2 : q < m + 1 / 2) :
    roundTiesToEven q = m := by
  unfold roundTiesToEven
  have hf1 : m - 1 ≤ ⌊q⌋ := Int.le_floor.mpr (by push_cast; linarith)
  have hf2 : ⌊q⌋ ≤ m := by
    have : ⌊q⌋ < m + 1 := Int.floor_lt.mpr (by push_cast; linarith)
    omega
  rcases eq_or_lt_of_le hf2 with e | hlt
  · rw [e]
    rw [if_pos (by linarith)]
  · have e : ⌊q⌋ = m - 1 := by omega
    rw [e]
    push_cast
    rw [if_neg (by linarith), if_pos (by linarith)]
    ring

theorem roundTiesToEven_half (f : ℤ) :
    roundTiesToEven ((f : ℚ) + 1 / 2) = if f % 2 = 0 then f else f + 1 := by
  have hfl : ⌊(f : ℚ) + 1 / 2⌋ = f := by
    rw [Int.floor_eq_iff]
    constructor <;> linarith
  unfold roundTiesToEven
  rw [hfl]
  rw [if_neg (by norm_num), if_neg (by norm_num)]

theorem binade_eq_of_pos (x : ℚ) (e : ℤ) (h1 : (2 : ℚ) ^ e ≤ x) (h2 : x < 2 ^ (e + 1))
    (he : -1022 ≤ e) : binade x = e := by
  have hx : 0 < x := lt_of_lt_of_le (by positivity) h1
  apply binade_eq x e _ _ he
  · rwa [abs_of_pos hx]
  · rwa [abs_of_pos hx]

theorem binary64_eq (x : ℚ) (e m : ℤ) (h1 : (2 : ℚ) ^ e ≤ x) (h2 : x < 2 ^ (e + 1))
    (he : -1022 ≤ e) (hm1 : (m : ℚ) - 1 / 2 < x / 2 ^ (e - 52))
    (hm2 : x / 2 ^ (e - 52) < m + 1 / 2) : binary64 x = m * 2 ^ (e - 52) := by
  unfold binary64
  rw [binade_eq_of_pos x e h1 h2 he, roundTiesToEven_eq _ m hm1 hm2]

theorem binary64_tie (x : ℚ) (e f : ℤ) (h1 : (2 : ℚ) ^ e ≤ x) (h2 : x < 2 ^ (e + 1))
    (he : -1022 ≤ e) (hq : x / 2 ^ (e - 52) = f + 1 / 2) :
    binary64 x = ((if f % 2 = 0 then f else f + 1 : ℤ) : ℚ) * 2 ^ (e - 52) := by
  unfold binary64
  rw [binade_eq_of_pos x e h1 h2 he, hq, roundTiesToEven_half]

theorem binary64_step0 : binary64 (1 / 4) = 1 / 4 := by
  rw [binary64_eq _ (-2) 4503599627370496 (by norm_num) (by norm_num) (by norm_num) (by norm_num)
    (by norm_num)]
  norm_num

theorem binary64_step1 : binary64 (7 / 8) = 7 / 8 := by
  rw [binary64_eq _ (-1) 7881299347898368 (by norm_num) (by norm_num) (by norm_num) (by norm_num)
    (by norm_num)]
  norm_num

theorem binary64_step2 : binary64 (1 / 5) = 3602879701896397 / 18014398509481984 := by
  rw [binary64_eq _ (-3) 7205759403792794 (by norm_num) (by norm_num) (by norm_num) (by norm_num)
    (by norm_num)]
  norm_num

theorem binary64_step3 : binary64 (18014398509481985 / 18014398509481984) = 1 := by
  rw [binary64_eq _ (0) 4503599627370496 (by norm_num) (by norm_num) (by norm_num) (by norm_num)
    (by norm_num)]
  norm_num

theorem binary64_step4 : binary64 (15 / 8) = 15 / 8 := by
  rw [binary64_eq _ (0) 8444249301319680 (by norm_num) (by norm_num) (by norm_num) (by norm_num)
    (by norm_num)]
  norm_num

theorem binary64_step5 : binary64 (8106479329266893 / 18014398509481984) = 8106479329266893 / 18014398509481984 := by
  rw [binary64_eq _ (-2) 8106479329266893 (by norm_num) (by norm_num) (by norm_num) (by norm_num)
    (by norm_num)]
  norm_num

theorem binary64_step6 : binary64 (23 / 8) = 23 / 8 := by
  rw [binary64_eq _ (1) 6473924464345088 (by norm_num) (by norm_num) (by norm_num) (by norm_num)
    (by norm_num)]
  norm_num

theorem binary64_step7 : binary64 (5854679515581645 / 9007199254740992) = 5854679515581645 / 9007199254740992 := by
  rw [binary64_eq _ (-1) 5854679515581645 (by norm_num) (by norm_num) (by norm_num) (by norm_num)
    (by norm_num)]
  norm_num

theorem binary64_step8 : binary64 (31 / 8) = 31 / 8 := by
  rw [binary64_eq _ (1) 8725724278030336 (by norm_num) (by norm_num) (by norm_num) (by norm_num)
    (by norm_num)]
  norm_num

theorem binary64_step9 : binary64 (15312238733059687 / 18014398509481984) = 1914029841632461 / 2251799813685248 := by
  rw [binary64_tie _ (-1) 7656119366529843 (by norm_num) (by norm_num) (by norm_num) (by norm_num)]
  norm_num

theorem binary64_step10 : binary64 (3 / 20) = 5404319552844595 / 36028797018963968 := by
  rw [binary64_eq _ (-3) 5404319552844595 (by norm_num) (by norm_num) (by norm_num) (by norm_num)
    (by norm_num)]
  norm_num

theorem binary64_step11 : binary64 (5404319552844595 / 9007199254740992) = 5404319552844595 / 9007199254740992 := by
  rw [binary64_eq _ (-1) 5404319552844595 (by norm_num) (by norm_num) (by norm_num) (by norm_num)
    (by norm_num)]
  norm_num

theorem binary64_step12 : binary64 (40307216664965939 / 9007199254740992) = 2519201041560371 / 562949953421312 := by
  rw [binary64_eq _ (2) 5038402083120742 (by norm_num) (by norm_num) (by norm_num) (by norm_num)
    (by norm_num)]
  norm_num

theorem binary64_step13 : binary64 (36028797018963971 / 36028797018963968) = 1 := by
  rw [binary64_eq _ (0) 4503599627370496 (by norm_num) (by norm_num) (by norm_num) (by norm_num)
    (by norm_num)]
  norm_num

theorem binary64_step14 : binary64 (2519201041560371 / 562949953421312) = 2519201041560371 / 562949953421312 := by
  rw [binary64_eq _ (2) 5038402083120742 (by norm_num) (by norm_num) (by norm_num) (by norm_num)
    (by norm_num)]
  norm_num

theorem binary64_step15 : binary64 (12596005207801855 / 281474976710656) = 179 / 4 := by
  rw [binary64_tie _ (5) 6298002603900927 (by norm_num) (by norm_num) (by norm_num) (by norm_num)]
  norm_num

theorem binary64_step16 : binary64 (9 / 2) = 9 / 2 := by
  rw [binary64_eq _ (2) 5066549580791808 (by norm_num) (by norm_num) (by norm_num) (by norm_num)
    (by norm_num)]
  norm_num

theorem binary64_step17 : binary64 (3602879701896397 / 4503599627370496) = 3602879701896397 / 4503599627370496 := by
  rw [binary64_eq _ (-1) 7205759403792794 (by norm_num) (by norm_num) (by norm_num) (by norm_num)
    (by norm_num)]
  norm_num

theorem binary64_step18 : binary64 (7543529375845581 / 4503599627370496) = 7543529375845581 / 4503599627370496 := by
  rw [binary64_eq _ (0) 7543529375845581 (by norm_num) (by norm_num) (by norm_num) (by norm_num)
    (by norm_num)]
  norm_num

theorem binary64_step19 : binary64 (18014398509481985 / 36028797018963968) = 1 / 2 := by
  rw [binary64_eq _ (-1) 4503599627370496 (by norm_num) (by norm_num) (by norm_num) (by norm_num)
    (by norm_num)]
  norm_num

theorem binary64_step20 : binary64 (9795329189530829 / 4503599627370496) = 2448832297382707 / 1125899906842624 := by
  rw [binary64_tie _ (1) 4897664594765414 (by norm_num) (by norm_num) (by norm_num) (by norm_num)]
  norm_num

theorem binary64_step21 : binary64 (13398208891427225 / 4503599627370496) = 1674776111428403 / 562949953421312 := by
  rw [binary64_tie _ (1) 6699104445713612 (by norm_num) (by norm_num) (by norm_num) (by norm_num)]
  norm_num

theorem binary64_step22 : binary64 (37830236869912165 / 72057594037927936) = 4728779608739021 / 9007199254740992 := by
  rw [binary64_eq _ (-1) 4728779608739021 (by norm_num) (by norm_num) (by norm_num) (by norm_num)
    (by norm_num)]
  norm_num

theorem binary64_step23 : binary64 (31525197391593469 / 9007199254740992) = 7881299347898367 / 2251799813685248 := by
  rw [binary64_eq _ (1) 7881299347898367 (by norm_num) (by norm_num) (by norm_num) (by norm_num)
    (by norm_num)]
  norm_num

theorem binary64_step24 : binary64 (7881299347898367 / 2251799813685248) = 7881299347898367 / 2251799813685248 := by
  rw [binary64_eq _ (1) 7881299347898367 (by norm_num) (by norm_num) (by norm_num) (by norm_num)
    (by norm_num)]
  norm_num

theorem binary64_step25 : binary64 (39406496739491835 / 1125899906842624) = 4925812092436479 / 140737488355328 := by
  rw [binary64_eq _ (5) 4925812092436479 (by norm_num) (by norm_num) (by norm_num) (by norm_num)
    (by norm_num)]
  norm_num

theorem binary64_step26 : binary64 (7 / 2) = 7 / 2 := by
  rw [binary64_eq _ (1) 7881299347898368 (by norm_num) (by norm_num) (by norm_num) (by norm_num)
    (by norm_num)]
  norm_num

theorem binary64_step27 : binary64 (5 / 8) = 5 / 8 := by
  rw [binary64_eq _ (-1) 5629499534213120 (by norm_num) (by norm_num) (by norm_num) (by norm_num)
    (by norm_num)]
  norm_num

theorem binary64_step28 : binary64 (13 / 8) = 13 / 8 := by
  rw [binary64_eq _ (0) 7318349394477056 (by norm_num) (by norm_num) (by norm_num) (by norm_num)
    (by norm_num)]
  norm_num

theorem binary64_step29 : binary64 (17 / 8) = 17 / 8 := by
  rw [binary64_eq _ (1) 4785074604081152 (by norm_num) (by norm_num) (by norm_num) (by norm_num)
    (by norm_num)]
  norm_num

theorem binary64_step30 : binary64 (13173028910058701 / 4503599627370496) = 3293257227514675 / 1125899906842624 := by
  rw [binary64_tie _ (1) 6586514455029350 (by norm_num) (by norm_num) (by norm_num) (by norm_num)]
  norm_num

theorem binary64_step31 : binary64 (31074837428856421 / 9007199254740992) = 7768709357214105 / 2251799813685248 := by
  rw [binary64_eq _ (1) 7768709357214105 (by norm_num) (by norm_num) (by norm_num) (by norm_num)
    (by norm_num)]
  norm_num

theorem binary64_step32 : binary64 (7768709357214105 / 2251799813685248) = 7768709357214105 / 2251799813685248 := by
  rw [binary64_eq _ (1) 7768709357214105 (by norm_num) (by norm_num) (by norm_num) (by norm_num)
    (by norm_num)]
  norm_num

theorem binary64_step33 : binary64 (38843546786070525 / 1125899906842624) = 69 / 2 := by
  rw [binary64_eq _ (5) 4855443348258816 (by norm_num) (by norm_num) (by norm_num) (by norm_num)
    (by norm_num)]
  norm_num

theorem binary64_score_roundedUp :
    Binary64.calculateTOEFLScore ⟨3.5, 5, 5, 5, 4⟩ = 2519201041560371 / 562949953421312 := by
  simp only [Binary64.calculateTOEFLScore, toeflCriteria, List.map, List.foldl,
    Criterion.weight, Breakdown.get]
  norm_num [binary64_step0, binary64_step1, binary64_step2, binary64_step3, binary64_step4, binary64_step5, binary64_step6, binary64_step7, binary64_step8, binary64_step9, binary64_step10, binary64_step11, binary64_step12, binary64_step13, binary64_step14, binary64_step15, binary64_step16, binary64_step17, binary64_step18, binary64_step19, binary64_step20, binary64_step21, binary64_step22, binary64_step23, binary64_step24, binary64_step25, binary64_step26, binary64_step27, binary64_step28, binary64_step29, binary64_step30, binary64_step31, binary64_step32, binary64_step33]

theorem binary64_score_boundary :
    Binary64.calculateTOEFLScore ⟨3.5, 4, 2.5, 4, 3.5⟩ = 7881299347898367 / 2251799813685248 := by
  simp only [Binary64.calculateTOEFLScore, toeflCriteria, List.map, List.foldl,
    Criterion.weight, Breakdown.get]
  norm_num [binary64_step0, binary64_step1, binary64_step2, binary64_step3, binary64_step4, binary64_step5, binary64_step6, binary64_step7, binary64_step8, binary64_step9, binary64_step10, binary64_step11, binary64_step12, binary64_step13, binary64_step14, binary64_step15, binary64_step16, binary64_step17, binary64_step18, binary64_step19, binary64_step20, binary64_step21, binary64_step22, binary64_step23, binary64_step24, binary64_step25, binary64_step26, binary64_step27, binary64_step28, binary64_step29, binary64_step30, binary64_step31, binary64_step32, binary64_step33]

theorem binary64_score_below_band :
    Binary64.calculateTOEFLScore ⟨2.5, 5, 2.5, 4, 3.5⟩ = 7768709357214105 / 2251799813685248 := by
  simp only [Binary64.calculateTOEFLScore, toeflCriteria, List.map, List.foldl,
    Criterion.weight, Breakdown.get]
  norm_num [binary64_step0, binary64_step1, binary64_step2, binary64_step3, binary64_step4, binary64_step5, binary64_step6, binary64_step7, binary64_step8, binary64_step9, binary64_step10, binary64_step11, binary64_step12, binary64_step13, binary64_step14, binary64_step15, binary64_step16, binary64_step17, binary64_step18, binary64_step19, binary64_step20, binary64_step21, binary64_step22, binary64_step23, binary64_step24, binary64_step25, binary64_step26, binary64_step27, binary64_step28, binary64_step29, binary64_step30, binary64_step31, binary64_step32, binary64_step33]

theorem isBinary64_of (d : ℚ) (e m : ℤ) (h1 : (2 : ℚ) ^ e ≤ d) (h2 : d < 2 ^ (e + 1))
    (he : -1022 ≤ e) (hm : d = m * 2 ^ (e - 52)) : IsBinary64 d :=
  ⟨m, by rw [binade_eq_of_pos d e h1 h2 he]; exact hm⟩

theorem isBinary64_boundaries :
    IsBinary64 1.5 ∧ IsBinary64 2.5 ∧ IsBinary64 3.5 ∧ IsBinary64 4.5 ∧
    IsBinary64 15 ∧ IsBinary64 25 ∧ IsBinary64 35 ∧ IsBinary64 45 := by
  refine ⟨isBinary64_of _ 0 (3 * 2 ^ 51) ?_ ?_ ?_ ?_, isBinary64_of _ 1 (5 * 2 ^ 50) ?_ ?_ ?_ ?_,
    isBinary64_of _ 1 (7 * 2 ^ 50) ?_ ?_ ?_ ?_, isBinary64_of _ 2 (9 * 2 ^ 49) ?_ ?_ ?_ ?_,
    isBinary64_of _ 3 (15 * 2 ^ 49) ?_ ?_ ?_ ?_, isBinary64_of _ 4 (25 * 2 ^ 48) ?_ ?_ ?_ ?_,
    isBinary64_of _ 5 (35 * 2 ^ 47) ?_ ?_ ?_ ?_, isBinary64_of _ 5 (45 * 2 ^ 47) ?_ ?_ ?_ ?_⟩ <;>
    norm_num

theorem round1_binary64_ge (x : ℚ) (B : ℤ) (hB : 0 < B) (h10 : IsBinary64 B)
    (h1 : IsBinary64 ((B : ℚ) / 10)) (h : (B : ℚ) / 10 ≤ x) :
    (B : ℚ) / 10 ≤ binary64 ((jsRound (binary64 (x * 10)) : ℚ) / 10) := by
  have hBq : (0 : ℚ) < B := by exact_mod_cast hB
  have hy : (B : ℚ) ≤ binary64 (x * 10) := le_binary64 _ _ hBq h10 (by linarith)
  have hn : B ≤ jsRound (binary64 (x * 10)) := by
    rw [le_jsRound_iff]
    linarith
  have hnq : (B : ℚ) ≤ (jsRound (binary64 (x * 10)) : ℚ) := by exact_mod_cast hn
  exact le_binary64 _ _ (by positivity) h1 (by linarith)

theorem round1_binary64_le (x : ℚ) (B : ℤ) (hB : 0 < B) (h10 : IsBinary64 B)
    (h1 : IsBinary64 ((B : ℚ) / 10)) (h : x ≤ (B : ℚ) / 10) :
    binary64 ((jsRound (binary64 (x * 10)) : ℚ) / 10) ≤ (B : ℚ) / 10 := by
  have hBq : (0 : ℚ) < B := by exact_mod_cast hB
  have hy : binary64 (x * 10) ≤ (B : ℚ) := binary64_le _ _ hBq h10 (by linarith)
  have hn : jsRound (binary64 (x * 10)) ≤ B := by
    rw [jsRound_le_iff]
    linarith
  have hnq : (jsRound (binary64 (x * 10)) : ℚ) ≤ (B : ℚ) := by exact_mod_cast hn
  exact binary64_le _ _ (by positivity) h1 (by linarith)

theorem determineLevel_bands (s : ℚ) :
    (4.5 ≤ s → determineLevel s = "Advanced") ∧
    (3.5 ≤ s → s < 4.5 → determineLevel s = "Upper Intermediate") ∧
    (2.5 ≤ s → s < 3.5 → determineLevel s = "Intermediate") ∧
    (1.5 ≤ s → s < 2.5 → determineLevel s = "Lower Intermediate") ∧
    (s < 1.5 → determineLevel s = "Beginner") := by
  unfold determineLevel
  refine ⟨?_, ?_, ?_, ?_, ?_⟩
  · intro h
    rw [if_pos h]
  · intro h1 h2
    rw [if_neg (not_le.mpr h2), if_pos h1]
  · intro h1 h2
    rw [if_neg (by intro h; linarith), if_neg (not_le.mpr h2), if_pos h1]
  · intro h1 h2
    rw [if_neg (by intro h; linarith), if_neg (by intro h; linarith), if_neg (not_le.mpr h2),
      if_pos h1]
  · intro h
    rw [if_neg (by intro h; linarith), if_neg (by intro h; linarith),
      if_neg (by intro h; linarith), if_neg (not_le.mpr h)]

theorem level_of_rounded (x o : ℚ)
    (lo : ∀ b ∈ [(4.5 : ℚ), 3.5, 2.5, 1.5], b ≤ x → b ≤ o)
    (hi : ∀ b ∈ [(4.5 : ℚ), 3.5, 2.5, 1.5], x ≤ b → o ≤ b) :
    (determineLevel o = determineLevel x ∨
      determineLevel o = getNextLevel (determineLevel x)) ∧
    (determineLevel o ≠ determineLevel x ↔
      ∃ b ∈ [(4.5 : ℚ), 3.5, 2.5, 1.5], x < b ∧ b ≤ o) := by
  have n1 : getNextLevel "Beginner" = "Lower Intermediate" := by decide
  have n2 : getNextLevel "Lower Intermediate" = "Intermediate" := by decide
  have n3 : getNextLevel "Intermediate" = "Upper Intermediate" := by decide
  have n4 : getNextLevel "Upper Intermediate" = "Advanced" := by decide
  have l45 := lo 4.5 (by simp)
  have l35 := lo 3.5 (by simp)
  have l25 := lo 2.5 (by simp)
  have l15 := lo 1.5 (by simp)
  have h45 := hi 4.5 (by simp)
  have h35 := hi 3.5 (by simp)
  have h25 := hi 2.5 (by simp)
  have h15 := hi 1.5 (by simp)
  obtain ⟨xa, xu, xi, xl, xb⟩ := determineLevel_bands x
  obtain ⟨oa, ou, oi, ol, ob⟩ := determineLevel_bands o
  have same : ∀ lower upper : ℚ, (∀ b ∈ [(4.5 : ℚ), 3.5, 2.5, 1.5], b ≤ lower ∨ upper ≤ b) →
      lower ≤ x → x < upper → lower ≤ o → o < upper →
      ¬ ∃ b ∈ [(4.5 : ℚ), 3.5, 2.5, 1.5], x < b ∧ b ≤ o := by
    intro lower upper hb h1 h2 h3 h4 ⟨b, hmem, hxb, hbo⟩
    rcases hb b hmem with h | h <;> linarith
  by_cases x45 : (4.5 : ℚ) ≤ x
  · rw [xa x45, oa (l45 x45)]
    refine ⟨Or.inl rfl, ?_⟩
    constructor
    · intro h
      exact absurd rfl h
    · rintro ⟨b, hmem, hxb, _⟩
      simp only [List.mem_cons, List.mem_singleton, List.not_mem_nil, or_false] at hmem
      rcases hmem with e | e | e | e <;> subst e <;> linarith
  · rw [not_le] at x45
    by_cases x35 : (3.5 : ℚ) ≤ x
    · rw [xu x35 x45, n4]
      by_cases o45 : (4.5 : ℚ) ≤ o
      · rw [oa o45]
        exact ⟨Or.inr rfl, fun _ => ⟨4.5, by simp, x45, o45⟩, fun _ => by decide⟩
      · rw [not_le] at o45
        rw [ou (l35 x35) o45]
        refine ⟨Or.inl rfl, fun h => absurd rfl h, fun h => absurd h ?_⟩
        apply same 3.5 4.5 _ x35 x45 (l35 x35) o45
        intro b hmem
        simp only [List.mem_cons, List.mem_singleton, List.not_mem_nil, or_false] at hmem
        rcases hmem with e | e | e | e <;> subst e <;> norm_num
    · rw [not_le] at x35
      by_cases x25 : (2.5 : ℚ) ≤ x
      · rw [xi x25 x35, n3]
        have u35 := h35 x35.le
        by_cases o35 : (3.5 : ℚ) ≤ o
        · rw [ou o35 (by linarith)]
          exact ⟨Or.inr rfl, fun _ => ⟨3.5, by simp, x35, o35⟩, fun _ => by decide⟩
        · rw [not_le] at o35
          rw [oi (l25 x25) o35]
          refine ⟨Or.inl rfl, fun h => absurd rfl h, fun h => absurd h ?_⟩
          apply same 2.5 3.5 _ x25 x35 (l25 x25) o35
          intro b hmem
          simp only [List.mem_cons, List.mem_singleton, List.not_mem_nil, or_false] at hmem
          rcases hmem with e | e | e | e <;> subst e <;> norm_num
      · rw [not_le] at x25
        by_cases x15 : (1.5 : ℚ) ≤ x
        · rw [xl x15 x25, n2]
          have u25 := h25 x25.le
          by_cases o25 : (2.5 : ℚ) ≤ o
          · rw [oi o25 (by linarith)]
            exact ⟨Or.inr rfl, fun _ => ⟨2.5, by simp, x25, o25⟩, fun _ => by decide⟩
          · rw [not_le] at o25
            rw [ol (l15 x15) o25]
            refine ⟨Or.inl rfl, fun h => absurd rfl h, fun h => absurd h ?_⟩
            apply same 1.5 2.5 _ x15 x25 (l15 x15) o25
            intro b hmem
            simp only [List.mem_cons, List.mem_singleton, List.not_mem_nil, or_false] at hmem
            rcases hmem with e | e | e | e <;> subst e <;> norm_num
        · rw [not_le] at x15
          rw [xb x15, n1]
          have u15 := h15 x15.le
          by_cases o15 : (1.5 : ℚ) ≤ o
          · rw [ol o15 (by linarith)]
            exact ⟨Or.inr rfl, fun _ => ⟨1.5, by simp, x15, o15⟩, fun _ => by decide⟩
          · rw [not_le] at o15
            rw [ob o15]
            refine ⟨Or.inl rfl, fun h => absurd rfl h, fun h => absurd h ?_⟩
            rintro ⟨b, hmem, hxb, hbo⟩
            simp only [List.mem_cons, List.mem_singleton, List.not_mem_nil, or_false] at hmem
            rcases hmem with e | e | e | e <;> subst e <;> linarith

theorem binary64_assess_raw (transcript : JsString) (speechAnalysis : SpeechAnalysis) :
    (Binary64.assess transcript speechAnalysis).level =
        determineLevel
          (Binary64.calculateTOEFLScore (Binary64.assess transcript speechAnalysis).breakdown) ∧
    (Binary64.assess transcript speechAnalysis).overallScore =
        binary64
          ((jsRound (binary64 (Binary64.calculateTOEFLScore
            (Binary64.assess transcript speechAnalysis).breakdown * 10)) : ℚ) / 10) ∧
    (Binary64.assess transcript speechAnalysis).breakdown =
        ⟨assessFluency speechAnalysis, assessPronunciation speechAnalysis,
          assessVocabulary speechAnalysis, assessGrammar transcript,
          assessCoherence transcript⟩ :=
  ⟨rfl, rfl, rfl⟩

theorem binary64_round1_roundedUp :
    binary64 ((jsRound (binary64 ((2519201041560371 / 562949953421312 : ℚ) * 10)) : ℚ) / 10)
      = 4.5 := by
  have h : jsRound (179 / 4 : ℚ) = 45 := jsRound_eq _ 45 (by norm_num) (by norm_num)
  norm_num [binary64_step0, binary64_step1, binary64_step2, binary64_step3, binary64_step4, binary64_step5, binary64_step6, binary64_step7, binary64_step8, binary64_step9, binary64_step10, binary64_step11, binary64_step12, binary64_step13, binary64_step14, binary64_step15, binary64_step16, binary64_step17, binary64_step18, binary64_step19, binary64_step20, binary64_step21, binary64_step22, binary64_step23, binary64_step24, binary64_step25, binary64_step26, binary64_step27, binary64_step28, binary64_step29, binary64_step30, binary64_step31, binary64_step32, binary64_step33, h]

theorem binary64_round1_boundary :
    binary64 ((jsRound (binary64 ((7881299347898367 / 2251799813685248 : ℚ) * 10)) : ℚ) / 10)
      = 3.5 := by
  have h : jsRound (4925812092436479 / 140737488355328 : ℚ) = 35 :=
    jsRound_eq _ 35 (by norm_num) (by norm_num)
  norm_num [binary64_step0, binary64_step1, binary64_step2, binary64_step3, binary64_step4, binary64_step5, binary64_step6, binary64_step7, binary64_step8, binary64_step9, binary64_step10, binary64_step11, binary64_step12, binary64_step13, binary64_step14, binary64_step15, binary64_step16, binary64_step17, binary64_step18, binary64_step19, binary64_step20, binary64_step21, binary64_step22, binary64_step23, binary64_step24, binary64_step25, binary64_step26, binary64_step27, binary64_step28, binary64_step29, binary64_step30, binary64_step31, binary64_step32, binary64_step33, h]

theorem binary64_round1_below_band :
    binary64 ((jsRound (binary64 ((7768709357214105 / 2251799813685248 : ℚ) * 10)) : ℚ) / 10)
      = 3.5 := by
  have h : jsRound (69 / 2 : ℚ) = 35 := jsRound_eq _ 35 (by norm_num) (by norm_num)
  norm_num [binary64_step0, binary64_step1, binary64_step2, binary64_step3, binary64_step4, binary64_step5, binary64_step6, binary64_step7, binary64_step8, binary64_step9, binary64_step10, binary64_step11, binary64_step12, binary64_step13, binary64_step14, binary64_step15, binary64_step16, binary64_step17, binary64_step18, binary64_step19, binary64_step20, binary64_step21, binary64_step22, binary64_step23, binary64_step24, binary64_step25, binary64_step26, binary64_step27, binary64_step28, binary64_step29, binary64_step30, binary64_step31, binary64_step32, binary64_step33, h]

/-- C5, the claim refuted: with a duration of 60 seconds the transcript
`anyway, anyway. anyway! and` has the sub-scores 3.5, 5, 5, 5, 4; the
weighted score is 4.475 in exact arithmetic and the binary64 value nearest to
it in the arithmetic of the code.  Either way `assess` returns `overallScore`
4.5, which the level mapping sends to `Advanced`, together with the level
`Upper Intermediate`. -/
theorem assess_level_not_of_rounded :
    (assess (js "anyway, anyway. anyway! and")
        (analyze asciiLowerCase 60 (js "anyway, anyway. anyway! and"))).overallScore = 4.5 ∧
    (assess (js "anyway, anyway. anyway! and")
        (analyze asciiLowerCase 60 (js "anyway, anyway. anyway! and"))).level
      = "Upper Intermediate" ∧
    determineLevel (assess (js "anyway, anyway. anyway! and")
        (analyze asciiLowerCase 60 (js "anyway, anyway. anyway! and"))).overallScore
      = "Advanced" ∧
    (Binary64.assess (js "anyway, anyway. anyway! and")
        (analyze asciiLowerCase 60 (js "anyway, anyway. anyway! and"))).overallScore = 4.5 ∧
    (Binary64.assess (js "anyway, anyway. anyway! and")
        (analyze asciiLowerCase 60 (js "anyway, anyway. anyway! and"))).level
      = "Upper Intermediate" ∧
    determineLevel (Binary64.assess (js "anyway, anyway. anyway! and")
        (analyze asciiLowerCase 60 (js "anyway, anyway. anyway! and"))).overallScore
      = "Advanced" := by
  obtain ⟨hl, ho, hb⟩ := assess_raw (js "anyway, anyway. anyway! and")
    (analyze asciiLowerCase 60 (js "anyway, anyway. anyway! and"))
  obtain ⟨hl2, ho2, hb2⟩ := binary64_assess_raw (js "anyway, anyway. anyway! and")
    (analyze asciiLowerCase 60 (js "anyway, anyway. anyway! and"))
  rw [hb, roundedUp_fluency, roundedUp_pronunciation, roundedUp_vocabulary, roundedUp_grammar,
    roundedUp_coherence, calculateTOEFLScore_eq] at hl ho
  rw [hb2, roundedUp_fluency, roundedUp_pronunciation, roundedUp_vocabulary, roundedUp_grammar,
    roundedUp_coherence, binary64_score_roundedUp] at hl2 ho2
  rw [binary64_round1_roundedUp] at ho2
  have hr : jsRound ((0.25 * 3.5 + 0.20 * 5 + 0.20 * 5 + 0.20 * 5 + 0.15 * 4 : ℚ) * 10) = 45 :=
    jsRound_eq _ 45 (by norm_num) (by norm_num)
  simp only [] at hl ho
  rw [hr] at ho
  rw [hl, ho, hl2, ho2]
  refine ⟨by norm_num, ?_, ?_, rfl, ?_, ?_⟩
  · unfold determineLevel
    norm_num
  · unfold determineLevel
    norm_num
  · unfold determineLevel
    norm_num
  · unfold determineLevel
    norm_num

/-- C5, amended: in every result of `assess`, computed in binary64
arithmetic, the level is the level mapping applied to the unrounded weighted
score and `overallScore` is that score rounded to one decimal.  The mapping
applied to the returned `overallScore` gives the returned level or the next
level up, and it gives the next level exactly when the unrounded score is
below a boundary `b` among 4.5, 3.5, 2.5, 1.5 that the returned
`overallScore` reaches.  For the sub-scores 3.5, 4, 2.5, 4, 3.5 the binary64
weighted score is `3.5 - 2^-51` (level `Intermediate`) where exact arithmetic
gives 3.5, and for 2.5, 5, 2.5, 4, 3.5 it is below 3.45; in both cases the
returned `overallScore` is 3.5. -/
theorem assess_level_binary64 (transcript : JsString) (speechAnalysis : SpeechAnalysis) :
    (Binary64.assess transcript speechAnalysis).level =
        determineLevel
          (Binary64.calculateTOEFLScore (Binary64.assess transcript speechAnalysis).breakdown) ∧
    (Binary64.assess transcript speechAnalysis).overallScore =
        binary64
          ((jsRound (binary64 (Binary64.calculateTOEFLScore
            (Binary64.assess transcript speechAnalysis).breakdown * 10)) : ℚ) / 10) ∧
    (determineLevel (Binary64.assess transcript speechAnalysis).overallScore =
        (Binary64.assess transcript speechAnalysis).level ∨
      determineLevel (Binary64.assess transcript speechAnalysis).overallScore =
        getNextLevel (Binary64.assess transcript speechAnalysis).level) ∧
    (determineLevel (Binary64.assess transcript speechAnalysis).overallScore ≠
        (Binary64.assess transcript speechAnalysis).level ↔
      ∃ b ∈ [(4.5 : ℚ), 3.5, 2.5, 1.5],
        Binary64.calculateTOEFLScore (Binary64.assess transcript speechAnalysis).breakdown < b ∧
        b ≤ (Binary64.assess transcript speechAnalysis).overallScore) ∧
    (Binary64.calculateTOEFLScore ⟨3.5, 4, 2.5, 4, 3.5⟩ = 3.5 - 2 ^ (-51 : ℤ) ∧
      calculateTOEFLScore ⟨3.5, 4, 2.5, 4, 3.5⟩ = 3.5 ∧
      determineLevel (Binary64.calculateTOEFLScore ⟨3.5, 4, 2.5, 4, 3.5⟩) = "Intermediate" ∧
      binary64 ((jsRound (binary64
        (Binary64.calculateTOEFLScore ⟨3.5, 4, 2.5, 4, 3.5⟩ * 10)) : ℚ) / 10) = 3.5) ∧
    (Binary64.calculateTOEFLScore ⟨2.5, 5, 2.5, 4, 3.5⟩ < 3.45 ∧
      determineLevel (Binary64.calculateTOEFLScore ⟨2.5, 5, 2.5, 4, 3.5⟩) = "Intermediate" ∧
      binary64 ((jsRound (binary64
        (Binary64.calculateTOEFLScore ⟨2.5, 5, 2.5, 4, 3.5⟩ * 10)) : ℚ) / 10) = 3.5) := by
  obtain ⟨hl, ho, _⟩ := binary64_assess_raw transcript speechAnalysis
  obtain ⟨r15, r25, r35, r45, i15, i25, i35, i45⟩ := isBinary64_boundaries
  have c15 : ((15 : ℤ) : ℚ) / 10 = 1.5 := by norm_num
  have c25 : ((25 : ℤ) : ℚ) / 10 = 2.5 := by norm_num
  have c35 : ((35 : ℤ) : ℚ) / 10 = 3.5 := by norm_num
  have c45 : ((45 : ℤ) : ℚ) / 10 = 4.5 := by norm_num
  have key := level_of_rounded
    (Binary64.calculateTOEFLScore (Binary64.assess transcript speechAnalysis).breakdown)
    (Binary64.assess transcript speechAnalysis).overallScore
    (by
      intro b hb
      rw [ho]
      simp only [List.mem_cons, List.mem_singleton, List.not_mem_nil, or_false] at hb
      rcases hb with e | e | e | e <;> subst e
      · rw [← c45]
        exact round1_binary64_ge _ 45 (by norm_num) (by exact_mod_cast i45) (by rw [c45]; exact r45)
      · rw [← c35]
        exact round1_binary64_ge _ 35 (by norm_num) (by exact_mod_cast i35) (by rw [c35]; exact r35)
      · rw [← c25]
        exact round1_binary64_ge _ 25 (by norm_num) (by exact_mod_cast i25) (by rw [c25]; exact r25)
      · rw [← c15]
        exact round1_binary64_ge _ 15 (by norm_num) (by exact_mod_cast i15) (by rw [c15]; exact r15))
    (by
      intro b hb
      rw [ho]
      simp only [List.mem_cons, List.mem_singleton, List.not_mem_nil, or_false] at hb
      rcases hb with e | e | e | e <;> subst e
      · rw [← c45]
        exact round1_binary64_le _ 45 (by norm_num) (by exact_mod_cast i45) (by rw [c45]; exact r45)
      · rw [← c35]
        exact round1_binary64_le _ 35 (by norm_num) (by exact_mod_cast i35) (by rw [c35]; exact r35)
      · rw [← c25]
        exact round1_binary64_le _ 25 (by norm_num) (by exact_mod_cast i25) (by rw [c25]; exact r25)
      · rw [← c15]
        exact round1_binary64_le _ 15 (by norm_num) (by exact_mod_cast i15) (by rw [c15]; exact r15))
  rw [← hl] at key
  refine ⟨hl, ho, key.1, key.2, ⟨?_, ?_, ?_, ?_⟩, ⟨?_, ?_, ?_⟩⟩
  · rw [binary64_score_boundary]
    norm_num
  · rw [calculateTOEFLScore_eq]
    norm_num
  · rw [binary64_score_boundary]
    unfold determineLevel
    norm_num
  · rw [binary64_score_boundary]
    exact binary64_round1_boundary
  · rw [binary64_score_below_band]
    norm_num
  · rw [binary64_score_below_band]
    unfold determineLevel
    norm_num
  · rw [binary64_score_below_band]
    exact binary64_round1_below_band

/-! ## The grammar heuristics -/

/-- C8, the code at a failing input: `countTenseErrors` never exceeds 1, so
the test `tenseErrors > 2` of `assessGrammar` cannot succeed; the transcript
`I am. You are. He is. We do. I was. You were. He did. We had.` has 4
present-tense and 4 past-tense markers, no subject-verb and no article
error, and still scores 5 where the tense penalty would give 4.5. -/
theorem assessGrammar_tense_check_dead :
    (∀ transcript, countTenseErrors transcript ≤ 1) ∧
    presentTenseCount (js "I am. You are. He is. We do. I was. You were. He did. We had.") = 4 ∧
    pastTenseCount (js "I am. You are. He is. We do. I was. You were. He did. We had.") = 4 ∧
    countSubjectVerbErrors (js "I am. You are. He is. We do. I was. You were. He did. We had.")
      = 0 ∧
    countArticleErrors (js "I am. You are. He is. We do. I was. You were. He did. We had.") = 0 ∧
    assessGrammar (js "I am. You are. He is. We do. I was. You were. He did. We had.") = 5 := by
  have h1 : presentTenseCount
      (js "I am. You are. He is. We do. I was. You were. He did. We had.") = 4 := by decide
  have h2 : pastTenseCount
      (js "I am. You are. He is. We do. I was. You were. He did. We had.") = 4 := by decide
  have h3 : countSubjectVerbErrors
      (js "I am. You are. He is. We do. I was. You were. He did. We had.") = 0 := by decide
  have h4 : countArticleErrors
      (js "I am. You are. He is. We do. I was. You were. He did. We had.") = 0 := by decide
  refine ⟨?_, h1, h2, h3, h4, ?_⟩
  · intro transcript
    simp only [countTenseErrors]
    split_ifs <;> simp
  · simp only [assessGrammar, countTenseErrors, h1, h2, h3, h4]
    norm_num

/-- C9, the code at failing inputs: `countArticleErrors` finds no error in
`a apple` nor in `an book`, because the pattern ends in `\b` right after the
first letter of the next word; a transcript with four such article errors
counts 0 and keeps the grammar score 5. -/
theorem countArticleErrors_misses_words :
    countArticleErrors (js "a apple") = 0 ∧
    countArticleErrors (js "an book") = 0 ∧
    countArticleErrors (js "a apple, an book, a egg, an car") = 0 ∧
    assessGrammar (js "a apple, an book, a egg, an car") = 5 := by
  have h1 : countSubjectVerbErrors (js "a apple, an book, a egg, an car") = 0 := by decide
  have h2 : countArticleErrors (js "a apple, an book, a egg, an car") = 0 := by decide
  have h3 : countTenseErrors (js "a apple, an book, a egg, an car") = 0 := by decide
  refine ⟨by decide, by decide, h2, ?_⟩
  simp only [assessGrammar, h1, h2, h3]
  norm_num


/-! ## Pronunciation, band and feedback -/

/-- C11: for every speech analysis, `assessPronunciation` equals the
pronunciation ladder of the specification: start at 5; minus 1 if the
repetitive-word list has more than 3 entries; minus 1 if
`incompleteThoughts > 2`; minus 0.5 if `wordsPerMinute > 200`; clamped to
`[1,5]`. -/
theorem assessPronunciation_eq_ladder (speechAnalysis : SpeechAnalysis) :
    assessPronunciation speechAnalysis =
      Spec.pronunciationLadder speechAnalysis.clarityAnalysis.repetitiveWords.length
        speechAnalysis.clarityAnalysis.incompleteThoughts
        speechAnalysis.wordsPerMinute := by
  unfold assessPronunciation Spec.pronunciationLadder
  rw [← clamp_eq_spec]
  simp only [gt_iff_lt]
  split_ifs <;> norm_num

theorem band_mem (s : ℚ) (h1 : 1 ≤ s) (h5 : s ≤ 5) :
    6 ≤ jsRound (s / 5 * 30) ∧ jsRound (s / 5 * 30) ≤ 30 := by
  constructor
  · rw [le_jsRound_iff]; push_cast; linarith
  · rw [jsRound_le_iff]; push_cast; linarith

theorem getTOEFLEquivalent_score (s : ℚ) :
    (getTOEFLEquivalent s).score = jsRound (s / 5 * 30) := by
  unfold getTOEFLEquivalent
  simp only []
  split_ifs <;> rfl

theorem getTOEFLEquivalent_level (s : ℚ) :
    (getTOEFLEquivalent s).level =
      if 27 ≤ jsRound (s / 5 * 30) then "Excellent"
      else if 23 ≤ jsRound (s / 5 * 30) then "Good"
      else if 18 ≤ jsRound (s / 5 * 30) then "Fair"
      else if 13 ≤ jsRound (s / 5 * 30) then "Limited"
      else "Weak" := by
  unfold getTOEFLEquivalent
  simp only [ge_iff_le]
  split_ifs <;> rfl

/-- C12: for every score `s` in `[1,5]`, `getTOEFLEquivalent s` returns the
band `round(s/5*30)`, an integer between 0 and 30 (indeed at least 6), with
the tag `Excellent` iff band ≥ 27, `Good` iff 23 ≤ band ≤ 26, `Fair` iff
18 ≤ band ≤ 22, `Limited` iff 13 ≤ band ≤ 17 and `Weak` iff band ≤ 12. -/
theorem getTOEFLEquivalent_band (s : ℚ) (h1 : 1 ≤ s) (h5 : s ≤ 5) :
    (getTOEFLEquivalent s).score = jsRound (s / 5 * 30) ∧
    0 ≤ (getTOEFLEquivalent s).score ∧ (getTOEFLEquivalent s).score ≤ 30 ∧
    ((getTOEFLEquivalent s).level = "Excellent" ↔ 27 ≤ (getTOEFLEquivalent s).score) ∧
    ((getTOEFLEquivalent s).level = "Good" ↔
      23 ≤ (getTOEFLEquivalent s).score ∧ (getTOEFLEquivalent s).score ≤ 26) ∧
    ((getTOEFLEquivalent s).level = "Fair" ↔
      18 ≤ (getTOEFLEquivalent s).score ∧ (getTOEFLEquivalent s).score ≤ 22) ∧
    ((getTOEFLEquivalent s).level = "Limited" ↔
      13 ≤ (getTOEFLEquivalent s).score ∧ (getTOEFLEquivalent s).score ≤ 17) ∧
    ((getTOEFLEquivalent s).level = "Weak" ↔ (getTOEFLEquivalent s).score ≤ 12) := by
  have hb := band_mem s h1 h5
  rw [getTOEFLEquivalent_score, getTOEFLEquivalent_level]
  generalize jsRound (s / 5 * 30) = n at hb ⊢
  refine ⟨rfl, by omega, hb.2, ?_, ?_, ?_, ?_, ?_⟩
  all_goals split_ifs <;> simp <;> omega

/-- C12, witness: the score 3 lies in `[1,5]` and has band 18. -/
theorem getTOEFLEquivalent_band_witness :
    (1 : ℚ) ≤ 3 ∧ (3 : ℚ) ≤ 5 ∧ (getTOEFLEquivalent 3).score = jsRound (3 / 5 * 30) :=
  ⟨by norm_num, by norm_num, (getTOEFLEquivalent_band 3 (by norm_num) (by norm_num)).1⟩

theorem feedbacks_isSome (criterion : Criterion) (n : ℤ) (h1 : 1 ≤ n) (h5 : n ≤ 5) :
    (feedbacks criterion n).isSome = true := by
  have h : n = 1 ∨ n = 2 ∨ n = 3 ∨ n = 4 ∨ n = 5 := by omega
  rcases h with h | h | h | h | h <;> subst h <;> cases criterion <;> rfl

theorem feedbacks_none (criterion : Criterion) (n : ℤ) (h : n < 1 ∨ 5 < n) :
    feedbacks criterion n = none := by
  unfold feedbacks
  split <;> first | rfl | omega

/-- C13: for each of the five criteria and every score,
`getCriterionFeedback` returns the table entry of the score rounded to the
nearest integer when that integer is in 1..5 and the entry for 3 otherwise;
the result is always a text, and every entry for 3 starts with `Fair`. -/
theorem getCriterionFeedback_lookup (criterion : Criterion) (score : ℚ) :
    getCriterionFeedback criterion score =
      (if 1 ≤ jsRound score ∧ jsRound score ≤ 5 then feedbacks criterion (jsRound score)
       else feedbacks criterion 3) ∧
    (getCriterionFeedback criterion score).isSome = true ∧
    (feedbacks criterion (jsRound score)).isSome = decide (1 ≤ jsRound score ∧ jsRound score ≤ 5) ∧
    ∃ text, feedbacks criterion 3 = some text ∧ text.toList.take 5 = "Fair ".toList := by
  have h3 := feedbacks_isSome criterion 3 (by norm_num) (by norm_num)
  refine ⟨?_, ?_, ?_, ?_⟩
  · unfold getCriterionFeedback
    split_ifs with h
    · have hs := feedbacks_isSome criterion (jsRound score) h.1 h.2
      obtain ⟨text, ht⟩ := Option.isSome_iff_exists.mp hs
      rw [ht]
    · rw [feedbacks_none criterion (jsRound score) (by omega)]
  · unfold getCriterionFeedback
    split
    · rfl
    · exact h3
  · by_cases h : 1 ≤ jsRound score ∧ jsRound score ≤ 5
    · rw [feedbacks_isSome criterion (jsRound score) h.1 h.2]
      simp [h]
    · rw [feedbacks_none criterion (jsRound score) (by omega)]
      simp [h]
  · cases criterion <;> exact ⟨_, rfl, by decide⟩

/-! ## Degenerate transcripts -/

theorem JsNum.fin_ne_fin (a b : ℚ) (h : a ≠ b) : JsNum.fin a ≠ JsNum.fin b := by
  intro e
  exact h (JsNum.fin.inj e)

theorem splitRuns_mem (p : Nat → Bool) (inSep : Bool) (s piece : JsString) (u : Nat)
    (hp : piece ∈ splitRuns p inSep s) (hu : u ∈ piece) : u ∈ s ∧ p u = false := by
  induction s generalizing inSep piece with
  | nil =>
    simp [splitRuns] at hp
    subst hp
    simp at hu
  | cons c cs ih =>
    unfold splitRuns at hp
    by_cases hc : p c = true
    · simp only [hc, if_true] at hp
      have hrec : piece ∈ splitRuns p true cs := by
        cases inSep
        · simp only [Bool.false_eq_true, if_false, List.mem_cons] at hp
          rcases hp with hp | hp
          · subst hp
            simp at hu
          · exact hp
        · simpa using hp
      obtain ⟨h1, h2⟩ := ih true piece hrec hu
      exact ⟨List.mem_cons_of_mem _ h1, h2⟩
    · simp only [hc, Bool.false_eq_true, if_false] at hp
      cases hs : splitRuns p false cs with
      | nil => exact absurd hs (splitRuns_ne_nil _ _ _)
      | cons first rest =>
        rw [hs] at hp
        simp only [List.mem_cons] at hp
        rcases hp with hp | hp
        · subst hp
          rcases List.mem_cons.mp hu with hu | hu
          · subst hu
            exact ⟨List.mem_cons_self _ _, by simpa using hc⟩
          · obtain ⟨h1, h2⟩ := ih false first (by rw [hs]; exact List.mem_cons_self _ _) hu
            exact ⟨List.mem_cons_of_mem _ h1, h2⟩
        · obtain ⟨h1, h2⟩ := ih false piece (by rw [hs]; exact List.mem_cons_of_mem _ hp) hu
          exact ⟨List.mem_cons_of_mem _ h1, h2⟩

theorem trim_eq_nil (s : JsString) (h : ∀ u ∈ s, isWhiteSpace u = true) : trim s = [] := by
  unfold trim
  have h1 : s.dropWhile isWhiteSpace = [] := List.dropWhile_eq_nil_iff.mpr h
  rw [h1]
  rfl

theorem sentenceClass_iff (u : Nat) :
    ciClass ['.', '!', '?'] u = true ↔ u = 46 ∨ u = 33 ∨ u = 63 := by
  have hc : ∀ v : Nat, v = 46 ∨ v = 33 ∨ v = 63 → (canonicalize u = v ↔ u = v) := by
    intro v hv
    unfold canonicalize
    split_ifs with h
    · simp only [Bool.and_eq_true, decide_eq_true_eq] at h
      omega
    · rfl
  have e1 : ('.' : Char).toNat = 46 := rfl
  have e2 : ('!' : Char).toNat = 33 := rfl
  have e3 : ('?' : Char).toNat = 63 := rfl
  have c1 : canonicalize 46 = 46 := rfl
  have c2 : canonicalize 33 = 33 := rfl
  have c3 : canonicalize 63 = 63 := rfl
  simp only [ciClass, ciChar, List.any_cons, List.any_nil, Bool.or_false, Bool.or_eq_true,
    beq_iff_eq, e1, e2, e3, c1, c2, c3]
  rw [eq_comm, hc 46 (Or.inl rfl), @eq_comm _ 33, hc 33 (Or.inr (Or.inl rfl)), @eq_comm _ 63,
    hc 63 (Or.inr (Or.inr rfl))]

theorem sentencesOf_eq_nil (transcript : JsString)
    (h : ∀ u ∈ transcript, isWhiteSpace u = true ∨ u = 46 ∨ u = 33 ∨ u = 63) :
    sentencesOf transcript = [] := by
  unfold sentencesOf
  rw [List.filter_eq_nil_iff]
  intro piece hp
  have ht : trim piece = [] := by
    apply trim_eq_nil
    intro u hu
    obtain ⟨h1, h2⟩ := splitRuns_mem _ _ _ _ _ hp hu
    rcases h u h1 with hw | hw
    · exact hw
    · rw [(sentenceClass_iff u).mpr hw] at h2
      exact absurd h2 (by simp)
  simp [ht]

theorem avgSentenceLength_nan (transcript : JsString) (h : sentencesOf transcript = []) :
    (analyzeSentenceStructure transcript).avgSentenceLength = .nan := by
  simp only [analyzeSentenceStructure, h, sentenceWordTotal, List.foldl_nil, List.length_nil]
  rfl

theorem wordsOf_empty : wordsOf asciiLowerCase (js "") = [[]] := by decide

/-- C14, the claim refuted: the transcript
`I am a student and I study every day in the library` has 12 words, so with
a duration of 60 seconds `wordsPerMinute` is not 11. -/
theorem wordsPerMinute_sample_ne_11 :
    (analyze asciiLowerCase 60
      (js "I am a student and I study every day in the library")).wordsPerMinute ≠ .fin 11 := by
  have hw : (wordsOf asciiLowerCase
      (js "I am a student and I study every day in the library")).length = 12 := by decide
  rw [wordsPerMinute_eq _ _ _ (by norm_num), hw, jsRound_eq _ 12 (by norm_num) (by norm_num)]
  exact JsNum.fin_ne_fin _ _ (by norm_num)

/-- C14, amended: with a duration of 60 seconds, `analyze` on
`I am a student and I study every day in the library` counts 12 words and
reports `wordsPerMinute` 12, which is `round(wordCount / duration * 60)`. -/
theorem wordsPerMinute_sample :
    (analyze asciiLowerCase 60
      (js "I am a student and I study every day in the library")).totalWords = 12 ∧
    (analyze asciiLowerCase 60
      (js "I am a student and I study every day in the library")).wordsPerMinute = .fin 12 ∧
    jsRound ((12 : ℚ) / 60 * 60) = 12 := by
  have hw : (wordsOf asciiLowerCase
      (js "I am a student and I study every day in the library")).length = 12 := by decide
  have hr : jsRound ((12 : ℚ) / 60 * 60) = 12 := jsRound_eq _ 12 (by norm_num) (by norm_num)
  refine ⟨hw, ?_, hr⟩
  rw [wordsPerMinute_eq _ _ _ (by norm_num), hw, jsRound_eq _ 12 (by norm_num) (by norm_num)]
  norm_num

/-- C16, the claim refuted: for the empty transcript the word list is `[""]`
(one word), and `analyzeDiction` does not report `vocabularyDiversity` 0. -/
theorem vocabularyDiversity_empty_ne_zero :
    (analyzeDiction asciiLowerCase (js "")).vocabularyDiversity ≠ .fin 0 := by
  rw [vocabularyDiversity_eq, wordsOf_empty]
  simp only [List.length_singleton, Nat.cast_one]
  have hu : ([[]] : List JsString).eraseDups.length = 1 := by decide
  rw [hu, Nat.cast_one, jsRound_eq _ 1000 (by norm_num) (by norm_num)]
  exact JsNum.fin_ne_fin _ _ (by norm_num)

/-- C16, amended: for the empty transcript, whose word list is `[""]` (total
words 1, one distinct word), `analyzeDiction` reports `vocabularyDiversity`
1. -/
theorem vocabularyDiversity_empty :
    wordsOf asciiLowerCase (js "") = [js ""] ∧
    (analyzeDiction asciiLowerCase (js "")).vocabularyDiversity = .fin 1 := by
  refine ⟨wordsOf_empty, ?_⟩
  rw [vocabularyDiversity_eq, wordsOf_empty]
  simp only [List.length_singleton, Nat.cast_one]
  have hu : ([[]] : List JsString).eraseDups.length = 1 := by decide
  rw [hu, Nat.cast_one, jsRound_eq _ 1000 (by norm_num) (by norm_num)]
  norm_num

/-- C17, the claim refuted: the empty transcript has no sentence and
`analyzeSentenceStructure` reports `NaN`, not 0, as `avgSentenceLength`. -/
theorem avgSentenceLength_empty_ne_zero :
    sentencesOf (js "") = [] ∧
    (analyzeSentenceStructure (js "")).avgSentenceLength ≠ .fin 0 := by
  have h : sentencesOf (js "") = [] := by decide
  refine ⟨h, ?_⟩
  rw [avgSentenceLength_nan _ h]
  intro e
  cases e

/-- C17, amended: for every transcript made only of whitespace and the
characters `.`, `!`, `?` (the empty string included), the sentence list is
empty and `analyzeSentenceStructure` reports `avgSentenceLength = NaN`: the
division `0 / 0` of the total by the sentence count is not guarded. -/
theorem avgSentenceLength_no_sentence (transcript : JsString)
    (h : ∀ u ∈ transcript, isWhiteSpace u = true ∨ u = 46 ∨ u = 33 ∨ u = 63) :
    sentencesOf transcript = [] ∧
    (analyzeSentenceStructure transcript).avgSentenceLength = .nan :=
  ⟨sentencesOf_eq_nil transcript h, avgSentenceLength_nan transcript (sentencesOf_eq_nil transcript h)⟩

/-- C17, witness: the transcript ` . !?` is made of whitespace and sentence
punctuation only. -/
theorem avgSentenceLength_no_sentence_witness :
    (∀ u ∈ js " . !?", isWhiteSpace u = true ∨ u = 46 ∨ u = 33 ∨ u = 63) ∧
    sentencesOf (js " . !?") = [] ∧
    (analyzeSentenceStructure (js " . !?")).avgSentenceLength = .nan :=
  ⟨by decide, avgSentenceLength_no_sentence (js " . !?") (by decide)⟩

/-- C18, the claim refuted: for the empty transcript and a duration of 60
seconds, `analyze` counts one word and reports `wordsPerMinute` 1, not 0. -/
theorem wordsPerMinute_empty_ne_zero :
    (analyze asciiLowerCase 60 (js "")).totalWords = 1 ∧
    (analyze asciiLowerCase 60 (js "")).wordsPerMinute = .fin 1 ∧
    (analyze asciiLowerCase 60 (js "")).wordsPerMinute ≠ .fin 0 := by
  have hw : (wordsOf asciiLowerCase (js "")).length = 1 := by decide
  have h : (analyze asciiLowerCase 60 (js "")).wordsPerMinute = .fin 1 := by
    rw [wordsPerMinute_eq _ _ _ (by norm_num), hw, jsRound_eq _ 1 (by norm_num) (by norm_num)]
    norm_num
  refine ⟨hw, h, ?_⟩
  rw [h]
  exact JsNum.fin_ne_fin _ _ (by norm_num)

/-- C18, amended: for the empty transcript and every positive duration `d`,
`analyze` counts one word (the word list is `[""]`) and reports
`wordsPerMinute = round(1 / d * 60)`; that is 0 exactly when `d > 120`. -/
theorem wordsPerMinute_empty (duration : ℚ) (hd : 0 < duration) :
    (analyze asciiLowerCase duration (js "")).totalWords = 1 ∧
    (analyze asciiLowerCase duration (js "")).wordsPerMinute =
      .fin (jsRound (1 / duration * 60)) ∧
    ((analyze asciiLowerCase duration (js "")).wordsPerMinute = .fin 0 ↔ 120 < duration) := by
  have hw : (wordsOf asciiLowerCase (js "")).length = 1 := by decide
  have h : (analyze asciiLowerCase duration (js "")).wordsPerMinute =
      .fin (jsRound (1 / duration * 60)) := by
    rw [wordsPerMinute_eq _ _ _ hd.ne', hw, Nat.cast_one]
  refine ⟨hw, h, ?_⟩
  rw [h]
  have hpos : 0 < 1 / duration * 60 := by positivity
  constructor
  · intro e
    have e0 : jsRound (1 / duration * 60) = 0 := by
      have := JsNum.fin.inj e
      exact_mod_cast this
    have hle := (jsRound_le_iff (1 / duration * 60) 0).mp (le_of_eq e0)
    rw [div_mul_eq_mul_div, div_lt_iff₀ hd] at hle
    push_cast at hle
    linarith
  · intro hlt
    have hle : jsRound (1 / duration * 60) ≤ 0 := by
      rw [jsRound_le_iff, div_mul_eq_mul_div, div_lt_iff₀ hd]
      push_cast
      linarith
    have hge : 0 ≤ jsRound (1 / duration * 60) := by
      rw [le_jsRound_iff]
      push_cast
      linarith
    have e0 : jsRound (1 / duration * 60) = 0 := le_antisymm hle hge
    rw [e0]
    norm_num

/-- C18, witness: at a duration of 60 seconds. -/
theorem wordsPerMinute_empty_witness :
    (0 : ℚ) < 60 ∧ (analyze asciiLowerCase 60 (js "")).totalWords = 1 :=
  ⟨by norm_num, (wordsPerMinute_empty 60 (by norm_num)).1⟩

/-! ## The plan of the pipeline -/

theorem determineLevel_mem (s : ℚ) : determineLevel s ∈ levelNames := by
  unfold determineLevel
  split_ifs <;> decide

theorem createPlan_isSome (speechAnalysis : SpeechAnalysis) (toeflScore : ToeflScore)
    (h : toeflScore.level ∈ levelNames) :
    ∃ plan, createPlan speechAnalysis toeflScore = some plan ∧
      plan.priorityAreas = identifyPriorityAreas speechAnalysis toeflScore ∧
      plan.currentLevel = toeflScore.level := by
  have ht : ∀ level ∈ levelNames, (createTimeline level (getNextLevel level)).isSome = true := by
    decide
  have hm : ∀ level ∈ levelNames, (createMilestones level (getNextLevel level)).isSome = true := by
    decide
  obtain ⟨timeline, e1⟩ := Option.isSome_iff_exists.mp (ht _ h)
  obtain ⟨milestones, e2⟩ := Option.isSome_iff_exists.mp (hm _ h)
  simp only [createPlan, e1, e2]
  exact ⟨_, rfl, rfl, rfl⟩

theorem pipeline_isSome (toLowerCase : JsString → JsString) (duration : ℚ)
    (transcript : JsString) :
    ∃ plan, pipeline toLowerCase duration transcript =
        some (analyze toLowerCase duration transcript,
          assess transcript (analyze toLowerCase duration transcript), plan) ∧
      plan.priorityAreas =
        identifyPriorityAreas (analyze toLowerCase duration transcript)
          (assess transcript (analyze toLowerCase duration transcript)) := by
  obtain ⟨plan, e, hp, _⟩ := createPlan_isSome (analyze toLowerCase duration transcript)
    (assess transcript (analyze toLowerCase duration transcript)) (determineLevel_mem _)
  refine ⟨plan, ?_, hp⟩
  unfold pipeline
  dsimp only
  rw [e]

theorem sample_fluency : assessFluency (analyze asciiLowerCase 60 sampleTranscript) = 4 := by
  have hw : (wordsOf asciiLowerCase sampleTranscript).length = 12 := by decide
  have hf : (fillerLoop sampleTranscript).2 = 0 := by decide
  have hs : (sentencesOf sampleTranscript).length = 1 := by decide
  have ht : sentenceWordTotal (sentencesOf sampleTranscript) = 12 := by decide
  have h1 := wordsPerMinute_eq asciiLowerCase 60 sampleTranscript (by norm_num)
  have h2 := fillerPercentage_eq asciiLowerCase sampleTranscript
  have h3 := avgSentenceLength_eq sampleTranscript (by rw [hs]; decide)
  rw [hw] at h1 h2
  rw [hf] at h2
  rw [hs, ht] at h3
  rw [jsRound_eq _ 12 (by norm_num) (by norm_num)] at h1
  rw [jsRound_eq _ 0 (by norm_num) (by norm_num)] at h2
  rw [jsRound_eq _ 120 (by norm_num) (by norm_num)] at h3
  have h2a : (analyze asciiLowerCase 60 sampleTranscript).fillerAnalysis =
      analyzeFillerWords asciiLowerCase sampleTranscript := rfl
  have h3a : (analyze asciiLowerCase 60 sampleTranscript).structureAnalysis =
      analyzeSentenceStructure sampleTranscript := rfl
  unfold assessFluency
  rw [h1, h2a, h2, h3a, h3]
  norm_num

theorem sample_pronunciation :
    assessPronunciation (analyze asciiLowerCase 60 sampleTranscript) = 5 := by
  have hw : (wordsOf asciiLowerCase sampleTranscript).length = 12 := by decide
  have hr : (analyzeClarity asciiLowerCase sampleTranscript).repetitiveWords = [] := by decide
  have hi : incompleteThoughtCount sampleTranscript = 0 := by decide
  have h1 := wordsPerMinute_eq asciiLowerCase 60 sampleTranscript (by norm_num)
  rw [hw, jsRound_eq _ 12 (by norm_num) (by norm_num)] at h1
  have h2 : (analyze asciiLowerCase 60 sampleTranscript).clarityAnalysis =
      analyzeClarity asciiLowerCase sampleTranscript := rfl
  have h3 : (analyzeClarity asciiLowerCase sampleTranscript).incompleteThoughts
      = .fin (incompleteThoughtCount sampleTranscript) := rfl
  unfold assessPronunciation
  rw [h1, h2, hr, h3, hi]
  norm_num

theorem sample_diversity :
    (analyzeDiction asciiLowerCase sampleTranscript).vocabularyDiversity = .fin (917 / 1000) := by
  have hw : (wordsOf asciiLowerCase sampleTranscript).length = 12 := by decide
  have hu : (wordsOf asciiLowerCase sampleTranscript).eraseDups.length = 11 := by decide
  rw [vocabularyDiversity_eq, hu, hw, jsRound_eq _ 917 (by norm_num) (by norm_num)]
  norm_num

theorem sample_vocabulary : assessVocabulary (analyze asciiLowerCase 60 sampleTranscript) = 5 := by
  have hv : countListed vagueWords sampleTranscript = 0 := by decide
  have hk : countListed weakWords sampleTranscript = 0 := by decide
  have h2 : (analyze asciiLowerCase 60 sampleTranscript).dictionAnalysis =
      analyzeDiction asciiLowerCase sampleTranscript := rfl
  have h3 : (analyzeDiction asciiLowerCase sampleTranscript).vagueWords
      = .fin (countListed vagueWords sampleTranscript) := rfl
  have h4 : (analyzeDiction asciiLowerCase sampleTranscript).weakWords
      = .fin (countListed weakWords sampleTranscript) := rfl
  unfold assessVocabulary
  rw [h2, sample_diversity, h3, h4, hv, hk]
  norm_num

theorem sample_grammar : assessGrammar sampleTranscript = 5 := by
  have h1 : countSubjectVerbErrors sampleTranscript = 0 := by decide
  have h2 : countArticleErrors sampleTranscript = 0 := by decide
  have h3 : countTenseErrors sampleTranscript = 0 := by decide
  simp only [assessGrammar, h1, h2, h3]
  norm_num

theorem sample_coherence : assessCoherence sampleTranscript = 5 := by
  have h1 : countTopicShifts sampleTranscript = 0 := by decide
  have h2 : connectorCount sampleTranscript = 1 := by decide
  have h3 : (sentencesOf sampleTranscript).length = 1 := by decide
  have h4 : incompleteSentenceCount (sentencesOf sampleTranscript) = 0 := by decide
  simp only [assessCoherence, h1, h2, h3, h4]
  norm_num

theorem sample_hits :
    priorityHits (analyze asciiLowerCase 60 sampleTranscript)
      (assess sampleTranscript (analyze asciiLowerCase 60 sampleTranscript)) = [] := by
  have hf : (fillerLoop sampleTranscript).2 = 0 := by decide
  have hw : (wordsOf asciiLowerCase sampleTranscript).length = 12 := by decide
  have hv : countListed vagueWords sampleTranscript = 0 := by decide
  have hr : (analyzeClarity asciiLowerCase sampleTranscript).repetitiveWords = [] := by decide
  have h1 := fillerPercentage_eq asciiLowerCase sampleTranscript
  rw [hf, hw, jsRound_eq _ 0 (by norm_num) (by norm_num)] at h1
  have h1a : (analyze asciiLowerCase 60 sampleTranscript).fillerAnalysis =
      analyzeFillerWords asciiLowerCase sampleTranscript := rfl
  have h2a : (analyze asciiLowerCase 60 sampleTranscript).dictionAnalysis =
      analyzeDiction asciiLowerCase sampleTranscript := rfl
  have h3 : (analyzeDiction asciiLowerCase sampleTranscript).vagueWords
      = .fin (countListed vagueWords sampleTranscript) := rfl
  have h4a : (analyze asciiLowerCase 60 sampleTranscript).clarityAnalysis =
      analyzeClarity asciiLowerCase sampleTranscript := rfl
  have hb := (assess_raw sampleTranscript (analyze asciiLowerCase 60 sampleTranscript)).2.2
  rw [sample_fluency, sample_pronunciation, sample_vocabulary, sample_grammar,
    sample_coherence] at hb
  simp only [priorityHits, h1a, h1, h2a, sample_diversity, h3, hv, h4a, hr, hb,
    Breakdown.entries, List.foldl]
  norm_num

/-- C15, the claim refuted: with a duration of 60 seconds the pipeline on the
sample transcript returns a plan whose `priorityAreas` list is empty. -/
theorem sample_priorityAreas_empty :
    ∃ result, pipeline asciiLowerCase 60 sampleTranscript = some result ∧
      result.2.2.priorityAreas = [] := by
  obtain ⟨plan, e, hp⟩ := pipeline_isSome asciiLowerCase 60 sampleTranscript
  refine ⟨_, e, ?_⟩
  rw [hp]
  unfold identifyPriorityAreas
  rw [sample_hits]
  rfl

/-- C15, amended: with a duration of 60 seconds, on the sample transcript no
lexical trigger fires and the sub-scores are 4, 5, 5, 5, 5, none below 4, so
the hit list is empty and `identifyPriorityAreas` returns the empty list. -/
theorem sample_priorityAreas :
    (assess sampleTranscript (analyze asciiLowerCase 60 sampleTranscript)).breakdown
      = ⟨4, 5, 5, 5, 5⟩ ∧
    priorityHits (analyze asciiLowerCase 60 sampleTranscript)
      (assess sampleTranscript (analyze asciiLowerCase 60 sampleTranscript)) = [] ∧
    identifyPriorityAreas (analyze asciiLowerCase 60 sampleTranscript)
      (assess sampleTranscript (analyze asciiLowerCase 60 sampleTranscript)) = [] := by
  have hb := (assess_raw sampleTranscript (analyze asciiLowerCase 60 sampleTranscript)).2.2
  rw [sample_fluency, sample_pronunciation, sample_vocabulary, sample_grammar,
    sample_coherence] at hb
  refine ⟨hb, sample_hits, ?_⟩
  unfold identifyPriorityAreas
  rw [sample_hits]
  rfl

/-- C19: for the empty transcript and every duration (positive or not), the
whole pipeline `analyze`, `assess`, `createPlan` returns a result (no step
raises), and in it `fillerAnalysis.totalFillers`, `dictionAnalysis.vagueWords`
and `dictionAnalysis.weakWords` are 0. -/
theorem pipeline_empty (duration : ℚ) :
    ∃ result, pipeline asciiLowerCase duration (js "") = some result ∧
      result.1.fillerAnalysis.totalFillers = 0 ∧
      result.1.dictionAnalysis.vagueWords = .fin 0 ∧
      result.1.dictionAnalysis.weakWords = .fin 0 := by
  obtain ⟨plan, e, _⟩ := pipeline_isSome asciiLowerCase duration (js "")
  have hf : (fillerLoop (js "")).2 = 0 := by decide
  have hv : countListed vagueWords (js "") = 0 := by decide
  have hk : countListed weakWords (js "") = 0 := by decide
  refine ⟨_, e, hf, ?_, ?_⟩
  · show JsNum.fin (countListed vagueWords (js "") : ℚ) = .fin 0
    rw [hv, Nat.cast_zero]
  · show JsNum.fin (countListed weakWords (js "") : ℚ) = .fin 0
    rw [hk, Nat.cast_zero]

/-! ## Whole-word detection -/

theorem isWordUnit_some (u : Nat) : Spec.isWordUnit (some u) = isWordChar u := by
  simp only [Spec.isWordUnit, isWordChar]
  rw [Bool.eq_iff_iff]
  simp only [Bool.or_eq_true, Bool.and_eq_true, decide_eq_true_eq, beq_iff_eq]
  omega

theorem isWordChar_canonicalize (u : Nat) : isWordChar (canonicalize u) = isWordChar u := by
  unfold canonicalize
  split_ifs with h
  · simp only [Bool.and_eq_true, decide_eq_true_eq] at h
    have h1 : isWordChar u = true := by
      simp only [isWordChar, Bool.or_eq_true, Bool.and_eq_true, decide_eq_true_eq, beq_iff_eq]
      omega
    have h2 : isWordChar (u - 32) = true := by
      simp only [isWordChar, Bool.or_eq_true, Bool.and_eq_true, decide_eq_true_eq, beq_iff_eq]
      omega
    rw [h1, h2]
  · rfl

theorem isWordChar_of_ciChar (c : Char) (u : Nat) (h : ciChar c u = true) :
    isWordChar u = isWordChar c.toNat := by
  unfold ciChar at h
  rw [beq_iff_eq] at h
  rw [← isWordChar_canonicalize u, ← h, isWordChar_canonicalize]

theorem lit_run (p : List Char) (k : Option Nat → JsString → Option JsString)
    (prev : Option Nat) (s : JsString) :
    (p.foldr (fun c r => Regex.seq (Regex.cls (ciChar c)) r) Regex.eps).run k prev s =
      match stripCI p prev s with
      | some (last, rest) => k last rest
      | none => none := by
  induction p generalizing prev s with
  | nil => simp [Regex.run, stripCI]
  | cons c cs ih =>
    cases s with
    | nil => simp [Regex.run, stripCI]
    | cons u us =>
      simp only [List.foldr_cons, Regex.run, stripCI]
      split_ifs with h
      · exact ih (some u) us
      · rfl

theorem stripCI_drop (p : List Char) (prev : Option Nat) (s : JsString)
    (last : Option Nat) (rest : JsString) (h : stripCI p prev s = some (last, rest)) :
    rest = s.drop p.length ∧ p.length ≤ s.length := by
  induction p generalizing prev s with
  | nil =>
    simp only [stripCI, Option.some.injEq, Prod.mk.injEq] at h
    simp [h.2]
  | cons c cs ih =>
    cases s with
    | nil => simp [stripCI] at h
    | cons u us =>
      simp only [stripCI] at h
      split_ifs at h with hc
      obtain ⟨h1, h2⟩ := ih (some u) us h
      exact ⟨by simpa using h1, by simpa using h2⟩

theorem stripCI_last (p : List Char) (c : Char) (q : List Char) (prev : Option Nat)
    (s : JsString) (last : Option Nat) (rest : JsString) (hp : p = c :: q)
    (h : stripCI p prev s = some (last, rest)) :
    Spec.isWordUnit last = isWordChar ((c :: q).getLast?.getD c).toNat := by
  subst hp
  induction q generalizing c prev s with
  | nil =>
    cases s with
    | nil => simp [stripCI] at h
    | cons u us =>
      simp only [stripCI] at h
      split_ifs at h with hc
      simp only [Option.some.injEq, Prod.mk.injEq] at h
      rw [← h.1, isWordUnit_some]
      exact isWordChar_of_ciChar c u hc
  | cons d q ih =>
    cases s with
    | nil => simp [stripCI] at h
    | cons u us =>
      rw [stripCI] at h
      split_ifs at h with hc
      have := ih d (some u) us h
      rw [this, List.getLast?_cons_cons]
      obtain ⟨x, hx⟩ : ∃ x, (d :: q).getLast? = some x :=
        ⟨_, List.getLast?_eq_getLast _ (by simp)⟩
      simp only [hx, Option.getD_some]

theorem isWordBoundary_eq (prev : Option Nat) (s : JsString) :
    isWordBoundary prev s = (Spec.isWordUnit prev != Spec.isWordUnit s.head?) := by
  cases prev <;> cases s <;> simp only [isWordBoundary, List.head?, isWordUnit_some] <;> rfl

theorem stripCI_head (c : Char) (q : List Char) (prev : Option Nat) (s : JsString)
    (last : Option Nat) (rest : JsString) (h : stripCI (c :: q) prev s = some (last, rest)) :
    Spec.isWordUnit s.head? = isWordChar c.toNat := by
  cases s with
  | nil => simp [stripCI] at h
  | cons u us =>
    simp only [stripCI] at h
    split_ifs at h with hc
    rw [List.head?_cons, isWordUnit_some]
    exact isWordChar_of_ciChar c u hc

theorem run_seq (a b : Regex) (k : Option Nat → JsString → Option JsString)
    (prev : Option Nat) (s : JsString) :
    (Regex.seq a b).run k prev s = a.run (b.run k) prev s := by
  simp only [Regex.run]

theorem run_wordB (k : Option Nat → JsString → Option JsString) (prev : Option Nat)
    (s : JsString) :
    Regex.wordB.run k prev s = if isWordBoundary prev s then k prev s else none := by
  simp only [Regex.run]

theorem stripCI_cons_isSome (c : Char) (q : List Char) (x : Option Nat) (u : Nat)
    (us : JsString) :
    (stripCI (c :: q) x (u :: us)).isSome = true ↔
      ciChar c u = true ∧ (stripCI q (some u) us).isSome = true := by
  simp only [stripCI]
  split_ifs with h
  · simp [h]
  · simp [h]

theorem matchAt_words (w : String) (c : Char) (q : List Char) (hw : w.toList = c :: q)
    (hfirst : isWordChar c.toNat = true)
    (hlast : isWordChar ((c :: q).getLast?.getD c).toNat = true)
    (prev : Option Nat) (s : JsString) :
    matchAt (Regex.words [w]) prev s =
      if occAt (c :: q) prev s then some (s.drop (c :: q).length) else none := by
  unfold matchAt Regex.words Regex.oneOf Regex.lit
  rw [hw, run_seq, run_wordB, run_seq, lit_run, isWordBoundary_eq]
  unfold occAt
  cases hs : stripCI (c :: q) prev s with
  | none => simp
  | some pair =>
    obtain ⟨last, rest⟩ := pair
    have h1 := stripCI_head c q prev s last rest hs
    have h2 := stripCI_last (c :: q) c q prev s last rest rfl hs
    have h3 := (stripCI_drop (c :: q) prev s last rest hs).1
    rw [hfirst] at h1
    rw [hlast] at h2
    simp only [run_wordB, isWordBoundary_eq, h1, h2, ← h3]
    cases Spec.isWordUnit prev <;> cases Spec.isWordUnit rest.head? <;> rfl

theorem compat_of_strip (q p : List Char) (x y : Option Nat) (s : JsString)
    (hq : (stripCI q x s).isSome = true) (hp : (stripCI p y s).isSome = true) :
    compat q p = true := by
  induction q generalizing p x y s with
  | nil => rfl
  | cons a q ih =>
    cases p with
    | nil => rfl
    | cons b p =>
      cases s with
      | nil => simp [stripCI] at hq
      | cons u us =>
        obtain ⟨ha, hq⟩ := (stripCI_cons_isSome a q x u us).mp hq
        obtain ⟨hb, hp⟩ := (stripCI_cons_isSome b p y u us).mp hp
        simp only [compat, Bool.and_eq_true, beq_iff_eq]
        refine ⟨?_, ih p (some u) (some u) us hq hp⟩
        unfold ciChar at ha hb
        rw [beq_iff_eq] at ha hb
        rw [ha, hb]

theorem noOcc_of_strip (p q : List Char) (before : Char) (u : Nat) (x : Option Nat)
    (s : JsString) (hu : ciChar before u = true) (hq : (stripCI q x s).isSome = true)
    (hsafe : safeTail p before q = true) : NoOcc p q.length (some u) s := by
  induction q generalizing before u x s with
  | nil => trivial
  | cons d q ih =>
    cases s with
    | nil => simp [stripCI] at hq
    | cons v vs =>
      have hq0 := hq
      obtain ⟨hd, hq⟩ := (stripCI_cons_isSome d q x v vs).mp hq
      simp only [safeTail, Bool.and_eq_true, Bool.or_eq_true, Bool.not_eq_true'] at hsafe
      refine ⟨?_, ih d v (some v) vs hd hq hsafe.2⟩
      by_contra hocc
      rw [Bool.not_eq_false] at hocc
      unfold occAt at hocc
      simp only [Bool.and_eq_true, Bool.not_eq_true'] at hocc
      rcases hsafe.1 with hb | hb
      · have := isWordChar_of_ciChar before u hu
        rw [hb] at this
        simp [isWordUnit_some, this] at hocc
      · have hp : (stripCI p (some u) (v :: vs)).isSome = true := by
          cases hs : stripCI p (some u) (v :: vs) with
          | none => rw [hs] at hocc; simp at hocc
          | some _ => rfl
        have := compat_of_strip (d :: q) p x (some u) (v :: vs) hq0 hp
        rw [this] at hb
        exact absurd hb (by simp)

theorem occAt_nil (c : Char) (q : List Char) (prev : Option Nat) :
    occAt (c :: q) prev [] = false := by
  simp [occAt, stripCI]

theorem countFrom_words (w : String) (c : Char) (q : List Char) (hw : w.toList = c :: q)
    (hfirst : isWordChar c.toNat = true)
    (hlast : isWordChar ((c :: q).getLast?.getD c).toNat = true)
    (hsafe : safeTail (c :: q) c q = true)
    (skip : Nat) (prev : Option Nat) (s : JsString) (hno : NoOcc (c :: q) skip prev s) :
    countFrom (Regex.words [w]) skip prev s = occFrom (c :: q) prev s := by
  induction s generalizing skip prev with
  | nil =>
    cases skip with
    | zero =>
      simp only [countFrom, occFrom, matchAt_words w c q hw hfirst hlast, occAt_nil]
      simp
    | succ n => simp [countFrom, occFrom, occAt_nil]
  | cons u us ih =>
    cases skip with
    | zero =>
      simp only [countFrom, occFrom, matchAt_words w c q hw hfirst hlast]
      by_cases hocc : occAt (c :: q) prev (u :: us) = true
      · simp only [hocc, if_true]
        have hstrip : (stripCI q (some u) us).isSome = true ∧ ciChar c u = true := by
          have hsome : (stripCI (c :: q) prev (u :: us)).isSome = true := by
            unfold occAt at hocc
            cases hs : stripCI (c :: q) prev (u :: us) with
            | none => rw [hs] at hocc; simp at hocc
            | some _ => rfl
          exact ((stripCI_cons_isSome c q prev u us).mp hsome).symm
        obtain ⟨pair, hpair⟩ := Option.isSome_iff_exists.mp hstrip.1
        have hlen := (stripCI_drop q (some u) us pair.1 pair.2 hpair).2
        have hskip : (u :: us).length - (List.drop (c :: q).length (u :: us)).length - 1
            = q.length := by
          simp only [List.length_cons, List.length_drop, List.drop_succ_cons]
          omega
        rw [hskip, ih q.length (some u)
          (noOcc_of_strip (c :: q) q c u (some u) us hstrip.2 hstrip.1 hsafe)]
      · rw [Bool.not_eq_true] at hocc
        simp only [hocc, Bool.false_eq_true, if_false, Nat.zero_add]
        exact ih 0 (some u) trivial
    | succ n =>
      obtain ⟨h1, h2⟩ := hno
      simp only [countFrom, occFrom, h1, Bool.false_eq_true, if_false, Nat.zero_add]
      exact ih n (some u) h2

theorem stripCI_isSome_iff (p : List Char) (x : Option Nat) (s : JsString) :
    (stripCI p x s).isSome = true ↔
      (s.take p.length).map canonicalize = (p.map Char.toNat).map canonicalize := by
  induction p generalizing x s with
  | nil => simp [stripCI]
  | cons c q ih =>
    cases s with
    | nil => simp [stripCI]
    | cons u us =>
      rw [stripCI_cons_isSome, ih (some u) us]
      simp only [ciChar, beq_iff_eq, List.length_cons, List.take_succ_cons, List.map_cons,
        List.cons.injEq]
      constructor
      · rintro ⟨h1, h2⟩
        exact ⟨h1.symm, h2⟩
      · rintro ⟨h1, h2⟩
        exact ⟨h1.symm, h2⟩

theorem occAt_eq (p : List Char) (prev : Option Nat) (s : JsString) :
    occAt p prev s =
      (((s.take p.length).map canonicalize == (p.map Char.toNat).map canonicalize) &&
        !Spec.isWordUnit prev && !Spec.isWordUnit (s.drop p.length).head?) := by
  unfold occAt
  cases hs : stripCI p prev s with
  | none =>
    have h : ¬ ((s.take p.length).map canonicalize = (p.map Char.toNat).map canonicalize) := by
      rw [← stripCI_isSome_iff p prev s, hs]
      simp
    simp only [beq_false_of_ne h, Bool.false_and, Bool.and_false]
  | some pair =>
    obtain ⟨last, rest⟩ := pair
    have h : (s.take p.length).map canonicalize = (p.map Char.toNat).map canonicalize := by
      rw [← stripCI_isSome_iff p prev s, hs]
      rfl
    have hr := (stripCI_drop p prev s last rest hs).1
    simp only [h, beq_self_eq_true, Bool.true_and, hr]

/-- The code unit before a position: the last one of the text read so far,
or the one given when nothing was read. -/
theorem getLast?_cons_or (prev : Option Nat) (c : Nat) (l : JsString) :
    (match (c :: l).getLast? with
      | some x => some x
      | none => prev) =
    (match l.getLast? with
      | some x => some x
      | none => some c) := by
  cases l with
  | nil => rfl
  | cons d l =>
    rw [List.getLast?_cons_cons]
    obtain ⟨x, hx⟩ : ∃ x, (d :: l).getLast? = some x :=
      ⟨_, List.getLast?_eq_getLast _ (by simp)⟩
    simp only [hx]

theorem filter_range_succ (f : Nat → Bool) (n : Nat) :
    ((List.range (n + 1)).filter f).length =
      (if f 0 then 1 else 0) + ((List.range n).filter (fun i => f (i + 1))).length := by
  rw [List.range_succ_eq_map, List.filter_cons, List.filter_map]
  split_ifs
  · simp only [List.length_cons, List.length_map, Function.comp_def, Nat.succ_eq_add_one]
    omega
  · simp only [List.length_map, Function.comp_def, Nat.succ_eq_add_one]
    omega

theorem occFrom_eq_filter (p : List Char) (prev : Option Nat) (s : JsString) :
    occFrom p prev s =
      ((List.range (s.length + 1)).filter (fun i =>
        occAt p (match (s.take i).getLast? with
          | some x => some x
          | none => prev) (s.drop i))).length := by
  induction s generalizing prev with
  | nil =>
    rw [occFrom, List.length_nil, filter_range_succ]
    simp only [List.take_nil, List.getLast?_nil, List.drop_nil, List.range_zero,
      List.filter_nil, List.length_nil, Nat.add_zero]
  | cons c cs ih =>
    rw [occFrom, List.length_cons, filter_range_succ, ih (some c)]
    simp only [List.take_zero, List.getLast?_nil, List.drop_zero, List.take_succ_cons,
      List.drop_succ_cons, getLast?_cons_or]

theorem countWord_eq_count (w : String) (h : plainWord w = true) (transcript : JsString) :
    countWord w transcript = Spec.wholeWordCount w transcript := by
  unfold plainWord at h
  rw [Bool.and_eq_true, beq_iff_eq] at h
  obtain ⟨hjs, h⟩ := h
  cases hw : w.toList with
  | nil => rw [hw] at h; simp at h
  | cons c q =>
    rw [hw] at h hjs
    simp only [Bool.and_eq_true] at h
    obtain ⟨⟨hfirst, hlast⟩, hsafe⟩ := h
    unfold countWord matchCount
    rw [countFrom_words w c q hw hfirst hlast hsafe 0 none transcript trivial,
      occFrom_eq_filter]
    unfold Spec.wholeWordCount
    congr 1
    apply List.filter_congr
    intro i _
    rw [occAt_eq, Spec.wholeWordAt, hjs]
    simp only [List.length_map]
    congr 2
    cases (List.take i transcript).getLast? <;> rfl

theorem listed_plain : ∀ w ∈ fillerWords ++ vagueWords ++ weakWords, plainWord w = true := by
  decide

theorem fillerLoop_total (transcript : JsString) :
    (fillerLoop transcript).2 = (fillerWords.map (fun w => countWord w transcript)).sum := by
  unfold fillerLoop
  have h : ∀ (l : List String) (acc : List (String × Nat) × Nat),
      (l.foldl
        (fun (acc : List (String × Nat) × Nat) filler =>
          let found := countWord filler transcript
          if found > 0 then (acc.1 ++ [(filler, found)], acc.2 + found) else acc) acc).2
        = acc.2 + (l.map (fun w => countWord w transcript)).sum := by
    intro l
    induction l with
    | nil => intro acc; simp
    | cons w l ih =>
      intro acc
      rw [List.foldl_cons, ih]
      simp only [List.map_cons, List.sum_cons]
      split_ifs with hpos
      · simp only []
        omega
      · have : countWord w transcript = 0 := by omega
        omega
  rw [h]
  simp

theorem countListed_eq_sum (ws : List String) (transcript : JsString) :
    countListed ws transcript = (ws.map (fun w => countWord w transcript)).sum := by
  unfold countListed
  have h : ∀ (l : List String) (acc : Nat),
      l.foldl (fun total w => total + countWord w transcript) acc
        = acc + (l.map (fun w => countWord w transcript)).sum := by
    intro l
    induction l with
    | nil => intro acc; simp
    | cons w l ih =>
      intro acc
      rw [List.foldl_cons, ih]
      simp only [List.map_cons, List.sum_cons]
      omega
  rw [h]
  simp

theorem sum_map_congr (ws : List String) (f g : String → Nat) (h : ∀ w ∈ ws, f w = g w) :
    (ws.map f).sum = (ws.map g).sum := by
  rw [List.map_congr_left h]

/-- C20, the claim refuted: in `créer` the only occurrence of the filler
`er` follows the letter `é` (code unit 233), inside a longer word, so no
occurrence stands alone; the pattern `\ber\b` takes `é` for a separator and
`analyzeFillerWords` counts the filler once. -/
theorem wholeWord_accented_letter :
    "er" ∈ fillerWords ∧
    js "créer" = [99, 114, 233, 101, 114] ∧
    Spec.isLatinLetter 233 = true ∧
    Spec.standaloneCount "er" (js "créer") = 0 ∧
    countWord "er" (js "créer") = 1 ∧
    (analyzeFillerWords asciiLowerCase (js "créer")).totalFillers = 1 := by
  refine ⟨by decide, by decide, by decide, by decide, by decide, by decide⟩

/-- C20, amended: filler, vague and weak word detection is whole-word with
respect to the ASCII word characters.  For every transcript and every listed
word `w`, the count of `w` is the number of positions at which `w` occurs,
up to the case of letters, with no ASCII letter, digit or underscore right
before or right after (a letter outside ASCII, such as `é`, counts as a
separator, so `créer` holds one such occurrence of `er`); the totals of
`analyzeFillerWords` and `analyzeDiction` are the sums of these numbers over
their lists; `analyzeFillerWords("likely")` has `totalFillers` 0 and
`analyzeFillerWords("like")` has `totalFillers` 1. -/
theorem wholeWord_detection (toLowerCase : JsString → JsString) (transcript : JsString) :
    (∀ w ∈ fillerWords ++ vagueWords ++ weakWords,
      countWord w transcript = Spec.wholeWordCount w transcript) ∧
    (analyzeFillerWords toLowerCase transcript).totalFillers =
      (fillerWords.map (fun w => Spec.wholeWordCount w transcript)).sum ∧
    (analyzeDiction toLowerCase transcript).vagueWords =
      .fin ((vagueWords.map (fun w => Spec.wholeWordCount w transcript)).sum : ℕ) ∧
    (analyzeDiction toLowerCase transcript).weakWords =
      .fin ((weakWords.map (fun w => Spec.wholeWordCount w transcript)).sum : ℕ) ∧
    (analyzeFillerWords asciiLowerCase (js "likely")).totalFillers = 0 ∧
    (analyzeFillerWords asciiLowerCase (js "like")).totalFillers = 1 ∧
    Spec.wholeWordCount "er" (js "créer") = 1 := by
  have hall : ∀ w ∈ fillerWords ++ vagueWords ++ weakWords,
      countWord w transcript = Spec.wholeWordCount w transcript :=
    fun w hw => countWord_eq_count w (listed_plain w hw) transcript
  refine ⟨hall, ?_, ?_, ?_, by decide, by decide, by decide⟩
  · show (fillerLoop transcript).2 = _
    rw [fillerLoop_total]
    exact sum_map_congr _ _ _ (fun w hw => hall w (by simp [hw]))
  · show JsNum.fin (countListed vagueWords transcript : ℚ) = _
    rw [countListed_eq_sum]
    rw [sum_map_congr _ _ _ (fun w hw => hall w (by simp [hw]))]
  · show JsNum.fin (countListed weakWords transcript : ℚ) = _
    rw [countListed_eq_sum]
    rw [sum_map_congr _ _ _ (fun w hw => hall w (by simp [hw]))]

/-- C20, amended, witness: the word `like` of the filler list, in the transcript
`I like it, likely`. -/
theorem wholeWord_detection_witness :
    "like" ∈ fillerWords ++ vagueWords ++ weakWords ∧
    countWord "like" (js "I like it, likely") = Spec.wholeWordCount "like" (js "I like it, likely") :=
  ⟨by decide, (wholeWord_detection asciiLowerCase (js "I like it, likely")).1 "like" (by decide)⟩


/-! ## Word identity and incomplete thoughts -/

/-- C21, the claim refuted: `cat` and `cat.` are two different words for
`analyzeDiction`, which reports `vocabularyDiversity` 1, not 0.5, on
`cat cat.`. -/
theorem vocabularyDiversity_punctuation_ne_half :
    (analyzeDiction asciiLowerCase (js "cat cat.")).vocabularyDiversity ≠ .fin 0.5 := by
  have hw : (wordsOf asciiLowerCase (js "cat cat.")).length = 2 := by decide
  have hu : (wordsOf asciiLowerCase (js "cat cat.")).eraseDups.length = 2 := by decide
  rw [vocabularyDiversity_eq, hu, hw, jsRound_eq _ 1000 (by norm_num) (by norm_num)]
  exact JsNum.fin_ne_fin _ _ (by norm_num)

/-- C21, amended: word identity keeps attached punctuation.  The words that
`analyzeDiction` and `analyzeClarity` count are the whitespace-separated
tokens of the lower-cased transcript, compared as they are: `cat cat.` has
the two distinct words `cat` and `cat.` and `vocabularyDiversity` 1, and in
`that that that that.` the word `that` occurs 3 times only, so it is not a
repetitive word. -/
theorem word_identity_keeps_punctuation :
    wordsOf asciiLowerCase (js "cat cat.") = [js "cat", js "cat."] ∧
    (wordsOf asciiLowerCase (js "cat cat.")).eraseDups.length = 2 ∧
    (analyzeDiction asciiLowerCase (js "cat cat.")).vocabularyDiversity = .fin 1 ∧
    (wordsOf asciiLowerCase (js "that that that that.")).count (js "that") = 3 ∧
    (analyzeClarity asciiLowerCase (js "that that that that.")).repetitiveWords = [] := by
  have hw : (wordsOf asciiLowerCase (js "cat cat.")).length = 2 := by decide
  have hu : (wordsOf asciiLowerCase (js "cat cat.")).eraseDups.length = 2 := by decide
  refine ⟨by decide, hu, ?_, by decide, by decide⟩
  rw [vocabularyDiversity_eq, hu, hw, jsRound_eq _ 1000 (by norm_num) (by norm_num)]
  norm_num

/-- C23, the code at a failing input: the pattern
`/but\s|however\s|although\s|though\s/gi` has no word boundary, so in
`My debut was great` the letters `but` followed by a blank are counted and
`incompleteThoughts` is 1, although the transcript holds no connector. -/
theorem incompleteThoughts_counts_inside_words :
    incompleteThoughtCount (js "My debut was great") = 1 ∧
    (analyzeClarity asciiLowerCase (js "My debut was great")).incompleteThoughts = .fin 1 ∧
    incompleteThoughtCount (js "debut ") = 1 := by
  have h : incompleteThoughtCount (js "My debut was great") = 1 := by decide
  refine ⟨h, ?_, by decide⟩
  show JsNum.fin (incompleteThoughtCount (js "My debut was great") : ℚ) = .fin 1
  rw [h, Nat.cast_one]

/-! ## Filler-saturated transcripts -/

theorem assessFluency_formula (speechAnalysis : SpeechAnalysis) :
    assessFluency speechAnalysis =
      max 1 (min 5
        (5 - (if speechAnalysis.wordsPerMinute.lt (.fin 100) then 1
              else if speechAnalysis.wordsPerMinute.gt (.fin 180) then 1 / 2 else 0)
          - (if speechAnalysis.fillerAnalysis.fillerPercentage.gt (.fin 8) then 1
              else if speechAnalysis.fillerAnalysis.fillerPercentage.gt (.fin 5) then 1 / 2
              else 0)
          - (if speechAnalysis.structureAnalysis.avgSentenceLength.lt (.fin 8) then 1 / 2
              else 0))) := by
  unfold assessFluency
  split_ifs <;> norm_num

theorem filler_facts (toLowerCase : JsString → JsString) :
    (wordsOf asciiLowerCase fillerTranscript).length = 6 ∧
    (fillerLoop fillerTranscript).2 = 6 ∧
    (analyzeFillerWords toLowerCase fillerTranscript).fillerPercentage =
      .fin ((jsRound (((6 : ℕ) : ℚ) / (wordsOf toLowerCase fillerTranscript).length * 100 * 100) : ℚ)
        / 100) := by
  have hf : (fillerLoop fillerTranscript).2 = 6 := by decide
  refine ⟨by decide, hf, ?_⟩
  rw [fillerPercentage_eq, hf]

theorem filler_percentage :
    (analyzeFillerWords asciiLowerCase fillerTranscript).fillerPercentage = .fin 100 := by
  obtain ⟨hw, _, hp⟩ := filler_facts asciiLowerCase
  rw [hp, hw, jsRound_eq _ 10000 (by norm_num) (by norm_num)]
  norm_num

theorem filler_fluency_60 :
    assessFluency (analyze asciiLowerCase 60 fillerTranscript) = 2.5 := by
  have hw : (wordsOf asciiLowerCase fillerTranscript).length = 6 := by decide
  have hs : (sentencesOf fillerTranscript).length = 1 := by decide
  have ht : sentenceWordTotal (sentencesOf fillerTranscript) = 6 := by decide
  have h1 := wordsPerMinute_eq asciiLowerCase 60 fillerTranscript (by norm_num)
  have h3 := avgSentenceLength_eq fillerTranscript (by rw [hs]; decide)
  rw [hw] at h1
  rw [hs, ht] at h3
  rw [jsRound_eq _ 6 (by norm_num) (by norm_num)] at h1
  rw [jsRound_eq _ 60 (by norm_num) (by norm_num)] at h3
  have h2a : (analyze asciiLowerCase 60 fillerTranscript).fillerAnalysis =
      analyzeFillerWords asciiLowerCase fillerTranscript := rfl
  have h3a : (analyze asciiLowerCase 60 fillerTranscript).structureAnalysis =
      analyzeSentenceStructure fillerTranscript := rfl
  unfold assessFluency
  rw [h1, h2a, filler_percentage, h3a, h3]
  norm_num

/-- C24, the claim refuted: the transcript `um uh like um uh like` has filler
percentage 100, and with a duration of 60 seconds its fluency sub-score in
the breakdown is 2.5, not 1. -/
theorem filler_fluency_ne_one :
    (analyze asciiLowerCase 60 fillerTranscript).fillerAnalysis.fillerPercentage = .fin 100 ∧
    (assess fillerTranscript (analyze asciiLowerCase 60 fillerTranscript)).breakdown.fluency
      = 2.5 ∧
    (assess fillerTranscript (analyze asciiLowerCase 60 fillerTranscript)).breakdown.fluency
      ≠ 1 := by
  have h : (assess fillerTranscript (analyze asciiLowerCase 60 fillerTranscript)).breakdown.fluency
      = 2.5 := filler_fluency_60
  refine ⟨filler_percentage, h, ?_⟩
  rw [h]
  norm_num

theorem reported_gt_of_ge_15 (toLowerCase : JsString → JsString) (transcript : JsString)
    (c : ℚ) (hc : c < 15)
    (h : 15 ≤ ((fillerLoop transcript).2 : ℚ) / (wordsOf toLowerCase transcript).length * 100) :
    (analyzeFillerWords toLowerCase transcript).fillerPercentage.gt (.fin c) = true := by
  rw [fillerPercentage_eq]
  simp only [JsNum.gt_fin, decide_eq_true_eq]
  have hr : (1500 : ℤ) ≤ jsRound (((fillerLoop transcript).2 : ℚ) /
      (wordsOf toLowerCase transcript).length * 100 * 100) := by
    rw [le_jsRound_iff]
    push_cast
    linarith
  have hq : (1500 : ℚ) ≤ (jsRound (((fillerLoop transcript).2 : ℚ) /
      (wordsOf toLowerCase transcript).length * 100 * 100) : ℚ) := by exact_mod_cast hr
  rw [lt_div_iff₀ (by norm_num)]
  linarith

/-- C24, amended: for every transcript whose filler ratio exceeds 15% and
every duration, the fluency sub-score in the breakdown has lost the full
filler penalty of 1: it lies between 2.5 and 4 (it is 5 minus 1, minus the
rate penalty, minus the short-sentence penalty) and is never 1. -/
theorem filler_fluency_bounds (toLowerCase : JsString → JsString) (duration : ℚ)
    (transcript : JsString)
    (h : 15 < ((fillerLoop transcript).2 : ℚ) / (wordsOf toLowerCase transcript).length * 100) :
    2.5 ≤ (assess transcript (analyze toLowerCase duration transcript)).breakdown.fluency ∧
    (assess transcript (analyze toLowerCase duration transcript)).breakdown.fluency ≤ 4 ∧
    (assess transcript (analyze toLowerCase duration transcript)).breakdown.fluency ≠ 1 := by
  have h8 : (analyze toLowerCase duration transcript).fillerAnalysis.fillerPercentage.gt (.fin 8)
      = true := reported_gt_of_ge_15 toLowerCase transcript 8 (by norm_num) h.le
  have hb : 2.5 ≤ assessFluency (analyze toLowerCase duration transcript) ∧
      assessFluency (analyze toLowerCase duration transcript) ≤ 4 := by
    rw [assessFluency_formula, h8]
    simp only [if_true]
    constructor
    · apply le_max_of_le_right
      apply le_min
      · norm_num
      · split_ifs <;> norm_num
    · apply max_le
      · norm_num
      · apply le_trans (min_le_right _ _)
        split_ifs <;> norm_num
  refine ⟨hb.1, hb.2, ?_⟩
  intro e
  have h1 : (2.5 : ℚ) ≤ 1 := by
    have := hb.1
    rw [show assessFluency (analyze toLowerCase duration transcript) = 1 from e] at this
    exact this
  norm_num at h1

/-- C24, witness: the transcript `um uh like um uh like` at 60 seconds. -/
theorem filler_fluency_bounds_witness :
    15 < ((fillerLoop fillerTranscript).2 : ℚ) / (wordsOf asciiLowerCase fillerTranscript).length
      * 100 ∧
    2.5 ≤ (assess fillerTranscript (analyze asciiLowerCase 60 fillerTranscript)).breakdown.fluency :=
  have h : 15 < ((fillerLoop fillerTranscript).2 : ℚ) /
      (wordsOf asciiLowerCase fillerTranscript).length * 100 := by
    rw [(filler_facts asciiLowerCase).1, (filler_facts asciiLowerCase).2.1]
    norm_num
  ⟨h, (filler_fluency_bounds asciiLowerCase 60 fillerTranscript h).1⟩

theorem fillerScore_eq (toLowerCase : JsString → JsString) (transcript : JsString) :
    (analyzeFillerWords toLowerCase transcript).score =
      scoreFillerWords (.fin (((fillerLoop transcript).2 : ℚ) /
        (wordsOf toLowerCase transcript).length * 100)) := by
  have h : ((wordsOf toLowerCase transcript).length : ℚ) ≠ 0 :=
    Nat.cast_ne_zero.mpr (wordsOf_length_pos toLowerCase transcript).ne'
  simp only [analyzeFillerWords]
  rw [JsNum.div_fin _ _ h]
  rfl

theorem fillerMessage_mem_iff (fillerAnalysis : FillerAnalysis)
    (dictionAnalysis : DictionAnalysis) (structureAnalysis : StructureAnalysis)
    (wordsPerMinute : JsNum) :
    "Reduce filler words like \x27um\x27, \x27uh\x27, \x27like\x27, and \x27you know\x27" ∈
        generateRecommendations fillerAnalysis dictionAnalysis structureAnalysis wordsPerMinute ↔
      fillerAnalysis.fillerPercentage.gt (.fin 5) = true := by
  unfold generateRecommendations
  simp only [List.mem_append]
  constructor
  · intro h
    rcases h with (((h | h) | h) | h) | h
    · split_ifs at h with hc
      · exact hc
      · simp at h
    · split_ifs at h
      · rw [List.mem_singleton] at h
        exact absurd h (by decide)
      · simp at h
    · split_ifs at h
      · rw [List.mem_singleton] at h
        exact absurd h (by decide)
      · simp at h
    · split_ifs at h
      · rw [List.mem_singleton] at h
        exact absurd h (by decide)
      · simp at h
    · split_ifs at h
      · rw [List.mem_singleton] at h
        exact absurd h (by decide)
      · rw [List.mem_singleton] at h
        exact absurd h (by decide)
      · simp at h
  · intro hc
    left; left; left; left
    rw [if_pos hc]
    exact List.mem_singleton_self _

/-- C25: for every transcript whose filler percentage (total fillers over
words, times 100) is at least 15, `fillerAnalysis.score` is 1 and the
recommendations contain the filler-reduction message; for every transcript
the message is present exactly when the reported `fillerPercentage` is
greater than 5. -/
theorem filler_score_and_message (toLowerCase : JsString → JsString) (duration : ℚ)
    (transcript : JsString) :
    (15 ≤ ((fillerLoop transcript).2 : ℚ) / (wordsOf toLowerCase transcript).length * 100 →
      (analyze toLowerCase duration transcript).fillerAnalysis.score = 1 ∧
      "Reduce filler words like \x27um\x27, \x27uh\x27, \x27like\x27, and \x27you know\x27" ∈
        (analyze toLowerCase duration transcript).recommendations) ∧
    ("Reduce filler words like \x27um\x27, \x27uh\x27, \x27like\x27, and \x27you know\x27" ∈
        (analyze toLowerCase duration transcript).recommendations ↔
      (analyze toLowerCase duration transcript).fillerAnalysis.fillerPercentage.gt (.fin 5)
        = true) := by
  have hiff := fillerMessage_mem_iff (analyzeFillerWords toLowerCase transcript)
    (analyzeDiction toLowerCase transcript) (analyzeSentenceStructure transcript)
    (analyze toLowerCase duration transcript).wordsPerMinute
  refine ⟨?_, hiff⟩
  intro h15
  constructor
  · show (analyzeFillerWords toLowerCase transcript).score = 1
    rw [fillerScore_eq]
    unfold scoreFillerWords
    simp only [JsNum.lt_fin, decide_eq_true_eq]
    rw [if_neg (by linarith), if_neg (by linarith), if_neg (by linarith), if_neg (by linarith)]
  · apply hiff.mpr
    show (analyzeFillerWords toLowerCase transcript).fillerPercentage.gt (.fin 5) = true
    rw [fillerPercentage_eq]
    simp only [JsNum.gt_fin, decide_eq_true_eq]
    have hr : (1500 : ℤ) ≤ jsRound (((fillerLoop transcript).2 : ℚ) /
        (wordsOf toLowerCase transcript).length * 100 * 100) := by
      rw [le_jsRound_iff]
      push_cast
      linarith
    have hq : (1500 : ℚ) ≤ (jsRound (((fillerLoop transcript).2 : ℚ) /
        (wordsOf toLowerCase transcript).length * 100 * 100) : ℚ) := by exact_mod_cast hr
    rw [lt_div_iff₀ (by norm_num)]
    linarith

/-- C25, witness: the transcript `um uh like um uh like` has filler
percentage 100 and score 1. -/
theorem filler_score_and_message_witness :
    15 ≤ ((fillerLoop fillerTranscript).2 : ℚ) / (wordsOf asciiLowerCase fillerTranscript).length
      * 100 ∧
    (analyze asciiLowerCase 60 fillerTranscript).fillerAnalysis.score = 1 :=
  have h : 15 ≤ ((fillerLoop fillerTranscript).2 : ℚ) /
      (wordsOf asciiLowerCase fillerTranscript).length * 100 := by
    rw [(filler_facts asciiLowerCase).1, (filler_facts asciiLowerCase).2.1]
    norm_num
  ⟨h, ((filler_score_and_message asciiLowerCase 60 fillerTranscript).1 h).1⟩

/-! ## Monotonicity in the filler percentage -/

theorem JsNum.gt_mono (p1 p2 : JsNum) (c : ℚ) (h : p1.le p2 = true)
    (hg : p1.gt (.fin c) = true) : p2.gt (.fin c) = true := by
  cases p1 <;> cases p2 <;> simp_all [JsNum.le, JsNum.gt, JsNum.lt]
  linarith

theorem jsRound_mono (x y : ℚ) (h : x ≤ y) : jsRound x ≤ jsRound y := by
  unfold jsRound
  exact Int.floor_mono (by linarith)

theorem fluency_mono (speechAnalysis : SpeechAnalysis) (p1 p2 : JsNum) (h : p1.le p2 = true) :
    assessFluency (speechAnalysis.withFillerPercentage p2) ≤
      assessFluency (speechAnalysis.withFillerPercentage p1) := by
  rw [assessFluency_formula, assessFluency_formula]
  simp only [SpeechAnalysis.withFillerPercentage]
  apply max_le_max le_rfl
  apply min_le_min le_rfl
  have m8 := JsNum.gt_mono p1 p2 8 h
  have m5 := JsNum.gt_mono p1 p2 5 h
  have hpen : (if p1.gt (.fin 8) then (1 : ℚ) else if p1.gt (.fin 5) then 1 / 2 else 0) ≤
      (if p2.gt (.fin 8) then (1 : ℚ) else if p2.gt (.fin 5) then 1 / 2 else 0) := by
    by_cases a8 : p1.gt (.fin 8) = true
    · rw [if_pos a8, if_pos (m8 a8)]
    · rw [if_neg a8]
      by_cases a5 : p1.gt (.fin 5) = true
      · rw [if_pos a5]
        split_ifs
        · norm_num
        · exact le_rfl
        · exact absurd (m5 a5) ‹_›
      · rw [if_neg a5]
        split_ifs <;> norm_num
  linarith

/-- C26: for every speech analysis, every transcript and every two filler
percentages `p1 <= p2`, with all else equal, `assessFluency` at `p1` is at
least `assessFluency` at `p2`, and so are the weighted score of
`calculateTOEFLScore` and the `overallScore` of `assess`, rounded to one
decimal. -/
theorem score_monotone_in_filler (speechAnalysis : SpeechAnalysis) (transcript : JsString)
    (p1 p2 : JsNum) (h : p1.le p2 = true) :
    assessFluency (speechAnalysis.withFillerPercentage p2) ≤
      assessFluency (speechAnalysis.withFillerPercentage p1) ∧
    calculateTOEFLScore (assess transcript (speechAnalysis.withFillerPercentage p2)).breakdown ≤
      calculateTOEFLScore (assess transcript (speechAnalysis.withFillerPercentage p1)).breakdown ∧
    (assess transcript (speechAnalysis.withFillerPercentage p2)).overallScore ≤
      (assess transcript (speechAnalysis.withFillerPercentage p1)).overallScore := by
  have hf := fluency_mono speechAnalysis p1 p2 h
  have hraw : calculateTOEFLScore
        (assess transcript (speechAnalysis.withFillerPercentage p2)).breakdown ≤
      calculateTOEFLScore (assess transcript (speechAnalysis.withFillerPercentage p1)).breakdown := by
    rw [calculateTOEFLScore_eq, calculateTOEFLScore_eq]
    have e2 := (assess_raw transcript (speechAnalysis.withFillerPercentage p2)).2.2
    have e1 := (assess_raw transcript (speechAnalysis.withFillerPercentage p1)).2.2
    rw [e1, e2]
    have hp : assessPronunciation (speechAnalysis.withFillerPercentage p2) =
        assessPronunciation (speechAnalysis.withFillerPercentage p1) := rfl
    have hv : assessVocabulary (speechAnalysis.withFillerPercentage p2) =
        assessVocabulary (speechAnalysis.withFillerPercentage p1) := rfl
    simp only [hp, hv]
    linarith
  refine ⟨hf, hraw, ?_⟩
  rw [(assess_raw transcript (speechAnalysis.withFillerPercentage p2)).2.1,
    (assess_raw transcript (speechAnalysis.withFillerPercentage p1)).2.1]
  apply div_le_div_of_nonneg_right _ (by norm_num : (0 : ℚ) ≤ 10)
  exact_mod_cast jsRound_mono _ _ (by linarith)

/-- C26, witness: the filler percentages 3 and 9 on the analysis of the empty
transcript. -/
theorem score_monotone_in_filler_witness :
    (JsNum.fin 3).le (JsNum.fin 9) = true ∧
    assessFluency ((analyze asciiLowerCase 60 (js "")).withFillerPercentage (.fin 9)) ≤
      assessFluency ((analyze asciiLowerCase 60 (js "")).withFillerPercentage (.fin 3)) :=
  have h : (JsNum.fin 3).le (JsNum.fin 9) = true := by
    simp only [JsNum.le, decide_eq_true_eq]
    norm_num
  ⟨h, (score_monotone_in_filler (analyze asciiLowerCase 60 (js "")) (js "") _ _ h).1⟩

/-! ## Ratios and the filler breakdown -/

theorem eraseDups_loop_length (l acc : List JsString) :
    (List.eraseDups.loop l acc).length ≤ l.length + acc.length := by
  induction l generalizing acc with
  | nil => simp [List.eraseDups.loop]
  | cons a l ih =>
    unfold List.eraseDups.loop
    split
    · have := ih acc
      simp only [List.length_cons]
      omega
    · have := ih (a :: acc)
      simp only [List.length_cons] at this ⊢
      omega

theorem eraseDups_length_le (l : List JsString) : l.eraseDups.length ≤ l.length := by
  have := eraseDups_loop_length l []
  simpa [List.eraseDups] using this

/-- C27: for every transcript the word list obtained by splitting on
whitespace is non-empty, so both quotients have a non-zero divisor and are
finite; the reported `vocabularyDiversity` lies in `[0,1]` and the reported
`fillerPercentage` is non-negative. -/
theorem ratios_in_range (toLowerCase : JsString → JsString) (transcript : JsString) :
    wordsOf toLowerCase transcript ≠ [] ∧
    (∃ q : ℚ, (analyzeDiction toLowerCase transcript).vocabularyDiversity = .fin q ∧
      0 ≤ q ∧ q ≤ 1) ∧
    (∃ p : ℚ, (analyzeFillerWords toLowerCase transcript).fillerPercentage = .fin p ∧ 0 ≤ p) := by
  have hpos := wordsOf_length_pos toLowerCase transcript
  have hn : (0 : ℚ) < ((wordsOf toLowerCase transcript).length : ℚ) := by exact_mod_cast hpos
  refine ⟨List.length_pos.mp hpos, ⟨_, vocabularyDiversity_eq toLowerCase transcript, ?_, ?_⟩,
    ⟨_, fillerPercentage_eq toLowerCase transcript, ?_⟩⟩
  · apply div_nonneg _ (by norm_num)
    have h0 : (0 : ℤ) ≤ jsRound (((wordsOf toLowerCase transcript).eraseDups.length : ℚ) /
        (wordsOf toLowerCase transcript).length * 1000) := by
      rw [le_jsRound_iff]
      have : (0 : ℚ) ≤ ((wordsOf toLowerCase transcript).eraseDups.length : ℚ) /
          (wordsOf toLowerCase transcript).length * 1000 := by positivity
      push_cast
      linarith
    exact_mod_cast h0
  · rw [div_le_iff₀ (by norm_num)]
    have hle : ((wordsOf toLowerCase transcript).eraseDups.length : ℚ) ≤
        ((wordsOf toLowerCase transcript).length : ℚ) := by
      exact_mod_cast eraseDups_length_le _
    have hq : ((wordsOf toLowerCase transcript).eraseDups.length : ℚ) /
        (wordsOf toLowerCase transcript).length ≤ 1 := (div_le_one hn).mpr hle
    have h1 : jsRound (((wordsOf toLowerCase transcript).eraseDups.length : ℚ) /
        (wordsOf toLowerCase transcript).length * 1000) ≤ (1000 : ℤ) := by
      rw [jsRound_le_iff]
      push_cast
      linarith
    have h1q : (jsRound (((wordsOf toLowerCase transcript).eraseDups.length : ℚ) /
        (wordsOf toLowerCase transcript).length * 1000) : ℚ) ≤ 1000 := by exact_mod_cast h1
    linarith
  · apply div_nonneg _ (by norm_num)
    have h0 : (0 : ℤ) ≤ jsRound (((fillerLoop transcript).2 : ℚ) /
        (wordsOf toLowerCase transcript).length * 100 * 100) := by
      rw [le_jsRound_iff]
      have : (0 : ℚ) ≤ ((fillerLoop transcript).2 : ℚ) /
          (wordsOf toLowerCase transcript).length * 100 * 100 := by positivity
      push_cast
      linarith
    exact_mod_cast h0

theorem fillerLoop_breakdown (transcript : JsString) :
    (fillerLoop transcript).1 =
      (fillerWords.map (fun w => (w, countWord w transcript))).filter (fun e => e.2 > 0) := by
  unfold fillerLoop
  have h : ∀ (l : List String) (acc : List (String × Nat) × Nat),
      (l.foldl
        (fun (acc : List (String × Nat) × Nat) filler =>
          let found := countWord filler transcript
          if found > 0 then (acc.1 ++ [(filler, found)], acc.2 + found) else acc) acc).1
        = acc.1 ++ (l.map (fun w => (w, countWord w transcript))).filter (fun e => e.2 > 0) := by
    intro l
    induction l with
    | nil => intro acc; simp
    | cons w l ih =>
      intro acc
      rw [List.foldl_cons, ih]
      simp only [List.map_cons, List.filter_cons]
      by_cases hpos : countWord w transcript > 0
      · simp [hpos]
      · simp [hpos]
  rw [h]
  simp

theorem sum_filter_pos (l : List (String × Nat)) :
    ((l.filter (fun e => e.2 > 0)).map (fun e => e.2)).sum = (l.map (fun e => e.2)).sum := by
  induction l with
  | nil => rfl
  | cons e l ih =>
    simp only [List.filter_cons, List.map_cons, List.sum_cons]
    by_cases h : e.2 > 0
    · simp [h, ih]
    · have h0 : e.2 = 0 := by omega
      simp [h0, ih]

/-- C28: for every transcript, `fillerAnalysis.totalFillers` equals the sum
of the counts in `fillerBreakdown`, every breakdown entry is at least 1, and
the breakdown is empty exactly when the total is 0; the sample transcript
has `totalFillers` 0, `fillerPercentage` 0 and an empty breakdown. -/
theorem filler_breakdown_sum (toLowerCase : JsString → JsString) (transcript : JsString) :
    (analyzeFillerWords toLowerCase transcript).totalFillers =
      ((analyzeFillerWords toLowerCase transcript).fillerBreakdown.map (fun e => e.2)).sum ∧
    (∀ e ∈ (analyzeFillerWords toLowerCase transcript).fillerBreakdown, 1 ≤ e.2) ∧
    ((analyzeFillerWords toLowerCase transcript).fillerBreakdown = [] ↔
      (analyzeFillerWords toLowerCase transcript).totalFillers = 0) ∧
    (analyzeFillerWords asciiLowerCase sampleTranscript).totalFillers = 0 ∧
    (analyzeFillerWords asciiLowerCase sampleTranscript).fillerPercentage = .fin 0 ∧
    (analyzeFillerWords asciiLowerCase sampleTranscript).fillerBreakdown = [] := by
  have hb : (analyzeFillerWords toLowerCase transcript).fillerBreakdown =
      (fillerWords.map (fun w => (w, countWord w transcript))).filter (fun e => e.2 > 0) :=
    fillerLoop_breakdown transcript
  have ht : (analyzeFillerWords toLowerCase transcript).totalFillers =
      (fillerWords.map (fun w => countWord w transcript)).sum := fillerLoop_total transcript
  have hsum : (analyzeFillerWords toLowerCase transcript).totalFillers =
      ((analyzeFillerWords toLowerCase transcript).fillerBreakdown.map (fun e => e.2)).sum := by
    rw [hb, ht, sum_filter_pos, List.map_map]
    rfl
  have hge : ∀ e ∈ (analyzeFillerWords toLowerCase transcript).fillerBreakdown, 1 ≤ e.2 := by
    intro e he
    rw [hb, List.mem_filter] at he
    simpa using he.2
  have hf : (fillerLoop sampleTranscript).2 = 0 := by decide
  have hw : (wordsOf asciiLowerCase sampleTranscript).length = 12 := by decide
  refine ⟨hsum, hge, ?_, hf, ?_, by decide⟩
  · constructor
    · intro he
      rw [hsum, he]
      rfl
    · intro h0
      rw [hsum] at h0
      cases hl : (analyzeFillerWords toLowerCase transcript).fillerBreakdown with
      | nil => rfl
      | cons e l =>
        have h1 := hge e (by rw [hl]; exact List.mem_cons_self _ _)
        rw [hl] at h0
        simp only [List.map_cons, List.sum_cons] at h0
        omega
  · rw [fillerPercentage_eq, hf, hw, jsRound_eq _ 0 (by norm_num) (by norm_num)]
    norm_num

/-! ## Priority areas -/

theorem foldl_hits (f : Criterion × ℚ → Option PriorityArea)
    (entries : List (Criterion × ℚ)) (init : List PriorityArea)
    (step : List PriorityArea → Criterion × ℚ → List PriorityArea)
    (hstep : ∀ areas e, step areas e = areas ++ (f e).toList) :
    entries.foldl step init = init ++ entries.filterMap f := by
  induction entries generalizing init with
  | nil => simp
  | cons e l ih =>
    rw [List.foldl_cons, ih, hstep, List.filterMap_cons]
    cases f e <;> simp

theorem priorityHits_eq (speechAnalysis : SpeechAnalysis) (toeflScore : ToeflScore) :
    priorityHits speechAnalysis toeflScore =
      Spec.priorityHits speechAnalysis toeflScore.breakdown := by
  unfold priorityHits Spec.priorityHits
  have h05 : (0.5 : ℚ) = 1 / 2 := by norm_num
  rw [foldl_hits (fun entry =>
    if entry.2 < 3 then some ⟨entry.1, .high, .lowScore entry.1 entry.2⟩
    else if entry.2 < 4 then some ⟨entry.1, .medium, .moderateScore entry.1 entry.2⟩
    else none)]
  · simp only [h05, gt_iff_lt]
    split_ifs <;> simp
  · intro areas e
    split_ifs <;> simp

theorem removeDuplicates_fold (l u : List PriorityArea) (s : List Criterion) :
    (l.foldl
      (fun (state : List PriorityArea × List Criterion) area =>
        if !state.2.contains area.area then (state.1 ++ [area], state.2 ++ [area.area])
        else state)
      (u, s)).1 =
      u ++ (Spec.firstOfEachArea l).filter (fun a => !s.contains a.area) := by
  induction l generalizing u s with
  | nil => simp [Spec.firstOfEachArea]
  | cons a l ih =>
    rw [List.foldl_cons]
    by_cases hs : s.contains a.area = true
    · simp only [hs, Bool.not_true, Bool.false_eq_true, if_false]
      rw [ih, Spec.firstOfEachArea, List.filter_cons]
      simp only [hs, Bool.not_true, Bool.false_eq_true, if_false, List.filter_filter]
      congr 1
      apply List.filter_congr
      intro x _
      by_cases hx : s.contains x.area = true
      · have hx2 : x.area ∈ s := by simpa using hx
        simp [hx2]
      · have hne : x.area ≠ a.area := by
          intro e
          rw [e] at hx
          exact hx hs
        simp [hx, hne]
    · rw [Bool.not_eq_true] at hs
      simp only [hs, Bool.not_false, if_true]
      rw [ih, Spec.firstOfEachArea, List.filter_cons]
      simp only [hs, Bool.not_false, if_true, List.filter_filter, List.append_assoc,
        List.singleton_append]
      congr 2
      apply List.filter_congr
      intro x _
      by_cases hx : x.area = a.area
      · simp [hx]
      · simp [hx, List.contains_eq_any_beq, List.any_append, Ne.symm hx]

theorem removeDuplicates_eq (l : List PriorityArea) :
    (removeDuplicates l).1 = Spec.firstOfEachArea l := by
  unfold removeDuplicates
  rw [removeDuplicates_fold]
  simp

theorem orderedInsert_skip (r : PriorityArea → PriorityArea → Prop) [DecidableRel r]
    (a : PriorityArea) (pre rest : List PriorityArea) (h : ∀ b ∈ pre, ¬ r a b) :
    List.orderedInsert r a (pre ++ rest) = pre ++ List.orderedInsert r a rest := by
  induction pre with
  | nil => rfl
  | cons b pre ih =>
    rw [List.cons_append, List.orderedInsert, if_neg (h b (List.mem_cons_self _ _)),
      ih (fun c hc => h c (List.mem_cons_of_mem _ hc))]
    rfl

theorem orderedInsert_all (r : PriorityArea → PriorityArea → Prop) [DecidableRel r]
    (a : PriorityArea) (rest : List PriorityArea) (h : ∀ b ∈ rest, r a b) :
    List.orderedInsert r a rest = a :: rest := by
  cases rest with
  | nil => rfl
  | cons b rest => rw [List.orderedInsert, if_pos (h b (List.mem_cons_self _ _))]

theorem sortByPriority_eq (l : List PriorityArea) :
    sortByPriority l = Spec.stableByPriority l := by
  unfold sortByPriority
  induction l with
  | nil => rfl
  | cons a l ih =>
    rw [List.insertionSort, ih]
    unfold Spec.stableByPriority
    have hH : ∀ b ∈ l.filter (fun a => decide (a.priority = .high)), b.priority = .high := by
      intro b hb
      simpa using (List.mem_filter.mp hb).2
    have hM : ∀ b ∈ l.filter (fun a => decide (a.priority = .medium)), b.priority = .medium := by
      intro b hb
      simpa using (List.mem_filter.mp hb).2
    have hL : ∀ b ∈ l.filter (fun a => decide (a.priority = .low)), b.priority = .low := by
      intro b hb
      simpa using (List.mem_filter.mp hb).2
    cases hp : a.priority with
    | high =>
      rw [orderedInsert_all]
      · simp [List.filter_cons, hp]
      · intro b _
        rw [hp]
        cases b.priority <;> decide
    | medium =>
      rw [List.append_assoc, orderedInsert_skip, orderedInsert_all]
      · simp [List.filter_cons, hp]
      · intro b hb
        rw [hp]
        rcases List.mem_append.mp hb with hb | hb
        · rw [hM b hb]; decide
        · rw [hL b hb]; decide
      · intro b hb
        rw [hp, hH b hb]
        decide
    | low =>
      rw [orderedInsert_skip, orderedInsert_all]
      · simp [List.filter_cons, hp]
      · intro b hb
        rw [hp, hL b hb]
        decide
      · intro b hb
        rw [hp]
        rcases List.mem_append.mp hb with hb | hb
        · rw [hH b hb]; decide
        · rw [hM b hb]; decide

theorem firstOfEachArea_nodup (l : List PriorityArea) :
    ((Spec.firstOfEachArea l).map (fun a => a.area)).Nodup := by
  induction l with
  | nil => exact List.nodup_nil
  | cons a l ih =>
    rw [Spec.firstOfEachArea, List.map_cons, List.nodup_cons]
    constructor
    · intro hmem
      obtain ⟨x, hx, hxa⟩ := List.mem_map.mp hmem
      have := (List.mem_filter.mp hx).2
      simp only [decide_eq_true_eq] at this
      exact this hxa
    · exact List.Nodup.sublist ((List.filter_sublist _).map _) ih

/-- C29: for every speech analysis and every assessment (every breakdown of
sub-scores), the list returned by `identifyPriorityAreas` has no two entries
with the same area name. -/
theorem identifyPriorityAreas_nodup (speechAnalysis : SpeechAnalysis)
    (toeflScore : ToeflScore) :
    ((identifyPriorityAreas speechAnalysis toeflScore).map (fun a => a.area)).Nodup := by
  unfold identifyPriorityAreas sortByPriority
  rw [removeDuplicates_eq]
  exact ((List.perm_insertionSort _ _).map _).nodup_iff.mpr (firstOfEachArea_nodup _)

/-- C30: `identifyPriorityAreas` equals the reference definition: the hit
list in evaluation order (the four lexical triggers, then the criteria of
the breakdown in order, score < 3 high, otherwise score < 4 medium), of
which only the first hit of each area name is kept, ordered so that the
high entries come first, then the medium ones, each group in its first-seen
order. -/
theorem identifyPriorityAreas_eq_reference (speechAnalysis : SpeechAnalysis)
    (toeflScore : ToeflScore) :
    identifyPriorityAreas speechAnalysis toeflScore =
      Spec.identifyPriorityAreas speechAnalysis toeflScore.breakdown := by
  unfold identifyPriorityAreas Spec.identifyPriorityAreas
  rw [removeDuplicates_eq, sortByPriority_eq, priorityHits_eq]

/-! ## Repetitive words -/

theorem tableInv_nil : TableInv [] [] := by
  refine ⟨List.nodup_nil, ?_, ?_⟩
  · intro e he
    simp at he
  · intro w hw
    simp at hw

theorem tableInv_step (ws : List JsString) (table : List (JsString × Option Nat))
    (word : JsString) (h : TableInv ws table) :
    TableInv (ws ++ [word]) (bumpFrequency table word) := by
  obtain ⟨hnd, hval, hkey⟩ := h
  unfold bumpFrequency
  by_cases hproto : word = js "__proto__"
  · rw [if_pos hproto]
    refine ⟨hnd, ?_, ?_⟩
    · intro e he
      obtain ⟨h1, h2, h3⟩ := hval e he
      refine ⟨List.mem_append_left _ h1, h2, ?_⟩
      have hne : ¬ (word = e.1) := by
        rw [hproto]
        exact fun e' => h2 e'.symm
      rw [h3, List.count_append, List.count_singleton]
      simp [hne]
    · intro w hw hwp
      rcases List.mem_append.mp hw with hw | hw
      · exact hkey w hw hwp
      · rw [List.mem_singleton] at hw
        exact absurd (hw.trans hproto) hwp
  · rw [if_neg hproto]
    by_cases hany : table.any (fun entry => entry.1 == word) = true
    · rw [if_pos hany]
      have hmapfst : (table.map (fun entry =>
          if entry.1 == word then (entry.1, entry.2.map (fun n => n + 1)) else entry)).map Prod.fst
          = table.map Prod.fst := by
        rw [List.map_map]
        apply List.map_congr_left
        intro e _
        simp only [Function.comp]
        split_ifs <;> rfl
      have hin : word ∈ table.map Prod.fst := by
        rw [List.any_eq_true] at hany
        obtain ⟨e, he, hew⟩ := hany
        rw [beq_iff_eq] at hew
        exact List.mem_map.mpr ⟨e, he, hew⟩
      refine ⟨by rw [hmapfst]; exact hnd, ?_, ?_⟩
      · intro e' he'
        obtain ⟨e, he, hee⟩ := List.mem_map.mp he'
        obtain ⟨h1, h2, h3⟩ := hval e he
        by_cases hew : e.1 = word
        · have hb : (e.1 == word) = true := by rw [beq_iff_eq]; exact hew
          rw [if_pos hb] at hee
          subst hee
          refine ⟨List.mem_append_left _ h1, h2, ?_⟩
          simp only []
          rw [h3, List.count_append, List.count_singleton]
          have hb2 : (word == e.1) = true := by rw [beq_iff_eq]; exact hew.symm
          rw [if_pos hb2]
          split_ifs <;> rfl
        · have hb : ¬ ((e.1 == word) = true) := by rw [beq_iff_eq]; exact hew
          rw [if_neg hb] at hee
          subst hee
          refine ⟨List.mem_append_left _ h1, h2, ?_⟩
          rw [h3, List.count_append, List.count_singleton]
          have hb2 : ¬ ((word == e.1) = true) := by
            rw [beq_iff_eq]
            exact fun e' => hew e'.symm
          rw [if_neg hb2, Nat.add_zero]
      · intro w hw hwp
        rw [hmapfst]
        rcases List.mem_append.mp hw with hw | hw
        · exact hkey w hw hwp
        · rw [List.mem_singleton] at hw
          rw [hw]
          exact hin
    · rw [if_neg hany]
      have hnotin : word ∉ table.map Prod.fst := by
        intro hin
        apply hany
        rw [List.any_eq_true]
        obtain ⟨e, he, hew⟩ := List.mem_map.mp hin
        exact ⟨e, he, by rw [beq_iff_eq]; exact hew⟩
      have hnotws : word ∉ ws := fun hw => hnotin (hkey word hw hproto)
      have hcount : (ws ++ [word]).count word = 1 := by
        rw [List.count_append, List.count_singleton_self, List.count_eq_zero_of_not_mem hnotws]
      have hold : ∀ e ∈ table, e.1 ∈ ws ++ [word] ∧ e.1 ≠ js "__proto__" ∧
          e.2 = if inheritedKeys.any (fun key => js key == e.1) then none
            else some ((ws ++ [word]).count e.1) := by
        intro e he
        obtain ⟨h1, h2, h3⟩ := hval e he
        refine ⟨List.mem_append_left _ h1, h2, ?_⟩
        have hne : ¬ ((word == e.1) = true) := by
          rw [beq_iff_eq]
          intro e'
          exact hnotin (List.mem_map.mpr ⟨e, he, e'.symm⟩)
        rw [h3, List.count_append, List.count_singleton, if_neg hne, Nat.add_zero]
      have hkeys : ∀ (v : Option Nat), ∀ w ∈ ws ++ [word], w ≠ js "__proto__" →
          w ∈ (table ++ [(word, v)]).map Prod.fst := by
        intro v w hw hwp
        rw [List.map_append, List.mem_append]
        rcases List.mem_append.mp hw with hw | hw
        · exact Or.inl (hkey w hw hwp)
        · right
          rw [List.mem_singleton] at hw
          simp [hw]
      have hnodup : ∀ (v : Option Nat), ((table ++ [(word, v)]).map Prod.fst).Nodup := by
        intro v
        rw [List.map_append, List.nodup_append]
        refine ⟨hnd, by simp, ?_⟩
        intro a ha hb
        simp only [List.map_cons, List.map_nil, List.mem_singleton] at hb
        exact hnotin (hb ▸ ha)
      by_cases hinh : inheritedKeys.any (fun key => js key == word) = true
      · rw [if_pos hinh]
        refine ⟨hnodup none, ?_, hkeys none⟩
        intro e he
        rcases List.mem_append.mp he with he | he
        · exact hold e he
        · rw [List.mem_singleton] at he
          subst he
          exact ⟨by simp, hproto, by simp only [hinh, if_true]⟩
      · rw [if_neg hinh]
        refine ⟨hnodup (some 1), ?_, hkeys (some 1)⟩
        intro e he
        rcases List.mem_append.mp he with he | he
        · exact hold e he
        · rw [List.mem_singleton] at he
          subst he
          exact ⟨by simp, hproto, by simp only [hinh, Bool.false_eq_true, if_false, hcount]⟩

theorem tableInv_fold (ws : List JsString) : TableInv ws (ws.foldl bumpFrequency []) := by
  induction ws using List.reverseRecOn with
  | nil => exact tableInv_nil
  | append_singleton l a ih =>
    rw [List.foldl_append, List.foldl_cons, List.foldl_nil]
    exact tableInv_step l _ a ih

theorem insertIndexed_perm (e : Nat × JsString × Option Nat)
    (l : List (Nat × JsString × Option Nat)) : (insertIndexed e l).Perm (e :: l) := by
  induction l with
  | nil => exact List.Perm.refl _
  | cons x xs ih =>
    unfold insertIndexed
    split_ifs
    · exact List.Perm.refl _
    · exact ((List.Perm.cons x ih).trans (List.Perm.swap e x xs))

theorem indexed_fold_perm (l : List (JsString × Option Nat))
    (acc : List (Nat × JsString × Option Nat)) :
    ((l.foldl
      (fun acc entry =>
        match arrayIndex entry.1 with
        | some n => insertIndexed (n, entry) acc
        | none => acc) acc).map (fun e => e.2)).Perm
      (acc.map (fun e => e.2) ++ l.filter (fun entry => (arrayIndex entry.1).isSome)) := by
  induction l generalizing acc with
  | nil => simp
  | cons e l ih =>
    rw [List.foldl_cons, List.filter_cons]
    cases hidx : arrayIndex e.1 with
    | none =>
      simp only [Option.isSome_none, Bool.false_eq_true, if_false]
      exact ih acc
    | some n =>
      simp only [Option.isSome_some, if_true]
      refine (ih (insertIndexed (n, e) acc)).trans ?_
      have h1 : ((insertIndexed (n, e) acc).map (fun e => e.2)).Perm
          (e :: acc.map (fun e => e.2)) := by
        have := (insertIndexed_perm (n, e) acc).map (fun e => e.2)
        simpa using this
      refine (List.Perm.append_right _ h1).trans ?_
      rw [List.cons_append]
      exact List.perm_middle.symm

theorem objectEntries_perm (table : List (JsString × Option Nat)) :
    (objectEntries table).Perm table := by
  unfold objectEntries
  have h := indexed_fold_perm table []
  simp only [List.map_nil, List.nil_append] at h
  refine (List.Perm.append_right _ h).trans ?_
  have hnone : (fun entry : JsString × Option Nat => (arrayIndex entry.1).isNone) =
      (fun entry => !(arrayIndex entry.1).isSome) := by
    funext entry
    cases arrayIndex entry.1 <;> rfl
  rw [hnone]
  exact List.filter_append_perm _ table

theorem repetitive_entry_iff (e : JsString × Option Nat) (w : JsString) (n : Nat) :
    (match e.2 with
      | some count =>
        if count > 3 && e.1.length > 3 then some (⟨e.1, count⟩ : WordCount) else none
      | none => none) = some ⟨w, n⟩ ↔
    e = (w, some n) ∧ 3 < n ∧ 3 < w.length := by
  obtain ⟨k, v⟩ := e
  cases v with
  | none => simp
  | some count =>
    simp only [gt_iff_lt, Bool.and_eq_true, decide_eq_true_eq]
    split_ifs with hc
    · simp only [Option.some.injEq, WordCount.mk.injEq, Prod.mk.injEq]
      constructor
      · rintro ⟨rfl, rfl⟩
        exact ⟨⟨rfl, rfl⟩, hc.1, hc.2⟩
      · rintro ⟨⟨rfl, rfl⟩, _, _⟩
        exact ⟨rfl, rfl⟩
    · simp only [Prod.mk.injEq, Option.some.injEq, false_iff, not_and, not_lt]
      rintro ⟨rfl, rfl⟩ h3
      by_contra hlen
      exact hc ⟨h3, by omega⟩

theorem isPrototypeName_eq_false (w : JsString) :
    isPrototypeName w = false ↔
      w ≠ js "__proto__" ∧ inheritedKeys.any (fun key => js key == w) = false := by
  unfold isPrototypeName
  rw [Bool.or_eq_false_iff, beq_eq_false_iff_ne]

theorem mem_table_iff (ws : List JsString) (table : List (JsString × Option Nat))
    (h : TableInv ws table) (w : JsString) (n : Nat) :
    (w, some n) ∈ table ↔ w ∈ ws ∧ isPrototypeName w = false ∧ n = ws.count w := by
  obtain ⟨_, hval, hkey⟩ := h
  rw [isPrototypeName_eq_false]
  constructor
  · intro he
    obtain ⟨h1, h2, h3⟩ := hval _ he
    simp only [] at h1 h2 h3
    by_cases hinh : inheritedKeys.any (fun key => js key == w) = true
    · rw [if_pos hinh] at h3
      exact absurd h3 (by simp)
    · rw [if_neg hinh] at h3
      rw [Bool.not_eq_true] at hinh
      exact ⟨h1, ⟨h2, hinh⟩, Option.some.inj h3⟩
  · rintro ⟨h1, ⟨h2, hinh⟩, h3⟩
    obtain ⟨e, he, hew⟩ := List.mem_map.mp (hkey w h1 h2)
    obtain ⟨_, _, hv⟩ := hval e he
    rw [hew, hinh] at hv
    simp only [Bool.false_eq_true, if_false] at hv
    have : e = (w, some n) := by
      rw [h3, ← hv, ← hew]
    rw [← this]
    exact he

theorem repetitiveWords_mem_iff (toLowerCase : JsString → JsString) (transcript : JsString)
    (w : JsString) (n : Nat) :
    (⟨w, n⟩ : WordCount) ∈ (analyzeClarity toLowerCase transcript).repetitiveWords ↔
      w ∈ wordsOf toLowerCase transcript ∧ isPrototypeName w = false ∧
        n = (wordsOf toLowerCase transcript).count w ∧ 3 < n ∧ 3 < w.length := by
  have hinv := tableInv_fold (wordsOf toLowerCase transcript)
  show (⟨w, n⟩ : WordCount) ∈
    (objectEntries ((wordsOf toLowerCase transcript).foldl bumpFrequency [])).filterMap _ ↔ _
  rw [List.mem_filterMap]
  constructor
  · rintro ⟨e, he, hF⟩
    obtain ⟨rfl, h3, hlen⟩ := (repetitive_entry_iff e w n).mp hF
    have hmem := (objectEntries_perm _).mem_iff.mp he
    obtain ⟨h1, h2, h4⟩ := (mem_table_iff _ _ hinv w n).mp hmem
    exact ⟨h1, h2, h4, h3, hlen⟩
  · rintro ⟨h1, h2, h4, h3, hlen⟩
    refine ⟨(w, some n), (objectEntries_perm _).mem_iff.mpr
      ((mem_table_iff _ _ hinv w n).mpr ⟨h1, h2, h4⟩), ?_⟩
    exact (repetitive_entry_iff (w, some n) w n).mpr ⟨rfl, h3, hlen⟩

theorem repetitiveWords_nodup (toLowerCase : JsString → JsString) (transcript : JsString) :
    ((analyzeClarity toLowerCase transcript).repetitiveWords.map (fun r => r.word)).Nodup := by
  have hinv := tableInv_fold (wordsOf toLowerCase transcript)
  have hnd : ((objectEntries ((wordsOf toLowerCase transcript).foldl bumpFrequency [])).map
      Prod.fst).Nodup :=
    ((objectEntries_perm _).map _).nodup_iff.mpr hinv.1
  show ((List.filterMap _
    (objectEntries ((wordsOf toLowerCase transcript).foldl bumpFrequency []))).map
      (fun r : WordCount => r.word)).Nodup
  unfold List.Nodup at hnd ⊢
  rw [List.pairwise_map] at hnd ⊢
  refine List.Pairwise.filterMap _ ?_ hnd
  intro a a' hne b hb b' hb'
  obtain ⟨bw, bn⟩ := b
  obtain ⟨bw', bn'⟩ := b'
  obtain ⟨rfl, _, _⟩ := (repetitive_entry_iff a bw bn).mp hb
  obtain ⟨rfl, _, _⟩ := (repetitive_entry_iff a' bw' bn').mp hb'
  exact hne

/-- C22, the code on every transcript and at a failing input: a word with
its count is listed in `repetitiveWords` exactly when it is a lower-cased
whitespace-separated word that is not the name of a member of
`Object.prototype`, the count is its number of occurrences, and both the
count and the length exceed 3; no word is listed twice.  The word
`constructor` occurs 4 times in
`constructor constructor constructor constructor` and has 11 characters,
yet the list is empty. -/
theorem repetitiveWords_characterization (toLowerCase : JsString → JsString)
    (transcript : JsString) :
    (∀ (w : JsString) (n : Nat),
      (⟨w, n⟩ : WordCount) ∈ (analyzeClarity toLowerCase transcript).repetitiveWords ↔
        w ∈ wordsOf toLowerCase transcript ∧ isPrototypeName w = false ∧
          n = (wordsOf toLowerCase transcript).count w ∧ 3 < n ∧ 3 < w.length) ∧
    ((analyzeClarity toLowerCase transcript).repetitiveWords.map (fun r => r.word)).Nodup ∧
    (wordsOf asciiLowerCase (js "constructor constructor constructor constructor")).count
      (js "constructor") = 4 ∧
    (js "constructor").length = 11 ∧
    (analyzeClarity asciiLowerCase
      (js "constructor constructor constructor constructor")).repetitiveWords = [] :=
  ⟨repetitiveWords_mem_iff toLowerCase transcript, repetitiveWords_nodup toLowerCase transcript,
    by decide, by decide, by decide⟩


/-! ## The planner tables -/

/-- C31: over the key order `Beginner`, `Lower Intermediate`, `Intermediate`,
`Upper Intermediate`, `Advanced` of `this.levels`, `getNextLevel` returns for
each of the first four levels the level at the next index, and
`getNextLevel("Advanced")` is `Advanced`. -/
theorem getNextLevel_successor :
    levelNames =
      ["Beginner", "Lower Intermediate", "Intermediate", "Upper Intermediate", "Advanced"] ∧
    (∀ i, i < 4 → getNextLevel (levelNames.getD i "") = levelNames.getD (i + 1) "") ∧
    getNextLevel "Beginner" = "Lower Intermediate" ∧
    getNextLevel "Lower Intermediate" = "Intermediate" ∧
    getNextLevel "Intermediate" = "Upper Intermediate" ∧
    getNextLevel "Upper Intermediate" = "Advanced" ∧
    getNextLevel "Advanced" = "Advanced" := by
  refine ⟨by decide, ?_, by decide, by decide, by decide, by decide, by decide⟩
  intro i hi
  interval_cases i <;> decide

/-! ## Exercises and the weekly plan -/

theorem assign_mem {β : Type} (object : List (Criterion × β)) (key : Criterion) (value : β)
    (entry : Criterion × β) (h : entry ∈ assign object key value) :
    entry = (key, value) ∨ entry ∈ object := by
  unfold assign at h
  split_ifs at h
  · obtain ⟨e, he, hx⟩ := List.mem_map.mp h
    split_ifs at hx
    · exact Or.inl hx.symm
    · exact Or.inr (hx ▸ he)
  · rcases List.mem_append.mp h with h | h
    · exact Or.inr h
    · exact Or.inl (List.mem_singleton.mp h)

theorem assign_keys {β : Type} (object : List (Criterion × β)) (key : Criterion) (value : β) :
    (assign object key value).map Prod.fst =
      if key ∈ object.map Prod.fst then object.map Prod.fst else object.map Prod.fst ++ [key] := by
  unfold assign
  by_cases h : key ∈ object.map Prod.fst
  · have hany : object.any (fun entry => entry.1 == key) = true := by
      obtain ⟨e, he, hk⟩ := List.mem_map.mp h
      exact List.any_eq_true.mpr ⟨e, he, by simp [hk]⟩
    rw [if_pos hany, if_pos h, List.map_map]
    apply List.map_congr_left
    intro e _
    by_cases hk : e.1 = key
    · simp [hk]
    · simp [hk]
  · have hany : ¬ object.any (fun entry => entry.1 == key) = true := by
      intro hany
      obtain ⟨e, he, hk⟩ := List.any_eq_true.mp hany
      exact h (List.mem_map.mpr ⟨e, he, by simpa using hk⟩)
    rw [if_neg hany, if_neg h, List.map_append]
    rfl

theorem foldl_assign_mem {β : Type} (g : PriorityArea → β) (l : List PriorityArea)
    (init : List (Criterion × β)) (entry : Criterion × β)
    (h : entry ∈ l.foldl (fun object a => assign object a.area (g a)) init) :
    entry ∈ init ∨ ∃ a ∈ l, entry = (a.area, g a) := by
  induction l generalizing init with
  | nil => exact Or.inl h
  | cons a l ih =>
    rw [List.foldl_cons] at h
    rcases ih _ h with h1 | ⟨b, hb, e⟩
    · rcases assign_mem _ _ _ _ h1 with h2 | h2
      · exact Or.inr ⟨a, List.mem_cons_self _ _, h2⟩
      · exact Or.inl h2
    · exact Or.inr ⟨b, List.mem_cons_of_mem _ hb, e⟩

theorem foldl_assign_keys {β : Type} (g : PriorityArea → β) (l : List PriorityArea)
    (init : List (Criterion × β)) (key : Criterion)
    (h : key ∈ init.map Prod.fst ∨ key ∈ l.map (fun a => a.area)) :
    key ∈ (l.foldl (fun object a => assign object a.area (g a)) init).map Prod.fst := by
  induction l generalizing init with
  | nil =>
    rcases h with h | h
    · exact h
    · simp at h
  | cons a l ih =>
    rw [List.foldl_cons]
    apply ih
    rw [assign_keys]
    rcases h with h | h
    · left
      split_ifs
      · exact h
      · exact List.mem_append_left _ h
    · rw [List.map_cons, List.mem_cons] at h
      rcases h with h | h
      · left
        rw [h]
        split_ifs with hk
        · exact hk
        · exact List.mem_append_right _ (List.mem_singleton_self _)
      · exact Or.inr h

theorem foldl_assign_nodup {β : Type} (g : PriorityArea → β) (l : List PriorityArea)
    (init : List (Criterion × β)) (h : (init.map Prod.fst).Nodup) :
    ((l.foldl (fun object a => assign object a.area (g a)) init).map Prod.fst).Nodup := by
  induction l generalizing init with
  | nil => exact h
  | cons a l ih =>
    rw [List.foldl_cons]
    apply ih
    rw [assign_keys]
    split_ifs with hk
    · exact h
    · exact List.Nodup.append h (List.nodup_singleton _)
        (by
          intro x hx hx2
          rw [List.mem_singleton] at hx2
          exact hk (hx2 ▸ hx))

theorem slices_append (l : List String) : l.take 2 ++ (l.drop 2).take 2 ++ l.drop 4 = l := by
  have h : l.drop 4 = (l.drop 2).drop 2 := by rw [List.drop_drop]
  rw [h, List.append_assoc, List.take_append_drop, List.take_append_drop]

/-- C32: for every priority-area list (its areas are among the five known
ones), the object built by `generateExercises` has exactly one entry for each
area of the list, and every entry holds as `daily` the first 2 exercises of
the fixed list of its area, as `weekly` the next 2 and as `monthly` the
remainder (1 exercise), so that `daily ++ weekly ++ monthly` is the exercise
list of the area, in order. -/
theorem generateExercises_partition (priorityAreas : List PriorityArea) :
    (∀ a ∈ priorityAreas, a.area ∈ (generateExercises priorityAreas).map Prod.fst) ∧
    ((generateExercises priorityAreas).map Prod.fst).Nodup ∧
    (∀ entry ∈ generateExercises priorityAreas,
      (∃ a ∈ priorityAreas, a.area = entry.1) ∧
      entry.2.daily = (improvementAreas entry.1).exercises.take 2 ∧
      entry.2.weekly = ((improvementAreas entry.1).exercises.drop 2).take 2 ∧
      entry.2.monthly = (improvementAreas entry.1).exercises.drop 4 ∧
      entry.2.daily.length = 2 ∧ entry.2.weekly.length = 2 ∧ entry.2.monthly.length = 1 ∧
      entry.2.daily ++ entry.2.weekly ++ entry.2.monthly =
        (improvementAreas entry.1).exercises) := by
  refine ⟨?_, ?_, ?_⟩
  · intro a ha
    exact foldl_assign_keys _ _ _ _ (Or.inr (List.mem_map.mpr ⟨a, ha, rfl⟩))
  · exact foldl_assign_nodup _ _ _ List.nodup_nil
  · intro entry he
    rcases foldl_assign_mem _ _ _ _ he with h | ⟨a, ha, e⟩
    · simp at h
    · subst e
      refine ⟨⟨a, ha, rfl⟩, rfl, rfl, rfl, ?_, ?_, ?_, slices_append _⟩
      · cases a.area <;> rfl
      · cases a.area <;> rfl
      · cases a.area <;> rfl

theorem createWeeklyPlan_fold (l : List PriorityArea) (w : WeeklyPlan) :
    l.foldl
      (fun weeklyPlan entry =>
        let exercises := (improvementAreas entry.area).exercises
        if entry.priority = .high then
          { weeklyPlan with
            monday := weeklyPlan.monday ++ [exercises[0]?]
            wednesday := weeklyPlan.wednesday ++ [exercises[1]?]
            friday := weeklyPlan.friday ++ [exercises[2]?] }
        else if entry.priority = .medium then
          { weeklyPlan with
            tuesday := weeklyPlan.tuesday ++ [exercises[0]?]
            thursday := weeklyPlan.thursday ++ [exercises[1]?] }
        else weeklyPlan)
      w =
    { monday := w.monday ++
        (l.filter (fun a => decide (a.priority = .high))).map
          (fun a => (improvementAreas a.area).exercises[0]?)
      tuesday := w.tuesday ++
        (l.filter (fun a => decide (a.priority = .medium))).map
          (fun a => (improvementAreas a.area).exercises[0]?)
      wednesday := w.wednesday ++
        (l.filter (fun a => decide (a.priority = .high))).map
          (fun a => (improvementAreas a.area).exercises[1]?)
      thursday := w.thursday ++
        (l.filter (fun a => decide (a.priority = .medium))).map
          (fun a => (improvementAreas a.area).exercises[1]?)
      friday := w.friday ++
        (l.filter (fun a => decide (a.priority = .high))).map
          (fun a => (improvementAreas a.area).exercises[2]?)
      saturday := w.saturday
      sunday := w.sunday } := by
  induction l generalizing w with
  | nil => simp
  | cons a l ih =>
    rw [List.foldl_cons, ih]
    cases hp : a.priority <;> simp [List.filter_cons, hp]

/-- C33: for every priority-area list, `createWeeklyPlan` returns the plan
whose Monday, Wednesday and Friday hold, for the high-priority areas in list
order, the exercises at index 0, 1 and 2 of the area, whose Tuesday and
Thursday hold, for the medium-priority areas in list order, the exercises at
index 0 and 1, and whose Saturday and Sunday are empty; the exercise list of
each of the five areas has 5 elements, so each of these reads yields an
exercise string of the area and no entry of the plan is `undefined`. -/
theorem createWeeklyPlan_slots (priorityAreas : List PriorityArea) :
    createWeeklyPlan priorityAreas =
      { monday :=
          (priorityAreas.filter (fun a => decide (a.priority = .high))).map
            (fun a => (improvementAreas a.area).exercises[0]?)
        tuesday :=
          (priorityAreas.filter (fun a => decide (a.priority = .medium))).map
            (fun a => (improvementAreas a.area).exercises[0]?)
        wednesday :=
          (priorityAreas.filter (fun a => decide (a.priority = .high))).map
            (fun a => (improvementAreas a.area).exercises[1]?)
        thursday :=
          (priorityAreas.filter (fun a => decide (a.priority = .medium))).map
            (fun a => (improvementAreas a.area).exercises[1]?)
        friday :=
          (priorityAreas.filter (fun a => decide (a.priority = .high))).map
            (fun a => (improvementAreas a.area).exercises[2]?)
        saturday := []
        sunday := [] } ∧
    (∀ area : Criterion, (improvementAreas area).exercises.length = 5) ∧
    (∀ area : Criterion, ∀ i, i < 3 →
      ∃ text ∈ (improvementAreas area).exercises,
        (improvementAreas area).exercises[i]? = some text) ∧
    (∀ slot ∈ (createWeeklyPlan priorityAreas).monday ++ (createWeeklyPlan priorityAreas).tuesday
        ++ (createWeeklyPlan priorityAreas).wednesday ++ (createWeeklyPlan priorityAreas).thursday
        ++ (createWeeklyPlan priorityAreas).friday ++ (createWeeklyPlan priorityAreas).saturday
        ++ (createWeeklyPlan priorityAreas).sunday,
      ∃ a ∈ priorityAreas, ∃ text ∈ (improvementAreas a.area).exercises, slot = some text) := by
  have hplan := createWeeklyPlan_fold priorityAreas ⟨[], [], [], [], [], [], []⟩
  simp only [List.nil_append] at hplan
  have hlen : ∀ area : Criterion, (improvementAreas area).exercises.length = 5 := by
    intro area
    cases area <;> rfl
  have hread : ∀ area : Criterion, ∀ i, i < 3 →
      ∃ text ∈ (improvementAreas area).exercises,
        (improvementAreas area).exercises[i]? = some text := by
    intro area i hi
    have hlt : i < (improvementAreas area).exercises.length := by rw [hlen]; omega
    exact ⟨(improvementAreas area).exercises[i], List.getElem_mem _,
      List.getElem?_eq_getElem hlt⟩
  refine ⟨hplan, hlen, hread, ?_⟩
  intro slot hslot
  unfold createWeeklyPlan at hslot
  rw [hplan] at hslot
  simp only [List.append_nil, List.mem_append, List.mem_map, List.mem_filter] at hslot
  rcases hslot with (((⟨a, ⟨ha, _⟩, e⟩ | ⟨a, ⟨ha, _⟩, e⟩) | ⟨a, ⟨ha, _⟩, e⟩) | ⟨a, ⟨ha, _⟩, e⟩) |
      ⟨a, ⟨ha, _⟩, e⟩
  · obtain ⟨text, ht, e2⟩ := hread a.area 0 (by omega)
    exact ⟨a, ha, text, ht, by rw [← e, e2]⟩
  · obtain ⟨text, ht, e2⟩ := hread a.area 0 (by omega)
    exact ⟨a, ha, text, ht, by rw [← e, e2]⟩
  · obtain ⟨text, ht, e2⟩ := hread a.area 1 (by omega)
    exact ⟨a, ha, text, ht, by rw [← e, e2]⟩
  · obtain ⟨text, ht, e2⟩ := hread a.area 1 (by omega)
    exact ⟨a, ha, text, ht, by rw [← e, e2]⟩
  · obtain ⟨text, ht, e2⟩ := hread a.area 2 (by omega)
    exact ⟨a, ha, text, ht, by rw [← e, e2]⟩

/-! ## Transition time, variance and confidence -/

theorem numberOr_own (table : List (String × ℚ)) (key : String) (fallback value : ℚ)
    (h : table.lookup key = some value) : numberOr table key fallback = .fin value := by
  simp only [numberOr, readMember, h]

theorem transitionTime_of_lookup (currentLevel nextLevel : String) (m n : ℚ)
    (hm : timeEstimates.lookup currentLevel = some m)
    (hn : timeEstimates.lookup nextLevel = some n) :
    calculateTransitionTime currentLevel nextLevel = .fin (jsRound ((n - m) / 2)) := by
  unfold calculateTransitionTime
  rw [numberOr_own _ _ _ _ hm, numberOr_own _ _ _ _ hn]
  simp only [JsNum.sub]
  rw [JsNum.div_fin _ _ (by norm_num)]
  rfl

/-- C34: for every level `L` of the five, the table `timeEstimates` holds a
number of months for `L` and for `getNextLevel(L)`, and
`calculateTransitionTime(L, getNextLevel(L))` is
`round((months(next) - months(L)) / 2)`: 3 for `Beginner`,
`Lower Intermediate` and `Intermediate`, 6 for `Upper Intermediate` and 0
for `Advanced`. -/
theorem calculateTransitionTime_next :
    timeEstimates =
      [("Beginner", 6), ("Lower Intermediate", 12), ("Intermediate", 18),
        ("Upper Intermediate", 24), ("Advanced", 36)] ∧
    (∀ L ∈ levelNames, ∃ m n : ℚ,
      timeEstimates.lookup L = some m ∧ timeEstimates.lookup (getNextLevel L) = some n ∧
      calculateTransitionTime L (getNextLevel L) = .fin (jsRound ((n - m) / 2))) ∧
    calculateTransitionTime "Beginner" (getNextLevel "Beginner") = .fin 3 ∧
    calculateTransitionTime "Lower Intermediate" (getNextLevel "Lower Intermediate") = .fin 3 ∧
    calculateTransitionTime "Intermediate" (getNextLevel "Intermediate") = .fin 3 ∧
    calculateTransitionTime "Upper Intermediate" (getNextLevel "Upper Intermediate") = .fin 6 ∧
    calculateTransitionTime "Advanced" (getNextLevel "Advanced") = .fin 0 := by
  have h1 : getNextLevel "Beginner" = "Lower Intermediate" := by decide
  have h2 : getNextLevel "Lower Intermediate" = "Intermediate" := by decide
  have h3 : getNextLevel "Intermediate" = "Upper Intermediate" := by decide
  have h4 : getNextLevel "Upper Intermediate" = "Advanced" := by decide
  have h5 : getNextLevel "Advanced" = "Advanced" := by decide
  have l1 : timeEstimates.lookup "Beginner" = some 6 := by decide
  have l2 : timeEstimates.lookup "Lower Intermediate" = some 12 := by decide
  have l3 : timeEstimates.lookup "Intermediate" = some 18 := by decide
  have l4 : timeEstimates.lookup "Upper Intermediate" = some 24 := by decide
  have l5 : timeEstimates.lookup "Advanced" = some 36 := by decide
  refine ⟨rfl, ?_, ?_, ?_, ?_, ?_, ?_⟩
  · intro L hL
    have hmem : L = "Beginner" ∨ L = "Lower Intermediate" ∨ L = "Intermediate" ∨
        L = "Upper Intermediate" ∨ L = "Advanced" := by
      simpa [levelNames, levels] using hL
    rcases hmem with e | e | e | e | e <;> subst e
    · exact ⟨6, 12, l1, h1 ▸ l2, transitionTime_of_lookup _ _ _ _ l1 (h1 ▸ l2)⟩
    · exact ⟨12, 18, l2, h2 ▸ l3, transitionTime_of_lookup _ _ _ _ l2 (h2 ▸ l3)⟩
    · exact ⟨18, 24, l3, h3 ▸ l4, transitionTime_of_lookup _ _ _ _ l3 (h3 ▸ l4)⟩
    · exact ⟨24, 36, l4, h4 ▸ l5, transitionTime_of_lookup _ _ _ _ l4 (h4 ▸ l5)⟩
    · exact ⟨36, 36, l5, h5 ▸ l5, transitionTime_of_lookup _ _ _ _ l5 (h5 ▸ l5)⟩
  · rw [h1, transitionTime_of_lookup _ _ _ _ l1 l2, jsRound_eq _ 3 (by norm_num) (by norm_num)]
    norm_num
  · rw [h2, transitionTime_of_lookup _ _ _ _ l2 l3, jsRound_eq _ 3 (by norm_num) (by norm_num)]
    norm_num
  · rw [h3, transitionTime_of_lookup _ _ _ _ l3 l4, jsRound_eq _ 3 (by norm_num) (by norm_num)]
    norm_num
  · rw [h4, transitionTime_of_lookup _ _ _ _ l4 l5, jsRound_eq _ 6 (by norm_num) (by norm_num)]
    norm_num
  · rw [h5, transitionTime_of_lookup _ _ _ _ l5 l5, jsRound_eq _ 0 (by norm_num) (by norm_num)]
    norm_num

theorem calculateVariance_entries (b : Breakdown) :
    calculateVariance (b.entries.map (fun entry => entry.2)) =
      .fin (Spec.populationVariance b) := by
  simp only [calculateVariance, Breakdown.entries, List.map, List.length_cons, List.length_nil,
    List.foldl, Spec.populationVariance]
  norm_num

theorem populationVariance_nonneg (b : Breakdown) : 0 ≤ Spec.populationVariance b := by
  unfold Spec.populationVariance
  positivity

/-- C35: for every breakdown of five sub-scores, `calculateVariance` on its
values returns their population variance (the squared deviations from the
mean, summed and divided by 5), which is non-negative, and
`calculateConfidence` returns `high` iff that variance is < 0.5, `medium` iff
it is >= 0.5 and < 1.0, and `low` iff it is >= 1.0. -/
theorem calculateConfidence_by_variance (speechAnalysis : SpeechAnalysis)
    (toeflScore : ToeflScore) :
    calculateVariance (toeflScore.breakdown.entries.map (fun entry => entry.2)) =
      .fin (Spec.populationVariance toeflScore.breakdown) ∧
    0 ≤ Spec.populationVariance toeflScore.breakdown ∧
    (calculateConfidence speechAnalysis toeflScore = "high" ↔
      Spec.populationVariance toeflScore.breakdown < 0.5) ∧
    (calculateConfidence speechAnalysis toeflScore = "medium" ↔
      0.5 ≤ Spec.populationVariance toeflScore.breakdown ∧
        Spec.populationVariance toeflScore.breakdown < 1.0) ∧
    (calculateConfidence speechAnalysis toeflScore = "low" ↔
      1.0 ≤ Spec.populationVariance toeflScore.breakdown) := by
  refine ⟨calculateVariance_entries _, populationVariance_nonneg _, ?_, ?_, ?_⟩
  all_goals
    simp only [calculateConfidence, calculateVariance_entries, JsNum.lt_fin, decide_eq_true_eq]
    split_ifs with h1 h2
  · simp [h1]
  · simp [h1]
  · simp [h1]
  · constructor
    · intro h; exact absurd h (by decide)
    · intro h; exact absurd h.2 (by linarith)
  · constructor
    · intro _; exact ⟨not_lt.mp h1, h2⟩
    · intro _; rfl
  · constructor
    · intro h; exact absurd h (by decide)
    · intro h; exact absurd h.2 h2
  · constructor
    · intro h; exact absurd h (by decide)
    · intro h; linarith
  · constructor
    · intro h; exact absurd h (by decide)
    · intro h; linarith
  · constructor
    · intro _; exact not_lt.mp h2
    · intro _; rfl

/-! ## Motivation tips -/

theorem readMember_undefined {α : Type} (table : List (String × α)) (key : String)
    (h1 : key ∉ table.map Prod.fst) (h2 : key ∉ prototypeKeys) :
    readMember table key = .undefined := by
  have hl : table.lookup key = none := by
    rw [List.lookup_eq_none_iff]
    intro p hp
    rw [bne_iff_ne]
    intro hk
    apply h1
    rw [List.mem_map]
    exact ⟨p, hp, hk.symm⟩
  have hc : prototypeKeys.contains key = false := by
    rw [Bool.eq_false_iff]
    intro hc
    exact h2 (by simpa using hc)
  simp only [readMember, hl, hc]
  rfl

theorem createPlan_tips (speechAnalysis : SpeechAnalysis) (toeflScore : ToeflScore)
    (h : toeflScore.level ∈ levelNames) :
    ∃ plan, createPlan speechAnalysis toeflScore = some plan ∧
      plan.motivationTips = getMotivationTips toeflScore.level := by
  have ht : ∀ level ∈ levelNames, (createTimeline level (getNextLevel level)).isSome = true := by
    decide
  have hm : ∀ level ∈ levelNames, (createMilestones level (getNextLevel level)).isSome = true := by
    decide
  obtain ⟨timeline, e1⟩ := Option.isSome_iff_exists.mp (ht _ h)
  obtain ⟨milestones, e2⟩ := Option.isSome_iff_exists.mp (hm _ h)
  simp only [createPlan, e1, e2]
  exact ⟨_, rfl, rfl⟩

theorem createPlan_unknown_level (speechAnalysis : SpeechAnalysis) (toeflScore : ToeflScore)
    (h : toeflScore.level ∉ levelNames) : createPlan speechAnalysis toeflScore = none := by
  have hidx : indexOfLevel toeflScore.level = -1 := by
    unfold indexOfLevel
    rw [List.indexOf_eq_length.mpr h]
    simp
  have hnext : getNextLevel toeflScore.level = "Beginner" := by
    unfold getNextLevel
    rw [hidx]
    decide
  have hm : createMilestones toeflScore.level (getNextLevel toeflScore.level) = none := by
    unfold createMilestones
    rw [hnext, hidx]
    decide
  unfold createPlan
  dsimp only
  rw [hm]
  cases createTimeline toeflScore.level (getNextLevel toeflScore.level) <;> rfl

/-- C36, the claim refuted: `constructor` is not one of the five levels, and
a direct call `getMotivationTips("constructor")` returns the member that the
table `tips` inherits from `Object.prototype`, not the `Intermediate` list. -/
theorem getMotivationTips_constructor :
    "constructor" ∉ levelNames ∧
    getMotivationTips "constructor" = .inherited ∧
    (∃ list, tips.lookup "Intermediate" = some list ∧
      getMotivationTips "constructor" ≠ .own list) := by
  refine ⟨by decide, rfl, _, rfl, ?_⟩
  intro h
  cases h

/-- C36, amended: `getMotivationTips` returns for each of the five levels the
list the table `tips` holds for that level; for every other level string
that is not the name of a member of `Object.prototype` it returns the
`Intermediate` list; for the names of `Object.prototype` members, none of
which is a level, a direct call returns the inherited member.  The method
never fails.  Its only caller `createPlan` raises before the call when the
level is not one of the five, and in the pipeline, where the level comes
from `determineLevel`, the plan always holds the own list of its level. -/
theorem getMotivationTips_by_level (level : String) :
    (level ∈ levelNames →
      ∃ list, tips.lookup level = some list ∧ getMotivationTips level = .own list) ∧
    (level ∉ levelNames → level ∉ prototypeKeys →
      ∃ list, tips.lookup "Intermediate" = some list ∧ getMotivationTips level = .own list) ∧
    (level ∈ prototypeKeys → level ∉ levelNames ∧ getMotivationTips level = .inherited) ∧
    (∀ (speechAnalysis : SpeechAnalysis) (toeflScore : ToeflScore),
      toeflScore.level ∉ levelNames → createPlan speechAnalysis toeflScore = none) ∧
    (∀ (toLowerCase : JsString → JsString) (duration : ℚ) (transcript : JsString),
      ∃ result list, pipeline toLowerCase duration transcript = some result ∧
        result.2.1.level ∈ levelNames ∧
        tips.lookup result.2.1.level = some list ∧
        result.2.2.motivationTips = .own list) := by
  have hkeys : tips.map Prod.fst = levelNames := by decide
  have hown : ∀ l ∈ levelNames,
      ∃ list, tips.lookup l = some list ∧ getMotivationTips l = .own list := by
    intro l h
    have hmem : l = "Beginner" ∨ l = "Lower Intermediate" ∨ l = "Intermediate" ∨
        l = "Upper Intermediate" ∨ l = "Advanced" := by
      simpa [levelNames, levels] using h
    rcases hmem with e | e | e | e | e <;> subst e <;> exact ⟨_, rfl, rfl⟩
  refine ⟨hown level, ?_, ?_, createPlan_unknown_level, ?_⟩
  · intro h1 h2
    have hu : readMember tips level = .undefined :=
      readMember_undefined tips level (hkeys ▸ h1) h2
    refine ⟨_, rfl, ?_⟩
    simp only [getMotivationTips, hu]
    rfl
  · intro h
    have hmem : level = "__proto__" ∨ level = "constructor" ∨ level = "__defineGetter__" ∨
        level = "__defineSetter__" ∨ level = "hasOwnProperty" ∨ level = "__lookupGetter__" ∨
        level = "__lookupSetter__" ∨ level = "isPrototypeOf" ∨
        level = "propertyIsEnumerable" ∨ level = "toString" ∨ level = "valueOf" ∨
        level = "toLocaleString" := by
      simpa [prototypeKeys, inheritedKeys] using h
    rcases hmem with e | e | e | e | e | e | e | e | e | e | e | e <;> subst e <;>
      exact ⟨by decide, rfl⟩
  · intro toLowerCase duration transcript
    have hlevel : (assess transcript (analyze toLowerCase duration transcript)).level ∈
        levelNames := determineLevel_mem _
    obtain ⟨plan, e, hp⟩ := createPlan_tips (analyze toLowerCase duration transcript)
      (assess transcript (analyze toLowerCase duration transcript)) hlevel
    obtain ⟨list, h1, h2⟩ := hown _ hlevel
    refine ⟨(analyze toLowerCase duration transcript,
      assess transcript (analyze toLowerCase duration transcript), plan), list, ?_, hlevel, h1, ?_⟩
    · unfold pipeline
      dsimp only
      rw [e]
    · show plan.motivationTips = .own list
      rw [hp, h2]

/-! ## The lower bounds of the scorers -/

theorem clamp_idle (x : ℚ) (h1 : 1 ≤ x) (h2 : x ≤ 5) : max 1 (min 5 x) = x := by
  rw [min_eq_right h2, max_eq_right h1]

theorem assessFluency_unclamped (speechAnalysis : SpeechAnalysis) :
    assessFluency speechAnalysis =
      5 - (if speechAnalysis.wordsPerMinute.lt (.fin 100) then 1
            else if speechAnalysis.wordsPerMinute.gt (.fin 180) then 1 / 2 else 0)
        - (if speechAnalysis.fillerAnalysis.fillerPercentage.gt (.fin 8) then 1
            else if speechAnalysis.fillerAnalysis.fillerPercentage.gt (.fin 5) then 1 / 2
            else 0)
        - (if speechAnalysis.structureAnalysis.avgSentenceLength.lt (.fin 8) then 1 / 2
            else 0) := by
  rw [assessFluency_formula]
  apply clamp_idle <;> split_ifs <;> norm_num

theorem assessPronunciation_unclamped (speechAnalysis : SpeechAnalysis) :
    assessPronunciation speechAnalysis =
      5 - (if 3 < speechAnalysis.clarityAnalysis.repetitiveWords.length then 1 else 0)
        - (if speechAnalysis.clarityAnalysis.incompleteThoughts.gt (.fin 2) then 1 else 0)
        - (if speechAnalysis.wordsPerMinute.gt (.fin 200) then 1 / 2 else 0) := by
  unfold assessPronunciation
  simp only [gt_iff_lt]
  split_ifs <;> norm_num

theorem assessVocabulary_unclamped (speechAnalysis : SpeechAnalysis) :
    assessVocabulary speechAnalysis =
      5 - (if speechAnalysis.dictionAnalysis.vocabularyDiversity.lt (.fin 0.4) then 1
            else if speechAnalysis.dictionAnalysis.vocabularyDiversity.lt (.fin 0.6) then 1 / 2
            else 0)
        - (if speechAnalysis.dictionAnalysis.vagueWords.gt (.fin 4) then 1
            else if speechAnalysis.dictionAnalysis.vagueWords.gt (.fin 2) then 1 / 2 else 0)
        - (if speechAnalysis.dictionAnalysis.weakWords.gt (.fin 3) then 1 / 2 else 0) := by
  unfold assessVocabulary
  split_ifs <;> norm_num

theorem assessGrammar_unclamped (transcript : JsString) :
    assessGrammar transcript =
      5 - (if 2 < countSubjectVerbErrors transcript then 1
            else if 1 < countSubjectVerbErrors transcript then 1 / 2 else 0)
        - (if 3 < countArticleErrors transcript then 1 / 2 else 0)
        - (if 2 < countTenseErrors transcript then 1 / 2 else 0) := by
  unfold assessGrammar
  simp only [gt_iff_lt]
  split_ifs <;> norm_num

theorem assessCoherence_unclamped (transcript : JsString) :
    assessCoherence transcript =
      5 - (if (connectorCount transcript : ℚ) < ((sentencesOf transcript).length : ℚ) * 0.3
            then 1 / 2 else 0)
        - (if 2 < countTopicShifts transcript then 1 else 0)
        - (if 1 < incompleteSentenceCount (sentencesOf transcript) then 1 / 2 else 0) := by
  unfold assessCoherence
  simp only [gt_iff_lt]
  split_ifs <;> norm_num

theorem scorers_lower (transcript : JsString) (speechAnalysis : SpeechAnalysis) :
    2.5 ≤ assessFluency speechAnalysis ∧ 2.5 ≤ assessPronunciation speechAnalysis ∧
    2.5 ≤ assessVocabulary speechAnalysis ∧ 3.5 ≤ assessGrammar transcript ∧
    3 ≤ assessCoherence transcript := by
  refine ⟨?_, ?_, ?_, ?_, ?_⟩
  · rw [assessFluency_unclamped]; split_ifs <;> norm_num
  · rw [assessPronunciation_unclamped]; split_ifs <;> norm_num
  · rw [assessVocabulary_unclamped]; split_ifs <;> norm_num
  · have ht : ¬ 2 < countTenseErrors transcript := by
      unfold countTenseErrors
      dsimp only
      split_ifs <;> omega
    rw [assessGrammar_unclamped, if_neg ht]
    split_ifs <;> norm_num
  · rw [assessCoherence_unclamped]; split_ifs <;> norm_num

theorem raw_lower (transcript : JsString) (speechAnalysis : SpeechAnalysis) :
    2.775 ≤ calculateTOEFLScore (assess transcript speechAnalysis).breakdown := by
  obtain ⟨h1, h2, h3, h4, h5⟩ := scorers_lower transcript speechAnalysis
  rw [(assess_raw transcript speechAnalysis).2.2, calculateTOEFLScore_eq]
  norm_num at h1 h2 h3 h4 h5 ⊢
  linarith

/-- C37: for every transcript and every speech analysis the clamp of each of
the five scorers leaves the score unchanged (the result is 5 minus the
penalties), `assessFluency`, `assessPronunciation` and `assessVocabulary` are
at least 2.5, `assessGrammar` at least 3.5 and `assessCoherence` at least 3,
so the weighted score and the `overallScore` of `assess` are at least 2.775
and the level of `assess` is neither `Beginner` nor `Lower Intermediate`. -/
theorem lowest_levels_unreachable (transcript : JsString) (speechAnalysis : SpeechAnalysis) :
    (assessFluency speechAnalysis =
      5 - (if speechAnalysis.wordsPerMinute.lt (.fin 100) then 1
            else if speechAnalysis.wordsPerMinute.gt (.fin 180) then 1 / 2 else 0)
        - (if speechAnalysis.fillerAnalysis.fillerPercentage.gt (.fin 8) then 1
            else if speechAnalysis.fillerAnalysis.fillerPercentage.gt (.fin 5) then 1 / 2
            else 0)
        - (if speechAnalysis.structureAnalysis.avgSentenceLength.lt (.fin 8) then 1 / 2
            else 0)) ∧
    (assessPronunciation speechAnalysis =
      5 - (if 3 < speechAnalysis.clarityAnalysis.repetitiveWords.length then 1 else 0)
        - (if speechAnalysis.clarityAnalysis.incompleteThoughts.gt (.fin 2) then 1 else 0)
        - (if speechAnalysis.wordsPerMinute.gt (.fin 200) then 1 / 2 else 0)) ∧
    (assessVocabulary speechAnalysis =
      5 - (if speechAnalysis.dictionAnalysis.vocabularyDiversity.lt (.fin 0.4) then 1
            else if speechAnalysis.dictionAnalysis.vocabularyDiversity.lt (.fin 0.6) then 1 / 2
            else 0)
        - (if speechAnalysis.dictionAnalysis.vagueWords.gt (.fin 4) then 1
            else if speechAnalysis.dictionAnalysis.vagueWords.gt (.fin 2) then 1 / 2 else 0)
        - (if speechAnalysis.dictionAnalysis.weakWords.gt (.fin 3) then 1 / 2 else 0)) ∧
    (assessGrammar transcript =
      5 - (if 2 < countSubjectVerbErrors transcript then 1
            else if 1 < countSubjectVerbErrors transcript then 1 / 2 else 0)
        - (if 3 < countArticleErrors transcript then 1 / 2 else 0)
        - (if 2 < countTenseErrors transcript then 1 / 2 else 0)) ∧
    (assessCoherence transcript =
      5 - (if (connectorCount transcript : ℚ) < ((sentencesOf transcript).length : ℚ) * 0.3
            then 1 / 2 else 0)
        - (if 2 < countTopicShifts transcript then 1 else 0)
        - (if 1 < incompleteSentenceCount (sentencesOf transcript) then 1 / 2 else 0)) ∧
    2.5 ≤ assessFluency speechAnalysis ∧ 2.5 ≤ assessPronunciation speechAnalysis ∧
    2.5 ≤ assessVocabulary speechAnalysis ∧ 3.5 ≤ assessGrammar transcript ∧
    3 ≤ assessCoherence transcript ∧
    2.775 ≤ calculateTOEFLScore (assess transcript speechAnalysis).breakdown ∧
    2.775 ≤ (assess transcript speechAnalysis).overallScore ∧
    (assess transcript speechAnalysis).level ≠ "Beginner" ∧
    (assess transcript speechAnalysis).level ≠ "Lower Intermediate" := by
  obtain ⟨h1, h2, h3, h4, h5⟩ := scorers_lower transcript speechAnalysis
  have hraw := raw_lower transcript speechAnalysis
  have hlevel : (assess transcript speechAnalysis).level = "Intermediate" ∨
      (assess transcript speechAnalysis).level = "Upper Intermediate" ∨
      (assess transcript speechAnalysis).level = "Advanced" := by
    rw [(assess_raw transcript speechAnalysis).1]
    unfold determineLevel
    split_ifs with a b c
    · exact Or.inr (Or.inr rfl)
    · exact Or.inr (Or.inl rfl)
    · exact Or.inl rfl
    · exfalso
      apply c
      norm_num at hraw ⊢
      linarith
    · exfalso
      apply c
      norm_num at hraw ⊢
      linarith
  refine ⟨assessFluency_unclamped _, assessPronunciation_unclamped _,
    assessVocabulary_unclamped _, assessGrammar_unclamped _, assessCoherence_unclamped _,
    h1, h2, h3, h4, h5, hraw, ?_, ?_, ?_⟩
  · rw [(assess_raw transcript speechAnalysis).2.1]
    have h28 : (28 : ℤ) ≤
        jsRound (calculateTOEFLScore (assess transcript speechAnalysis).breakdown * 10) := by
      rw [le_jsRound_iff]
      norm_num at hraw ⊢
      linarith
    have h28q : (28 : ℚ) ≤
        (jsRound (calculateTOEFLScore (assess transcript speechAnalysis).breakdown * 10) : ℚ) := by
      exact_mod_cast h28
    rw [le_div_iff₀ (by norm_num)]
    norm_num
    linarith
  · rcases hlevel with e | e | e <;> rw [e] <;> decide
  · rcases hlevel with e | e | e <;> rw [e] <;> decide

/-! ## The empty transcript -/

theorem empty_wordsPerMinute_le (duration : ℚ) (hd : 1 ≤ duration) :
    ∃ n : ℤ, (analyze asciiLowerCase duration (js "")).wordsPerMinute = .fin n ∧ n ≤ 60 := by
  have hw : (wordsOf asciiLowerCase (js "")).length = 1 := by decide
  have hpos : (0 : ℚ) < duration := by linarith
  refine ⟨jsRound (1 / duration * 60), ?_, ?_⟩
  · rw [wordsPerMinute_eq _ _ _ hpos.ne', hw, Nat.cast_one]
  · rw [jsRound_le_iff, div_mul_eq_mul_div, div_lt_iff₀ hpos]
    push_cast
    linarith

theorem empty_fluency (duration : ℚ) (hd : 1 ≤ duration) :
    assessFluency (analyze asciiLowerCase duration (js "")) = 4 := by
  obtain ⟨n, h1, hn⟩ := empty_wordsPerMinute_le duration hd
  have hnq : (n : ℚ) ≤ 60 := by exact_mod_cast hn
  have hw : (wordsOf asciiLowerCase (js "")).length = 1 := by decide
  have hf : (fillerLoop (js "")).2 = 0 := by decide
  have h2 := fillerPercentage_eq asciiLowerCase (js "")
  rw [hw, hf, jsRound_eq _ 0 (by norm_num) (by norm_num)] at h2
  have h3 := avgSentenceLength_nan (js "") (by decide)
  have h2a : (analyze asciiLowerCase duration (js "")).fillerAnalysis =
      analyzeFillerWords asciiLowerCase (js "") := rfl
  have h3a : (analyze asciiLowerCase duration (js "")).structureAnalysis =
      analyzeSentenceStructure (js "") := rfl
  have hlt : (n : ℚ) < 100 := by linarith
  have hnan : JsNum.nan.lt (.fin 8) = false := rfl
  rw [assessFluency_unclamped, h1, h2a, h2, h3a, h3]
  simp only [JsNum.lt_fin, JsNum.gt_fin, hnan, hlt, decide_True, if_true]
  norm_num

theorem empty_pronunciation (duration : ℚ) (hd : 1 ≤ duration) :
    assessPronunciation (analyze asciiLowerCase duration (js "")) = 5 := by
  obtain ⟨n, h1, hn⟩ := empty_wordsPerMinute_le duration hd
  have hnq : (n : ℚ) ≤ 60 := by exact_mod_cast hn
  have hr : (analyzeClarity asciiLowerCase (js "")).repetitiveWords = [] := by decide
  have hi : incompleteThoughtCount (js "") = 0 := by decide
  have h2 : (analyze asciiLowerCase duration (js "")).clarityAnalysis =
      analyzeClarity asciiLowerCase (js "") := rfl
  have h3 : (analyzeClarity asciiLowerCase (js "")).incompleteThoughts
      = .fin (incompleteThoughtCount (js "")) := rfl
  have hlt : ¬ (200 : ℚ) < n := by linarith
  rw [assessPronunciation_unclamped, h1, h2, hr, h3, hi]
  simp only [JsNum.gt_fin, hlt, decide_False]
  norm_num

theorem empty_vocabulary (duration : ℚ) :
    assessVocabulary (analyze asciiLowerCase duration (js "")) = 5 := by
  have hw : (wordsOf asciiLowerCase (js "")).length = 1 := by decide
  have hu : (wordsOf asciiLowerCase (js "")).eraseDups.length = 1 := by decide
  have hd := vocabularyDiversity_eq asciiLowerCase (js "")
  rw [hu, hw, Nat.cast_one, jsRound_eq _ 1000 (by norm_num) (by norm_num)] at hd
  have hv : countListed vagueWords (js "") = 0 := by decide
  have hk : countListed weakWords (js "") = 0 := by decide
  have h2 : (analyze asciiLowerCase duration (js "")).dictionAnalysis =
      analyzeDiction asciiLowerCase (js "") := rfl
  have h3 : (analyzeDiction asciiLowerCase (js "")).vagueWords
      = .fin (countListed vagueWords (js "")) := rfl
  have h4 : (analyzeDiction asciiLowerCase (js "")).weakWords
      = .fin (countListed weakWords (js "")) := rfl
  unfold assessVocabulary
  rw [h2, hd, h3, h4, hv, hk]
  norm_num

theorem empty_grammar : assessGrammar (js "") = 5 := by
  have h1 : countSubjectVerbErrors (js "") = 0 := by decide
  have h2 : countArticleErrors (js "") = 0 := by decide
  have h3 : countTenseErrors (js "") = 0 := by decide
  simp only [assessGrammar, h1, h2, h3]
  norm_num

theorem empty_coherence : assessCoherence (js "") = 5 := by
  have h1 : countTopicShifts (js "") = 0 := by decide
  have h2 : connectorCount (js "") = 0 := by decide
  have h3 : (sentencesOf (js "")).length = 0 := by decide
  have h4 : incompleteSentenceCount (sentencesOf (js "")) = 0 := by decide
  simp only [assessCoherence, h1, h2, h3, h4]
  norm_num

/-- C38: for the empty transcript and every duration of at least 1 second,
the pipeline returns a result whose sub-scores are 4 (fluency: the rate is
at most 60 words per minute), 5, 5, 5 and 5, all at least 3.5, whose weighted
score and whose `overallScore` are at least 4.5, and whose level, in the
assessment and in the plan, is `Advanced`. -/
theorem pipeline_empty_advanced (duration : ℚ) (hd : 1 ≤ duration) :
    ∃ result, pipeline asciiLowerCase duration (js "") = some result ∧
      result.2.1.breakdown = ⟨4, 5, 5, 5, 5⟩ ∧
      4.5 ≤ calculateTOEFLScore result.2.1.breakdown ∧
      4.5 ≤ result.2.1.overallScore ∧
      result.2.1.level = "Advanced" ∧
      result.2.2.currentLevel = "Advanced" := by
  obtain ⟨plan, e, hp, hc⟩ := createPlan_isSome (analyze asciiLowerCase duration (js ""))
    (assess (js "") (analyze asciiLowerCase duration (js ""))) (determineLevel_mem _)
  have hpipe : pipeline asciiLowerCase duration (js "") =
      some (analyze asciiLowerCase duration (js ""),
        assess (js "") (analyze asciiLowerCase duration (js "")), plan) := by
    unfold pipeline
    dsimp only
    rw [e]
  obtain ⟨hl, ho, hb⟩ := assess_raw (js "") (analyze asciiLowerCase duration (js ""))
  rw [empty_fluency duration hd, empty_pronunciation duration hd, empty_vocabulary duration,
    empty_grammar, empty_coherence] at hb
  have hraw : calculateTOEFLScore
      (assess (js "") (analyze asciiLowerCase duration (js ""))).breakdown = 4.75 := by
    rw [hb, calculateTOEFLScore_eq]
    norm_num
  have hlevel : (assess (js "") (analyze asciiLowerCase duration (js ""))).level = "Advanced" := by
    rw [hl, hraw]
    unfold determineLevel
    norm_num
  refine ⟨_, hpipe, hb, ?_, ?_, hlevel, ?_⟩
  · show 4.5 ≤ calculateTOEFLScore
      (assess (js "") (analyze asciiLowerCase duration (js ""))).breakdown
    rw [hraw]
    norm_num
  · show 4.5 ≤ (assess (js "") (analyze asciiLowerCase duration (js ""))).overallScore
    rw [ho, hraw, jsRound_eq _ 48 (by norm_num) (by norm_num)]
    norm_num
  · show plan.currentLevel = "Advanced"
    rw [hc, hlevel]

/-- C38, witness: at a duration of 60 seconds. -/
theorem pipeline_empty_advanced_witness :
    (1 : ℚ) ≤ 60 ∧
    ∃ result, pipeline asciiLowerCase 60 (js "") = some result ∧
      result.2.1.breakdown = ⟨4, 5, 5, 5, 5⟩ ∧
      4.5 ≤ calculateTOEFLScore result.2.1.breakdown ∧
      4.5 ≤ result.2.1.overallScore ∧
      result.2.1.level = "Advanced" ∧
      result.2.2.currentLevel = "Advanced" :=
  ⟨by norm_num, pipeline_empty_advanced 60 (by norm_num)⟩

/-! ## Progress estimate -/

theorem round1_le_iff (x : ℚ) (n : ℤ) :
    (jsRound (x * 10) : ℚ) / 10 ≤ (n : ℚ) / 10 ↔ x < (n : ℚ) / 10 + 1 / 20 := by
  rw [div_le_div_iff_of_pos_right (by norm_num : (0 : ℚ) < 10)]
  have h := jsRound_le_iff (x * 10) n
  constructor
  · intro hn
    have := h.mp (by exact_mod_cast hn)
    linarith
  · intro hx
    have := h.mpr (by linarith)
    exact_mod_cast this

theorem target_of_level (raw : ℚ) (h : 1 ≤ raw ∧ raw ≤ 5) :
    ∃ target : ℚ, getTargetScore (determineLevel raw) = .fin target ∧ 0 < target ∧
      (jsRound (raw * 10) : ℚ) / 10 ≤ target ∧ target - 1 ≤ (jsRound (raw * 10) : ℚ) / 10 := by
  have l1 : targetScores.lookup "Beginner" = some 1.5 := by rfl
  have l2 : targetScores.lookup "Lower Intermediate" = some 2.5 := by rfl
  have l3 : targetScores.lookup "Intermediate" = some 3.5 := by rfl
  have l4 : targetScores.lookup "Upper Intermediate" = some 4.5 := by rfl
  have l5 : targetScores.lookup "Advanced" = some 5.0 := by rfl
  have up := fun n : ℤ => (round1_le_iff raw n).mpr
  have low := fun n : ℤ => (ge_round1_iff raw n).mpr
  unfold determineLevel getTargetScore
  split_ifs with a b c d
  · refine ⟨5.0, numberOr_own _ _ _ _ l5, by norm_num, ?_, ?_⟩
    · have := up 50 (by norm_num; linarith [h.2])
      norm_num at this ⊢
      exact this
    · have := low 40 (by norm_num at a ⊢; linarith)
      norm_num at this ⊢
      exact this
  · refine ⟨4.5, numberOr_own _ _ _ _ l4, by norm_num, ?_, ?_⟩
    · have := up 45 (by norm_num at a ⊢; linarith)
      norm_num at this ⊢
      exact this
    · have := low 35 (by norm_num at b ⊢; linarith)
      norm_num at this ⊢
      exact this
  · refine ⟨3.5, numberOr_own _ _ _ _ l3, by norm_num, ?_, ?_⟩
    · have := up 35 (by norm_num at b ⊢; linarith)
      norm_num at this ⊢
      exact this
    · have := low 25 (by norm_num at c ⊢; linarith)
      norm_num at this ⊢
      exact this
  · refine ⟨2.5, numberOr_own _ _ _ _ l2, by norm_num, ?_, ?_⟩
    · have := up 25 (by norm_num at c ⊢; linarith)
      norm_num at this ⊢
      exact this
    · have := low 15 (by norm_num at d ⊢; linarith)
      norm_num at this ⊢
      exact this
  · refine ⟨1.5, numberOr_own _ _ _ _ l1, by norm_num, ?_, ?_⟩
    · have := up 15 (by norm_num at d ⊢; linarith)
      norm_num at this ⊢
      exact this
    · have := low 5 (by norm_num; linarith [h.1])
      norm_num at this ⊢
      exact this

/-- C39: for every transcript and every speech analysis, on the result of
`assess` (whose `overallScore` is the weighted score rounded to one decimal
and whose level is `determineLevel` of the weighted score) the target score
of the level is a number, the reported score does not exceed it and is at
most one point below it, and `estimateProgress` yields a whole
`progressPercentage` of at most 100 and a whole `timeToTarget` between 0 and
3. -/
theorem estimateProgress_bounds (transcript : JsString) (speechAnalysis : SpeechAnalysis) :
    ∃ target : ℚ, ∃ percentage months : ℤ,
      (estimateProgress speechAnalysis (assess transcript speechAnalysis)).targetScore
        = .fin target ∧
      (assess transcript speechAnalysis).overallScore ≤ target ∧
      target - 1 ≤ (assess transcript speechAnalysis).overallScore ∧
      (estimateProgress speechAnalysis (assess transcript speechAnalysis)).progressPercentage
        = .fin percentage ∧
      percentage ≤ 100 ∧
      (estimateProgress speechAnalysis (assess transcript speechAnalysis)).timeToTarget
        = .fin months ∧
      0 ≤ months ∧ months ≤ 3 := by
  obtain ⟨hl, ho, hb⟩ := assess_raw transcript speechAnalysis
  have hraw : 1 ≤ calculateTOEFLScore (assess transcript speechAnalysis).breakdown ∧
      calculateTOEFLScore (assess transcript speechAnalysis).breakdown ≤ 5 := by
    rw [hb]
    exact weighted_mem _ _ _ _ _ (clamp_mem _) (clamp_mem _) (clamp_mem _) (clamp_mem _)
      (clamp_mem _)
  obtain ⟨target, ht, hpos, hle, hge⟩ := target_of_level _ hraw
  rw [← hl] at ht
  rw [← ho] at hle hge
  have hcur1 := (round1_mem _ hraw).1
  rw [← ho] at hcur1
  refine ⟨target, jsRound ((assess transcript speechAnalysis).overallScore / target * 100),
    jsRound ((target - (assess transcript speechAnalysis).overallScore) * 3),
    ht, hle, hge, ?_, ?_, ?_, ?_, ?_⟩
  · simp only [estimateProgress, ht]
    rw [JsNum.div_fin _ _ hpos.ne']
    rfl
  · rw [jsRound_le_iff]
    have : (assess transcript speechAnalysis).overallScore / target ≤ 1 :=
      (div_le_one hpos).mpr hle
    push_cast
    linarith
  · simp only [estimateProgress, estimateTimeToTarget, ht]
    rfl
  · rw [le_jsRound_iff]
    push_cast
    linarith
  · rw [jsRound_le_iff]
    push_cast
    linarith

/-! ## Weak criteria in the priority areas -/

theorem JsNum.lt_mono (x : JsNum) (a b : ℚ) (hab : a ≤ b) (h : x.lt (.fin a) = true) :
    x.lt (.fin b) = true := by
  cases x <;> simp_all [JsNum.lt]
  linarith

theorem firstOfEachArea_subset (l : List PriorityArea) (y : PriorityArea)
    (h : y ∈ Spec.firstOfEachArea l) : y ∈ l := by
  induction l with
  | nil => simp [Spec.firstOfEachArea] at h
  | cons a l ih =>
    rw [Spec.firstOfEachArea, List.mem_cons] at h
    rcases h with h | h
    · exact h ▸ List.mem_cons_self _ _
    · exact List.mem_cons_of_mem _ (ih (List.mem_filter.mp h).1)

theorem firstOfEachArea_area (l : List PriorityArea) (x : PriorityArea) (h : x ∈ l) :
    ∃ y ∈ Spec.firstOfEachArea l, y.area = x.area := by
  induction l with
  | nil => simp at h
  | cons a l ih =>
    rw [Spec.firstOfEachArea]
    by_cases ha : x.area = a.area
    · exact ⟨a, List.mem_cons_self _ _, ha.symm⟩
    · rcases List.mem_cons.mp h with h | h
      · exact absurd (h ▸ rfl) ha
      · obtain ⟨y, hy, e⟩ := ih h
        refine ⟨y, List.mem_cons_of_mem _ (List.mem_filter.mpr ⟨hy, ?_⟩), e⟩
        simp only [decide_eq_true_eq]
        rw [e]
        exact ha

theorem firstOfEachArea_first (pre rest : List PriorityArea) (x : PriorityArea)
    (hpre : ∀ y ∈ pre, y.area ≠ x.area) :
    x ∈ Spec.firstOfEachArea (pre ++ x :: rest) ∧
    ∀ y ∈ Spec.firstOfEachArea (pre ++ x :: rest), y.area = x.area → y = x := by
  induction pre with
  | nil =>
    rw [List.nil_append, Spec.firstOfEachArea]
    refine ⟨List.mem_cons_self _ _, ?_⟩
    intro y hy e
    rcases List.mem_cons.mp hy with h | h
    · exact h
    · have := (List.mem_filter.mp h).2
      simp only [decide_eq_true_eq] at this
      exact absurd e this
  | cons p pre ih =>
    obtain ⟨h1, h2⟩ := ih (fun y hy => hpre y (List.mem_cons_of_mem _ hy))
    have hp : p.area ≠ x.area := hpre p (List.mem_cons_self _ _)
    rw [List.cons_append, Spec.firstOfEachArea]
    constructor
    · refine List.mem_cons_of_mem _ (List.mem_filter.mpr ⟨h1, ?_⟩)
      simp only [decide_eq_true_eq]
      exact Ne.symm hp
    · intro y hy e
      rcases List.mem_cons.mp hy with h | h
      · exact absurd (h ▸ e) hp
      · exact h2 y (List.mem_filter.mp h).1 e

theorem entry_get (b : Breakdown) (e : Criterion × ℚ) (h : e ∈ b.entries) : e.2 = b.get e.1 := by
  simp only [Breakdown.entries, List.mem_cons, List.mem_singleton, List.not_mem_nil,
    or_false] at h
  rcases h with h | h | h | h | h <;> subst h <;> rfl

theorem get_mem_entries (b : Breakdown) (c : Criterion) : (c, b.get c) ∈ b.entries := by
  cases c <;> simp [Breakdown.entries, Breakdown.get]

theorem scoreHit_priority (b : Breakdown) (y : PriorityArea)
    (h : y ∈ b.entries.filterMap (fun entry =>
      if entry.2 < 3 then some ⟨entry.1, .high, .lowScore entry.1 entry.2⟩
      else if entry.2 < 4 then some ⟨entry.1, .medium, .moderateScore entry.1 entry.2⟩
      else none))
    (hlow : b.get y.area < 3) : y.priority = .high := by
  obtain ⟨e, he, hf⟩ := List.mem_filterMap.mp h
  have hg := entry_get b e he
  split_ifs at hf with h1 h2
  · rw [← Option.some.inj hf]
  · have hy := Option.some.inj hf
    rw [← hy] at hlow
    exact absurd (hg ▸ hlow) h1

theorem scoreHit_mem (b : Breakdown) (c : Criterion) (hlow : b.get c < 3) :
    (⟨c, .high, .lowScore c (b.get c)⟩ : PriorityArea) ∈
      b.entries.filterMap (fun entry =>
        if entry.2 < 3 then some ⟨entry.1, .high, .lowScore entry.1 entry.2⟩
        else if entry.2 < 4 then some ⟨entry.1, .medium, .moderateScore entry.1 entry.2⟩
        else none) := by
  rw [List.mem_filterMap]
  exact ⟨(c, b.get c), get_mem_entries b c, by simp [hlow]⟩

theorem identifyPriorityAreas_mem (speechAnalysis : SpeechAnalysis) (toeflScore : ToeflScore)
    (y : PriorityArea) :
    y ∈ identifyPriorityAreas speechAnalysis toeflScore ↔
      y ∈ Spec.firstOfEachArea (Spec.priorityHits speechAnalysis toeflScore.breakdown) := by
  unfold identifyPriorityAreas sortByPriority
  rw [removeDuplicates_eq, priorityHits_eq]
  exact (List.perm_insertionSort _ _).mem_iff

theorem weak_hits_high (speechAnalysis : SpeechAnalysis) (b : Breakdown) (criterion : Criterion)
    (hne : criterion ≠ .vocabulary) (hlow : b.get criterion < 3) :
    ∀ y ∈ Spec.priorityHits speechAnalysis b, y.area = criterion → y.priority = .high := by
  intro y hy e
  unfold Spec.priorityHits at hy
  simp only [List.mem_append] at hy
  rcases hy with (((hy | hy) | hy) | hy) | hy
  · split_ifs at hy
    · rw [List.mem_singleton.mp hy]
    · simp at hy
  · split_ifs at hy
    · rw [List.mem_singleton.mp hy]
    · simp at hy
  · split_ifs at hy
    · rw [List.mem_singleton.mp hy] at e
      exact absurd e.symm hne
    · simp at hy
  · split_ifs at hy
    · rw [List.mem_singleton.mp hy] at e
      exact absurd e.symm hne
    · simp at hy
  · exact scoreHit_priority b y hy (e ▸ hlow)

theorem weak_vocabulary_diversity (speechAnalysis : SpeechAnalysis)
    (h : assessVocabulary speechAnalysis < 3) :
    speechAnalysis.dictionAnalysis.vocabularyDiversity.lt (.fin (1 / 2)) = true := by
  apply JsNum.lt_mono _ 0.4 _ (by norm_num)
  by_contra hd
  rw [assessVocabulary_unclamped, if_neg hd] at h
  split_ifs at h <;> norm_num at h

theorem unrelated_breakdown_medium_wins :
    weakVocabularyScore.breakdown.get .vocabulary < 3 ∧
    identifyPriorityAreas vagueAnalysis weakVocabularyScore =
      [⟨.vocabulary, .medium, .text "Overuse of vague words"⟩] := by
  constructor
  · show (2 : ℚ) < 3
    norm_num
  · unfold identifyPriorityAreas
    rw [removeDuplicates_eq, sortByPriority_eq, priorityHits_eq]
    have hhits : Spec.priorityHits vagueAnalysis weakVocabularyScore.breakdown =
        [⟨.vocabulary, .medium, .text "Overuse of vague words"⟩,
          ⟨.vocabulary, .high, .lowScore .vocabulary 2⟩] := by
      simp only [Spec.priorityHits, vagueAnalysis, weakVocabularyScore, Breakdown.entries,
        List.filterMap, JsNum.gt_fin, JsNum.lt_fin, List.length_nil]
      norm_num
    rw [hhits]
    decide

theorem weak_pair (transcript : JsString) (speechAnalysis : SpeechAnalysis)
    (criterion : Criterion)
    (h : (assess transcript speechAnalysis).breakdown.get criterion < 3) :
    (∃ a ∈ identifyPriorityAreas speechAnalysis (assess transcript speechAnalysis),
      a.area = criterion ∧ a.priority = .high) ∧
    (∀ a ∈ identifyPriorityAreas speechAnalysis (assess transcript speechAnalysis),
      a.area = criterion → a.priority = .high) := by
  by_cases hv : criterion = .vocabulary
  · subst hv
    have hlt : assessVocabulary speechAnalysis < 3 := h
    have hd := weak_vocabulary_diversity speechAnalysis hlt
    have hshape : ∀ (A C D E : List PriorityArea) (x : PriorityArea),
        A ++ [x] ++ C ++ D ++ E = A ++ x :: (C ++ D ++ E) := by
      intro A C D E x
      simp
    obtain ⟨h1, h2⟩ :
        (⟨.vocabulary, .high, .text "Limited vocabulary diversity"⟩ : PriorityArea) ∈
          Spec.firstOfEachArea
            (Spec.priorityHits speechAnalysis (assess transcript speechAnalysis).breakdown) ∧
        ∀ y ∈ Spec.firstOfEachArea
            (Spec.priorityHits speechAnalysis (assess transcript speechAnalysis).breakdown),
          y.area = Criterion.vocabulary →
            y = ⟨.vocabulary, .high, .text "Limited vocabulary diversity"⟩ := by
      unfold Spec.priorityHits
      rw [if_pos hd, hshape]
      apply firstOfEachArea_first
      intro y hy
      split_ifs at hy
      · rw [List.mem_singleton.mp hy]
        decide
      · simp at hy
    constructor
    · exact ⟨_, (identifyPriorityAreas_mem _ _ _).mpr h1, rfl, rfl⟩
    · intro a ha e
      rw [h2 a ((identifyPriorityAreas_mem _ _ _).mp ha) e]
  · have hall := weak_hits_high speechAnalysis (assess transcript speechAnalysis).breakdown
      criterion hv h
    have hmem : (⟨criterion, .high,
        .lowScore criterion ((assess transcript speechAnalysis).breakdown.get criterion)⟩ :
          PriorityArea) ∈
        Spec.priorityHits speechAnalysis (assess transcript speechAnalysis).breakdown := by
      unfold Spec.priorityHits
      exact List.mem_append_right _ (scoreHit_mem _ criterion h)
    obtain ⟨y, hy, e⟩ := firstOfEachArea_area _ _ hmem
    have hyc : y.area = criterion := e
    constructor
    · exact ⟨y, (identifyPriorityAreas_mem _ _ _).mpr hy, hyc,
        hall y (firstOfEachArea_subset _ _ hy) hyc⟩
    · intro a ha e2
      exact hall a (firstOfEachArea_subset _ _ ((identifyPriorityAreas_mem _ _ _).mp ha)) e2

/-- C40: for every transcript and every speech analysis `S`, with the
assessment computed by `assess` from that same `S`, every criterion whose
sub-score in the breakdown is below 3 has an entry in
`identifyPriorityAreas(S, assess(transcript, S))` with priority `high`, and
every entry of that list for the criterion has priority `high`; whereas for
an analysis with four vague words and an unrelated assessment with
vocabulary sub-score 2 the only entry is the `medium` one of the vague
words. -/
theorem weak_criteria_are_high (transcript : JsString) (speechAnalysis : SpeechAnalysis)
    (criterion : Criterion)
    (h : (assess transcript speechAnalysis).breakdown.get criterion < 3) :
    (∃ a ∈ identifyPriorityAreas speechAnalysis (assess transcript speechAnalysis),
      a.area = criterion ∧ a.priority = .high) ∧
    (∀ a ∈ identifyPriorityAreas speechAnalysis (assess transcript speechAnalysis),
      a.area = criterion → a.priority = .high) ∧
    (weakVocabularyScore.breakdown.get .vocabulary < 3 ∧
      identifyPriorityAreas vagueAnalysis weakVocabularyScore =
        [⟨.vocabulary, .medium, .text "Overuse of vague words"⟩]) :=
  ⟨(weak_pair transcript speechAnalysis criterion h).1,
    (weak_pair transcript speechAnalysis criterion h).2, unrelated_breakdown_medium_wins⟩

/-- C40, witness: at a duration of 60 seconds the transcript
`um uh like um uh like` has the fluency sub-score 2.5. -/
theorem weak_criteria_are_high_witness :
    (assess fillerTranscript (analyze asciiLowerCase 60 fillerTranscript)).breakdown.get
      .fluency < 3 ∧
    (∃ a ∈ identifyPriorityAreas (analyze asciiLowerCase 60 fillerTranscript)
        (assess fillerTranscript (analyze asciiLowerCase 60 fillerTranscript)),
      a.area = .fluency ∧ a.priority = .high) ∧
    (∀ a ∈ identifyPriorityAreas (analyze asciiLowerCase 60 fillerTranscript)
        (assess fillerTranscript (analyze asciiLowerCase 60 fillerTranscript)),
      a.area = .fluency → a.priority = .high) ∧
    (weakVocabularyScore.breakdown.get .vocabulary < 3 ∧
      identifyPriorityAreas vagueAnalysis weakVocabularyScore =
        [⟨.vocabulary, .medium, .text "Overuse of vague words"⟩]) :=
  have h : (assess fillerTranscript (analyze asciiLowerCase 60 fillerTranscript)).breakdown.get
      .fluency < 3 := by
    show assessFluency (analyze asciiLowerCase 60 fillerTranscript) < 3
    rw [filler_fluency_60]
    norm_num
  ⟨h, weak_criteria_are_high fillerTranscript (analyze asciiLowerCase 60 fillerTranscript)
    .fluency h⟩

end Talk
